import Mathlib

/-!
# SymphonyElectron: the notification scheduler of `src/js/notify/electron-notify.js`

A shallow embedding of the module-level state of `electron-notify.js` and of
the functions that mutate it, followed by theorems about them.

Conventions of the embedding.

* JavaScript object references to `BrowserWindow`s are indices into a registry
  (`State.windows`); the lists `activeNotifications` and `inactiveWindows` hold
  such indices, so that one window can be named from several places, as in the
  source.
* Client callbacks (`onShowFunc`, `onClickFunc`, `onCloseFunc`, `onErrorFunc`)
  are opaque: a callback is a number naming it, and calling it appends an
  `Event` to `State.events`; so does sending a notification's contents to a
  window.
* Numbers are integers. A window coordinate is an `Option Int`, `none` standing
  for the `NaN` that `parseInt(undefined, 10)` yields.
* Timers created by `setTimeout` sit in `State.timers` until they fire or are
  cleared.
* A task of the animation queue runs to completion in one step (`runNext`);
  the waiting inside a task (window load, animation ticks) is not interleaved
  with other steps. Exceptions thrown by Electron (for example on a destroyed
  window) are not modelled.
-/

namespace ElectronNotify

set_option maxRecDepth 100000

/-! ## Data model -/

/-- Name of a client callback function. -/
abbrev Callback := Nat

/-- The constant `MAX_QUEUE_SIZE` (line 21). -/
def MAX_QUEUE_SIZE : Nat := 30

/-- The object a caller hands to `notify`: display fields and optional
callbacks. `content` stands for title, text, image and the like. -/
structure Request where
  content : Nat
  displayTime : Option Int
  onShowFunc : Option Callback
  onClickFunc : Option Callback
  onCloseFunc : Option Callback
  onErrorFunc : Option Callback
deriving DecidableEq, Repr

/-- The shallow copy `notf` that `notify` makes of its argument, with
`notf.id` set (lines 248-250). -/
structure NotificationObj where
  id : Nat
  request : Request
deriving DecidableEq, Repr

/-- The argument list of one `notify(...)` call: its first argument, the value
of `arguments.length`, and whether `typeof notification === 'object'`. The
first argument is read as an object with an optional `onErrorFunc`; a call
with `undefined` or `null` there is outside the model. -/
structure NotifyCall where
  notification : Request
  argumentsLength : Nat
  isObject : Bool
deriving DecidableEq, Repr

/-- A `BrowserWindow` used for notifications, with the two callback properties
the module attaches to it. `contents` is what the last `set-contents` message
put on display (`none` after `electron-notify-reset`). -/
structure NotificationWindow where
  x : Option Int
  y : Option Int
  visible : Bool
  destroyed : Bool
  electronNotifyOnClickFunc : Option Callback
  electronNotifyOnCloseFunc : Option Callback
  contents : Option NotificationObj
deriving DecidableEq, Repr

/-- The values of `config.startCorner`; `other` is any string that is none of
the four names (the `default:` arms of the switches). -/
inductive Corner where
  | upperRight
  | lowerRight
  | lowerLeft
  | upperLeft
  | other
deriving DecidableEq, Repr

/-- A point with integer coordinates. -/
structure Point where
  x : Int
  y : Int
deriving DecidableEq, Repr

/-- The fields of `config` (lines 45-126) that the scheduler reads, and the
derived fields written by `calcDimensions` and `setupConfig`. The derived
fields (`corner`, `totalHeight`, `totalWidth`, `firstPos`,
`maxVisibleNotifications`) are `undefined` until `setupConfig` has run; every
one of them is assigned by `setupConfig`. The configured sizes are pixel
counts, not negative. -/
structure Config where
  startCorner : Corner
  width : Nat
  height : Nat
  padding : Nat
  displayTime : Int
  animationSteps : Nat
  animationStepMs : Nat
  animateInParallel : Bool
  logging : Bool
  corner : Point
  totalHeight : Int
  totalWidth : Int
  firstPos : Point
  maxVisibleNotifications : Int
deriving DecidableEq, Repr

/-- What `electron.screen.getPrimaryDisplay()` returns, as far as
`setupConfig` reads it; the size of the work area is not negative. -/
structure Display where
  boundsX : Int
  boundsY : Int
  workAreaX : Int
  workAreaY : Int
  workAreaWidth : Nat
  workAreaHeight : Nat
deriving DecidableEq, Repr

/-- The object `nextInsertPos`; a missing property is `none`. -/
structure InsertPos where
  x : Option Int
  y : Option Int
deriving DecidableEq, Repr

/-- A task pushed on the animation queue: `func` is `showNotification` with
one notification, or a function built by `buildCloseNotification` (its three
captured arguments) with the event name as argument. `timeoutId` is what
`getTimeoutId()` returns, `none` when no getter was passed. -/
inductive Task where
  | show (notf : NotificationObj)
  | close (win : Nat) (notf : NotificationObj) (timeoutId : Option Nat) (event : String)
deriving DecidableEq, Repr

/-- What a pending `setTimeout` does when it fires: the auto-dismiss timer of
`showNotification` (lines 288-290) or the deferred `onErrorFunc` call of
`notify` (lines 236-241). -/
inductive TimerAction where
  | autoClose (win : Nat) (notf : NotificationObj)
  | onError (cb : Callback) (id : Nat) (error : String)
deriving DecidableEq, Repr

/-- A pending timer. -/
structure Timer where
  id : Nat
  delay : Int
  action : TimerAction
deriving DecidableEq, Repr

/-- What the module does to the outside, in the order it happens: calls of
client callbacks, the `electron-notify-set-contents` message that puts a
notification on display in a window, and lines logged. `onShow` and `onClick`
hand the client a `closeNotification` function, recorded by the window,
notification and timer it captures. `onClose` carries the `id` only when the
caller passes one (`closeAll` does not). -/
inductive Event where
  | setContents (win : Nat) (notf : NotificationObj)
  | onShow (cb : Callback) (id : Nat) (win : Nat) (timeoutId : Option Nat)
  | onClick (cb : Callback) (id : Nat) (win : Nat)
  | onClose (cb : Callback) (event : String) (id : Option Nat)
  | onError (cb : Callback) (id : Nat) (error : String)
  | log (msg : String)
deriving DecidableEq, Repr

/-- Modelled from the spec: `AnimationQueue.js` is required by the module but
is not among the sources. The spec (4.3) describes a FIFO task queue with
concurrency 1: tasks run one at a time in submission order, a task is complete
only when its asynchronous result settles, and `clear()` drops all pending
tasks without running them. `pending` are the submitted tasks that have not
started; `stalled` records that a started task never settles, after which no
further task starts. -/
structure AnimationQueue where
  pending : List Task
  stalled : Bool
deriving DecidableEq, Repr

/-- Modelled from the spec: `push` of the missing `AnimationQueue.js` submits a
task behind all pending ones (tasks run in submission order). -/
def AnimationQueue.push (q : AnimationQueue) (t : Task) : AnimationQueue :=
  { q with pending := q.pending ++ [t] }

/-- Modelled from the spec: `clear()` of the missing `AnimationQueue.js` drops
all pending tasks without running them. -/
def AnimationQueue.clear (q : AnimationQueue) : AnimationQueue :=
  { q with pending := [] }

/-- The module-level variables of `electron-notify.js` (lines 25-45), the
registry of windows created so far, the pending timers and the trace of
outside effects. `closedNotifications` lists the ids whose flag is set. -/
structure State where
  config : Config
  windows : List NotificationWindow
  activeNotifications : List Nat
  inactiveWindows : List Nat
  notificationQueue : List NotificationObj
  animationQueue : AnimationQueue
  closedNotifications : List Nat
  latestID : Nat
  nextInsertPos : InsertPos
  timers : List Timer
  nextTimer : Nat
  events : List Event
deriving DecidableEq, Repr

/-! ## Small helpers for JavaScript built-ins -/

/-- Apply `f` to the window registered under `w`, if there is one. -/
def modifyWindow (ws : List NotificationWindow) (w : Nat)
    (f : NotificationWindow → NotificationWindow) : List NotificationWindow :=
  match ws, w with
  | [], _ => []
  | a :: rest, 0 => f a :: rest
  | a :: rest, n + 1 => a :: modifyWindow rest n f

/-- The result of `Array.prototype.indexOf`: the first index holding `w`, or
`-1`. -/
def indexOf (l : List Nat) (w : Nat) : Int :=
  match l with
  | [] => -1
  | a :: rest => if a = w then 0 else
      (if indexOf rest w = -1 then -1 else indexOf rest w + 1)

/-- The array left by `splice(pos, 1)`: a negative `pos` counts from the end
(clamped at 0), a `pos` beyond the end removes nothing. -/
def splice1 (l : List Nat) (pos : Int) : List Nat :=
  if 0 ≤ pos then l.eraseIdx pos.toNat
  else l.eraseIdx ((l.length : Int) + pos).toNat

/-- The number an array coerces to in a comparison such as
`startPos >= activeNotifications`: the empty array gives `0`; an array of
window objects gives `NaN` (`none`). -/
def arrayToNumber (l : List Nat) : Option Int :=
  match l with
  | [] => some 0
  | _ :: _ => none

/-- The comparison `a >= b` where `b` may be `NaN`. -/
def geNumber (a : Int) (b : Option Int) : Bool :=
  match b with
  | some v => decide (v ≤ a)
  | none => false

/-! ## Geometry -/

/-- The quotient `Math.floor(a / b)` as `setupConfig` uses it (lines 226-227).
For `b = 0` JavaScript yields `Infinity` when `a > 0`, which the next line of
the source caps to 5 (here: 6, any integer above the cap), and `-Infinity` or
`NaN` otherwise, for which every test `length < maxVisibleNotifications` is
false, as it is for `0`. -/
def mathFloorDiv (a b : Int) : Int :=
  if b = 0 then (if 0 < a then 6 else 0) else Int.fdiv a b

/-- The function `calcDimensions` (lines 156-191): footprint, position of the
first notification, and `nextInsertPos`. -/
def calcDimensions (s : State) : State :=
  let totalHeight : Int := s.config.height + s.config.padding
  let totalWidth : Int := s.config.width + s.config.padding
  let firstPos : Point :=
    match s.config.startCorner with
    | Corner.upperRight => { x := s.config.corner.x - totalWidth, y := s.config.corner.y }
    | Corner.lowerRight =>
        { x := s.config.corner.x - totalWidth, y := s.config.corner.y - totalHeight }
    | Corner.lowerLeft => { x := s.config.corner.x, y := s.config.corner.y - totalHeight }
    | _ => { x := s.config.corner.x, y := s.config.corner.y }
  { s with
    config := { s.config with
      totalHeight := totalHeight, totalWidth := totalWidth, firstPos := firstPos }
    nextInsertPos := { x := some firstPos.x, y := some firstPos.y } }

/-- The vertical position of stacking index `i`, as computed by both
`calcInsertPos` (lines 492-503) and `moveNotificationAnimation`
(lines 453-463): the `default:` arm goes with the lower corners. -/
def slotY (c : Config) (i : Nat) : Int :=
  match c.startCorner with
  | Corner.upperRight => c.corner.y + c.totalHeight * i
  | Corner.upperLeft => c.corner.y + c.totalHeight * i
  | _ => c.corner.y - c.totalHeight * (i + 1)

/-- The function `calcInsertPos` (lines 490-505). -/
def calcInsertPos (s : State) : State :=
  if (s.activeNotifications.length : Int) < s.config.maxVisibleNotifications then
    { s with
      nextInsertPos :=
        { s.nextInsertPos with y := some (slotY s.config s.activeNotifications.length) } }
  else s

/-- The function `setWindowPosition` (lines 483-485): `parseInt` keeps an
integer and turns `undefined` into `NaN`. -/
def setWindowPosition (s : State) (w : Nat) (posX posY : Option Int) : State :=
  { s with windows := modifyWindow s.windows w (fun win => { win with x := posX, y := posY }) }

/-! ## Windows -/

/-- The function `cleanUpInactiveWindow` (lines 565-570). -/
def cleanUpInactiveWindow (s : State) : State :=
  { s with
    windows := s.inactiveWindows.foldl
      (fun ws w => modifyWindow ws w (fun win => { win with destroyed := true, visible := false }))
      s.windows
    inactiveWindows := [] }

/-- The body of the `forEach` in `closeAll` (lines 540-551) for one window. -/
def closeAllWindow (s : State) (w : Nat) : State :=
  let s1 : State :=
    match s.windows[w]? with
    | some win =>
        (match win.electronNotifyOnCloseFunc with
          | some cb =>
              { s with
                events := s.events ++ [Event.onClose cb "close-all" none]
                windows := modifyWindow s.windows w
                  (fun v => { v with electronNotifyOnCloseFunc := none }) }
          | none => s)
    | none => s
  { s1 with
    windows := modifyWindow s1.windows w
      (fun v => { v with destroyed := true, visible := false }) }

/-- The function `closeAll` (lines 536-558). -/
def closeAll (s : State) : State :=
  let s1 := { s with animationQueue := s.animationQueue.clear }
  let s2 := s1.activeNotifications.foldl closeAllWindow s1
  let s3 := cleanUpInactiveWindow s2
  { s3 with nextInsertPos := { x := none, y := none }, activeNotifications := [] }

/-- The function `setupConfig` (lines 193-228) for the primary display `d`. -/
def setupConfig (d : Display) (s : State) : State :=
  let s1 := closeAll s
  let cx : Int := d.boundsX + d.workAreaX
  let cy : Int := d.boundsY + d.workAreaY
  let corner : Point :=
    match s1.config.startCorner with
    | Corner.upperRight => { x := cx + d.workAreaWidth, y := cy }
    | Corner.lowerRight => { x := cx + d.workAreaWidth, y := cy + d.workAreaHeight }
    | Corner.lowerLeft => { x := cx, y := cy + d.workAreaHeight }
    | _ => { x := cx, y := cy }
  let s2 := calcDimensions { s1 with config := { s1.config with corner := corner } }
  let m := mathFloorDiv d.workAreaHeight s2.config.totalHeight
  { s2 with config := { s2.config with maxVisibleNotifications := if 5 < m then 5 else m } }

/-- The function `getWindow` (lines 512-534): the last inactive window, or a
new one registered under the next free index (Electron centres a new window;
the module positions it before reading its position). The wait for
`did-finish-load` is taken to end. -/
def getWindow (s : State) : State × Nat :=
  match s.inactiveWindows.getLast? with
  | some w => ({ s with inactiveWindows := s.inactiveWindows.dropLast }, w)
  | none =>
      ({ s with
          windows := s.windows ++
            [{ x := some 0, y := some 0, visible := false, destroyed := false,
               electronNotifyOnClickFunc := none, electronNotifyOnCloseFunc := none,
               contents := none }] },
       s.windows.length)

/-! ## Numbers

The intermediate positions of an animation are JavaScript numbers, not
integers: the quotient `(newY - startY) / animationSteps` is rounded to the
nearest binary64 number, and so are the product and the sum formed from it.
Integers are taken to be exact. -/

/-- A finite JavaScript number (IEEE 754 binary64): the value
`mantissa * 2 ^ exponent`, with `|mantissa| ≤ 2 ^ 53` and
`exponent ≥ -1074`. -/
structure Binary64 where
  mantissa : Int
  exponent : Int
deriving DecidableEq, Repr

/-- The number of binary digits of `n`; `fuel` bounds the number of digits
looked at. -/
def bitLength : Nat → Nat → Nat
  | 0, _ => 0
  | fuel + 1, n => if n = 0 then 0 else bitLength fuel (n / 2) + 1

/-- The integer nearest to `p / q` (for `q > 0`), a tie going to the even
one: the rounding mode of JavaScript arithmetic. -/
def roundNearestEven (p : Int) (q : Nat) : Int :=
  let f : Int := p / q
  let r : Int := p - f * q
  if 2 * r < q then f
  else if (q : Int) < 2 * r then f + 1
  else if f % 2 = 0 then f else f + 1

/-- The exponent of the JavaScript number nearest to `a / q`, for positive
`a` and `q`: 52 below the position of the leading bit of `a / q`, and at
least -1074 (subnormal numbers). -/
def binaryExponent (a q : Nat) : Int :=
  let l : Int := (bitLength a a : Int) - (bitLength q q : Int)
  let big : Bool :=
    if 0 ≤ l then decide (q * 2 ^ l.toNat ≤ a) else decide (q ≤ a * 2 ^ (-l).toNat)
  let e0 : Int := (if big then l else l - 1) - 52
  if e0 < -1074 then -1074 else e0

/-- The JavaScript number nearest to the rational `p / q`: 53 significant
bits, exponent at least -1074, ties to even. `none`: the result is not finite
(`q = 0`, or beyond the largest number); all such values are printed by
`parseInt` as `NaN`. -/
def toBinary64 (p : Int) (q : Nat) : Option Binary64 :=
  if q = 0 then none
  else if p = 0 then some { mantissa := 0, exponent := 0 }
  else
    let e : Int := binaryExponent p.natAbs q
    let m : Int :=
      if 0 ≤ e then roundNearestEven p (q * 2 ^ e.toNat)
      else roundNearestEven (p * 2 ^ (-e).toNat) q
    if 971 < e ∨ (e = 971 ∧ m.natAbs = 2 ^ 53) then none
    else some { mantissa := m, exponent := e }

/-- The JavaScript quotient `a / b` of two integers. -/
def numberDiv (a : Int) (b : Nat) : Option Binary64 :=
  if b = 0 then none else toBinary64 a b

/-- The JavaScript product `k * x` of an integer and a number. -/
def numberMul (k : Int) : Option Binary64 → Option Binary64
  | none => none
  | some x =>
      if 0 ≤ x.exponent then toBinary64 (k * x.mantissa * 2 ^ x.exponent.toNat) 1
      else toBinary64 (k * x.mantissa) (2 ^ (-x.exponent).toNat)

/-- The JavaScript sum `a + x` of an integer and a number. -/
def numberAdd (a : Int) : Option Binary64 → Option Binary64
  | none => none
  | some x =>
      if 0 ≤ x.exponent then toBinary64 (a + x.mantissa * 2 ^ x.exponent.toNat) 1
      else toBinary64 (a * 2 ^ (-x.exponent).toNat + x.mantissa) (2 ^ (-x.exponent).toNat)

/-- Whether `p / q < 10 ^ n`, for `q > 0`. -/
def ltPow10 (p q : Nat) (n : Int) : Bool :=
  if 0 ≤ n then decide (p < q * 10 ^ n.toNat) else decide (p * 10 ^ (-n).toNat < q)

/-- The least `n` from `n0` on with `p / q < 10 ^ n`; `fuel` bounds the
search. -/
def decimalExponent (p q : Nat) : Nat → Int → Int
  | 0, n => n
  | fuel + 1, n => if ltPow10 p q n then n else decimalExponent p q fuel (n + 1)

/-- The least `n` with `p / q < 10 ^ n`, for `p > 0`, searched downwards from
an `n0` with `p / q < 10 ^ n0`; `fuel` bounds the search. -/
def decimalExponentDown (p q : Nat) : Nat → Int → Int
  | 0, n => n
  | fuel + 1, n => if ltPow10 p q (n - 1) then decimalExponentDown p q fuel (n - 1) else n

/-- Whether the decimal `c * 10 ^ j` is read back as the number `x`. -/
def readsBackAs (c : Nat) (j : Int) (x : Binary64) : Bool :=
  let y : Option Binary64 :=
    if 0 ≤ j then toBinary64 (c * 10 ^ j.toNat) 1 else toBinary64 c (10 ^ (-j).toNat)
  match y with
  | none => false
  | some b =>
      if x.exponent ≤ b.exponent then
        decide (b.mantissa * 2 ^ (b.exponent - x.exponent).toNat = x.mantissa)
      else decide (b.mantissa = x.mantissa * 2 ^ (x.exponent - b.exponent).toNat)

/-- The first digit of a `k`-digit decimal `c` (with `c = 10 ^ k` standing for
a one followed by zeros). -/
def leadingDigit (c k : Nat) : Nat :=
  if c = 10 ^ k then 1 else c / 10 ^ (k - 1)

/-- The first significant digit of `Number::toString` for the positive
number `p / q` that is the value of `x`, whose decimal exponent is `n`: the
shortest digit string that is read back as `x` is looked for, `k` digits at a
time; of two such strings of the same length the one nearer to `x` is taken
(the even one on a tie). -/
def firstDigitFrom (p q : Nat) (x : Binary64) (n : Int) : Nat → Nat → Nat
  | 0, _ => 0
  | fuel + 1, k =>
      let j : Int := n - k
      let pj : Nat := if 0 ≤ j then p else p * 10 ^ (-j).toNat
      let qj : Nat := if 0 ≤ j then q * 10 ^ j.toNat else q
      let lo : Nat := pj / qj
      let hi : Nat := lo + 1
      let okLo : Bool := readsBackAs lo j x && decide (10 ^ (k - 1) ≤ lo)
      let okHi : Bool := readsBackAs hi j x
      if okLo && okHi then
        let dLo : Nat := pj - lo * qj
        let dHi : Nat := hi * qj - pj
        if dLo < dHi then leadingDigit lo k
        else if dHi < dLo then leadingDigit hi k
        else if lo % 2 = 0 then leadingDigit lo k else leadingDigit hi k
      else if okLo then leadingDigit lo k
      else if okHi then leadingDigit hi k
      else firstDigitFrom p q x n fuel (k + 1)

/-- The call `parseInt(x, 10)` for a number `x` (`setWindowPosition`,
line 484): `x` is converted to a string and the leading integer of the
string is read. From `1e-6` up to `1e21` the string is in decimal notation
and the result is `x` truncated towards zero; outside of that it is in
exponent notation and the result is its first digit. `none`: `NaN`. -/
def parseIntNumber : Option Binary64 → Option Int
  | none => none
  | some x =>
      if x.mantissa = 0 then some 0
      else
        let p : Nat := if 0 ≤ x.exponent then x.mantissa.natAbs * 2 ^ x.exponent.toNat
          else x.mantissa.natAbs
        let q : Nat := if 0 ≤ x.exponent then 1 else 2 ^ (-x.exponent).toNat
        let sign : Int := if x.mantissa < 0 then -1 else 1
        if ltPow10 p q (-6) ∨ ¬ ltPow10 p q 21 then
          let n : Int :=
            if ltPow10 p q (-6) then decimalExponentDown p q 330 (-6)
            else decimalExponent p q 300 22
          some (sign * firstDigitFrom p q { x with mantissa := x.mantissa.natAbs } n 17 1)
        else some (sign * (p / q : Nat))

/-- The call `parseInt(n, 10)` of `setWindowPosition` (line 484) for an
integer `n`, read as the JavaScript number nearest to it. An integer that is
a JavaScript number and is below `1e21` in size is returned unchanged; from
`1e21` on its string is in exponent notation and the result is the first
digit. -/
def parseIntInteger (n : Int) : Option Int :=
  parseIntNumber (toBinary64 n 1)

/-! ## Animation -/

/-- The position `parseInt(startY + curStep * step, 10)` that a tick before
the last one sets (lines 478 and 484), with `step = (newY - startY) /
animationSteps` (line 467), in JavaScript arithmetic. -/
def frameY (animationSteps : Nat) (startY newY : Int) (curStep : Nat) : Option Int :=
  parseIntNumber
    (numberAdd startY (numberMul curStep (numberDiv (newY - startY) animationSteps)))

/-- The ticks of the interval in `moveNotificationAnimation` (lines 468-480),
`fuel` bounding how many ticks are run; `curStep` is the counter and `frames`
the vertical positions set so far. A tick with `curStep === animationSteps`
sets `newY` and calls `done`; any other tick sets
`parseInt(startY + curStep * step)` and increments the counter. `none`:
`done` was not called within `fuel` ticks. The last tick passes `newY`
through `parseInt` as well (lines 472 and 484); `newY` is an integer position
here, which `parseInt` returns unchanged as long as it is below `1e21` in
size (`parseIntInteger`), and the frame is `newY` itself. -/
def animationLoop (animationSteps : Nat) (startY newY : Int) :
    Nat → Nat → List (Option Int) → Option (List (Option Int))
  | 0, _, _ => none
  | fuel + 1, curStep, frames =>
      if curStep = animationSteps then some (frames ++ [some newY])
      else animationLoop animationSteps startY newY fuel (curStep + 1)
        (frames ++ [frameY animationSteps startY newY curStep])

/-- The vertical coordinate `getPosition()[1]` of window `w`; the module sets a
number there before it reads one. -/
def getPositionY (s : State) (w : Nat) : Int :=
  match s.windows[w]? with
  | some win => win.y.getD 0
  | none => 0

/-- The function `moveNotificationAnimation` (lines 447-481) for index `i`:
the window at `i` is moved through the frames of the animation; `none` when
`done` is never called. -/
def moveNotificationAnimation (s : State) (i : Nat) : Option State :=
  match s.activeNotifications[i]? with
  | none => some s
  | some w =>
      let newY := slotY s.config i
      let startY := getPositionY s w
      match animationLoop s.config.animationSteps startY newY s.config.animationSteps 1 [] with
      | none => none
      | some frames =>
          some (frames.foldl
            (fun t y => setWindowPosition t w (some s.config.firstPos.x) y) s)

/-- Run `moveNotificationAnimation` for each index of the list in turn (the
animations of one `moveOneDown` touch the windows in index order, in parallel
or in series). -/
def animateAll (s : State) : List Nat → Option State
  | [] => some s
  | i :: rest =>
      match moveNotificationAnimation s i with
      | none => none
      | some t => animateAll t rest

/-- The function `moveOneDown` (lines 425-445). The guard compares `startPos`
with the array itself; `none` when the promise never resolves. -/
def moveOneDown (s : State) (startPos : Int) : Option State :=
  if geNumber startPos (arrayToNumber s.activeNotifications) ∨ startPos = -1 then some s
  else animateAll s
    (List.range' startPos.toNat (s.activeNotifications.length - startPos.toNat))

/-! ## Scheduler -/

/-- The function `checkForQueuedNotifications` (lines 408-417). -/
def checkForQueuedNotifications (s : State) : State :=
  match s.notificationQueue with
  | [] => s
  | next :: rest =>
      if (s.activeNotifications.length : Int) < s.config.maxVisibleNotifications then
        { s with
          notificationQueue := rest
          animationQueue := s.animationQueue.push (Task.show next) }
      else s

/-- The delay of the auto-dismiss timer (line 280): the notification's
`displayTime` when it is truthy, else `config.displayTime`. -/
def displayTimeOf (c : Config) (notf : NotificationObj) : Int :=
  match notf.request.displayTime with
  | some t => if t ≠ 0 then t else c.displayTime
  | none => c.displayTime

/-- The function `showNotification` (lines 266-330). -/
def showNotification (s : State) (notificationObj : NotificationObj) : State :=
  if (s.activeNotifications.length : Int) < s.config.maxVisibleNotifications then
    let s1 : State := (getWindow s).1
    let notificationWindow : Nat := (getWindow s).2
    let s2 : State := calcInsertPos s1
    let s3 : State := setWindowPosition s2 notificationWindow s2.nextInsertPos.x s2.nextInsertPos.y
    let s4 : State := { s3 with activeNotifications := s3.activeNotifications ++ [notificationWindow] }
    let timeoutId := s4.nextTimer
    let s5 : State := { s4 with
      timers := s4.timers ++
        [{ id := timeoutId, delay := displayTimeOf s4.config notificationObj,
           action := TimerAction.autoClose notificationWindow notificationObj }]
      nextTimer := timeoutId + 1 }
    let s6 : State :=
      match notificationObj.request.onShowFunc with
      | some cb =>
          { s5 with
            events := s5.events ++
              [Event.onShow cb notificationObj.id notificationWindow (some timeoutId)] }
      | none => s5
    { s6 with
      events := s6.events ++ [Event.setContents notificationWindow notificationObj]
      windows := modifyWindow s6.windows notificationWindow (fun win =>
        { win with
          electronNotifyOnClickFunc := notificationObj.request.onClickFunc
          electronNotifyOnCloseFunc := notificationObj.request.onCloseFunc
          contents := some notificationObj
          visible := true }) }
  else
    { s with notificationQueue := s.notificationQueue ++ [notificationObj] }

/-- The part of the function built by `buildCloseNotification` that runs when
the closed flag is not set (lines 339-368), up to the call of `moveOneDown`;
returns the state and `pos`. -/
def closeBody (s : State) (notificationWindow : Nat) (notificationObj : NotificationObj)
    (timeoutId : Option Nat) (event : String) : State × Int :=
  let s1 : State := { s with closedNotifications := notificationObj.id :: s.closedNotifications }
  let s2 : State :=
    match s1.windows[notificationWindow]?.bind (fun win => win.electronNotifyOnCloseFunc) with
    | some cb =>
        { s1 with
          events := s1.events ++ [Event.onClose cb event (some notificationObj.id)]
          windows := modifyWindow s1.windows notificationWindow
            (fun win => { win with electronNotifyOnCloseFunc := none }) }
    | none => s1
  let s3 : State := { s2 with
    windows := modifyWindow s2.windows notificationWindow
      (fun win => { win with contents := none }) }
  let s4 : State :=
    match timeoutId with
    | some tid => { s3 with timers := s3.timers.filter (fun t => t.id ≠ tid) }
    | none => s3
  let pos := indexOf s4.activeNotifications notificationWindow
  let s5 : State := { s4 with
    activeNotifications := splice1 s4.activeNotifications pos
    inactiveWindows := s4.inactiveWindows ++ [notificationWindow] }
  let s6 : State := { s5 with
    windows := modifyWindow s5.windows notificationWindow
      (fun win => { win with visible := false }) }
  (checkForQueuedNotifications s6, pos)

/-- The function returned by `buildCloseNotification(notificationWindow,
notificationObj, getTimeoutId)` applied to `event` (lines 334-372). `none`
when the returned promise never resolves. -/
def closeNotification (s : State) (notificationWindow : Nat) (notificationObj : NotificationObj)
    (timeoutId : Option Nat) (event : String) : Option State :=
  if notificationObj.id ∈ s.closedNotifications then
    some { s with
      closedNotifications := s.closedNotifications.filter (fun i => i ≠ notificationObj.id) }
  else
    moveOneDown (closeBody s notificationWindow notificationObj timeoutId event).1
      (closeBody s notificationWindow notificationObj timeoutId event).2

/-- The function `log` (lines 572-578). -/
def log (s : State) (msg : String) : State :=
  if s.config.logging then { s with events := s.events ++ [Event.log msg] } else s

/-- The text of the capacity error (line 239). -/
def queueFullError : String :=
  "max notification queue size reached: " ++ toString MAX_QUEUE_SIZE

/-- The function `notify` (lines 231-260) with its return value (`none` for
`null`). -/
def notify (s : State) (call : NotifyCall) : State × Option Nat :=
  if MAX_QUEUE_SIZE ≤ s.notificationQueue.length then
    let id := s.latestID
    let s1 : State := { s with latestID := s.latestID + 1 }
    let s2 : State :=
      match call.notification.onErrorFunc with
      | some cb =>
          { s1 with
            timers := s1.timers ++
              [{ id := s1.nextTimer, delay := 0,
                 action := TimerAction.onError cb id queueFullError }]
            nextTimer := s1.nextTimer + 1 }
      | none => s1
    (s2, some id)
  else if call.argumentsLength = 1 ∧ call.isObject then
    let notf : NotificationObj := { id := s.latestID, request := call.notification }
    let s1 : State := { s with latestID := s.latestID + 1 }
    ({ s1 with animationQueue := s1.animationQueue.push (Task.show notf) }, some notf.id)
  else
    (log s "electron-notify: ERROR notify() only accepts a single object with notification parameters.",
     none)

/-- The function returned by `buildCloseNotificationSafely(closeFunc)` applied
to `reason` (lines 377-384): the close is pushed on the animation queue with
`reason || 'closedByAPI'`. -/
def closeNotificationSafely (s : State) (notificationWindow : Nat)
    (notificationObj : NotificationObj) (timeoutId : Option Nat) (reason : Option String) :
    State :=
  let event : String :=
    match reason with
    | some r => if r = "" then "closedByAPI" else r
    | none => "closedByAPI"
  { s with
    animationQueue :=
      s.animationQueue.push (Task.close notificationWindow notificationObj timeoutId event) }

/-- The handler of `electron-notify-close` (lines 386-389). A message whose
`winId` names no window is left out: `BrowserWindow.fromId` gives `null`
there, and the close function queued for it throws on the `null` window
(line 342) once it has set the closed flag of the request. -/
def ipcClose (s : State) (winId : Nat) (notificationObj : NotificationObj) : State :=
  if winId < s.windows.length then
    closeNotificationSafely s winId notificationObj none (some "close")
  else s

/-- The handler of `electron-notify-click` (lines 391-402). -/
def ipcClick (s : State) (winId : Nat) (notificationObj : NotificationObj) : State :=
  match s.windows[winId]?.bind (fun win => win.electronNotifyOnClickFunc) with
  | some cb =>
      { s with
        events := s.events ++ [Event.onClick cb notificationObj.id winId]
        windows := modifyWindow s.windows winId
          (fun win => { win with electronNotifyOnClickFunc := none }) }
  | none => s

/-- A pending timer fires: it leaves `timers`, and its callback runs. -/
def fireTimer (s : State) (id : Nat) : State :=
  match s.timers.find? (fun t => t.id = id) with
  | none => s
  | some t =>
      let s1 : State := { s with timers := s.timers.filter (fun u => u.id ≠ id) }
      match t.action with
      | TimerAction.autoClose win notf =>
          closeNotificationSafely s1 win notf (some id) (some "timeout")
      | TimerAction.onError cb nid error =>
          { s1 with events := s1.events ++ [Event.onError cb nid error] }

/-- One task of the animation queue run until its promise settles; if it
never settles the queue is stalled. -/
def runTask (s : State) : Task → State
  | Task.show notf => showNotification s notf
  | Task.close win notf timeoutId event =>
      match closeNotification s win notf timeoutId event with
      | some s2 => s2
      | none =>
          let s2 : State := (closeBody s win notf timeoutId event).1
          { s2 with animationQueue := { s2.animationQueue with stalled := true } }

/-- Modelled from the spec: the animation queue of the missing
`AnimationQueue.js` takes its next pending task and runs it; nothing starts
while an earlier task has not settled. -/
def runNext (s : State) : State :=
  if s.animationQueue.stalled then s
  else
    match s.animationQueue.pending with
    | [] => s
    | task :: rest =>
        runTask { s with animationQueue := { s.animationQueue with pending := rest } } task

/-- What can happen to the module between two tasks: a call of the exported
`notify` or `closeAll`, the animation queue running its next task, a timer
firing, a message from a notification window, a client calling a
`closeNotification` function it was handed, and the once-a-minute
`cleanUpInactiveWindow`. -/
inductive Action where
  | notify (call : NotifyCall)
  | runNext
  | closeAll
  | fireTimer (id : Nat)
  | ipcClose (winId : Nat) (notificationObj : NotificationObj)
  | ipcClick (winId : Nat) (notificationObj : NotificationObj)
  | callClose (win : Nat) (notificationObj : NotificationObj) (timeoutId : Option Nat)
      (reason : Option String)
  | cleanUp
deriving DecidableEq, Repr

/-- One action applied to the state. -/
def step (s : State) : Action → State
  | Action.notify call => (notify s call).1
  | Action.runNext => runNext s
  | Action.closeAll => closeAll s
  | Action.fireTimer id => fireTimer s id
  | Action.ipcClose winId notificationObj => ipcClose s winId notificationObj
  | Action.ipcClick winId notificationObj => ipcClick s winId notificationObj
  | Action.callClose win notificationObj timeoutId reason =>
      closeNotificationSafely s win notificationObj timeoutId reason
  | Action.cleanUp => cleanUpInactiveWindow s

/-- A sequence of actions applied in order. -/
def run (s : State) (actions : List Action) : State :=
  actions.foldl step s

/-- The values `notify` returns along a sequence of actions, one per `notify`
action, in order. -/
def notifyResults (s : State) : List Action → List (Option Nat)
  | [] => []
  | Action.notify call :: rest => (notify s call).2 :: notifyResults (notify s call).1 rest
  | a :: rest => notifyResults (step s a) rest

/-- The literal `config` of the source (lines 45-126); the derived fields are
not set yet. -/
def defaultConfig : Config :=
  { startCorner := Corner.upperRight, width := 300, height := 80, padding := 4,
    displayTime := 5000, animationSteps := 5, animationStepMs := 5,
    animateInParallel := true, logging := true,
    corner := { x := 0, y := 0 }, totalHeight := 0, totalWidth := 0,
    firstPos := { x := 0, y := 0 }, maxVisibleNotifications := 0 }

/-- The module-level variables as initialised at load time (lines 25-43), for
a given `config`. -/
def moduleState (c : Config) : State :=
  { config := c, windows := [], activeNotifications := [], inactiveWindows := [],
    notificationQueue := [], animationQueue := { pending := [], stalled := false },
    closedNotifications := [], latestID := 0, nextInsertPos := { x := none, y := none },
    timers := [], nextTimer := 0, events := [] }

/-- The state once the `ready` handler (lines 134-142) has run `setupConfig`
for the primary display `d`. -/
def initialState (c : Config) (d : Display) : State :=
  setupConfig d (moduleState c)

/-! ## Predicates used in the statements -/

/-- Two states that differ at most in the window registry. -/
def SameButWindows (s t : State) : Prop :=
  t = { s with windows := t.windows }

/-- The capacity invariant: no more active windows than
`maxVisibleNotifications`. -/
def CapacityInv (s : State) : Prop :=
  (s.activeNotifications.length : Int) ≤ s.config.maxVisibleNotifications

/-- A primary display of 1920 by 1080 pixels at the origin. -/
def exampleDisplay : Display :=
  { boundsX := 0, boundsY := 0, workAreaX := 0, workAreaY := 0,
    workAreaWidth := 1920, workAreaHeight := 1080 }

/-- A request with all four callbacks, numbered from `10 * n`. -/
def exampleRequest (n : Nat) : Request :=
  { content := n, displayTime := none, onShowFunc := some (10 * n),
    onClickFunc := some (10 * n + 1), onCloseFunc := some (10 * n + 2),
    onErrorFunc := some (10 * n + 3) }

/-- The call `notify(request)` with one object argument. -/
def singleCall (r : Request) : NotifyCall :=
  { notification := r, argumentsLength := 1, isObject := true }

/-- The calls `notify(exampleRequest 0)`, ..., `notify(exampleRequest (n-1))`
made in immediate succession. -/
def burst (n : Nat) : List Action :=
  (List.range n).map (fun k => Action.notify (singleCall (exampleRequest k)))

/-- Whether an action is a call of `notify`. -/
def Action.isNotify : Action → Bool
  | Action.notify _ => true
  | _ => false

/-- Every `notify` call of the sequence passes a single object. -/
def SingleObjectCalls (actions : List Action) : Prop :=
  ∀ call, Action.notify call ∈ actions → call.argumentsLength = 1 ∧ call.isObject = true

/-- The state reached from the 1920 by 1080 display by 35 calls of `notify` in
immediate succession followed by the animation queue running all 35 show
tasks: 5 notifications are displayed and 30 are in the backlog. -/
def fullBacklogState : State :=
  run (initialState defaultConfig exampleDisplay) (burst 35 ++ List.replicate 35 Action.runNext)

/-- The consecutive calls `notify(r)` for the requests of `rs`, each with a
single object argument. -/
def notifyAll (rs : List Request) : List Action :=
  rs.map (fun r => Action.notify (singleCall r))

/-- The position of window `v`, when it is registered. -/
def windowPos (s : State) (v : Nat) : Option (Option Int × Option Int) :=
  s.windows[v]?.map (fun win => (win.x, win.y))

/-- The state after three calls of `notify` on the 1920 by 1080 display and
the three show tasks: three notifications on display. -/
def threeShownState : State :=
  run (initialState defaultConfig exampleDisplay) (burst 3 ++ List.replicate 3 Action.runNext)

/-- Every active window sits at the slot of its index: window `i` of the
active list is at `x = firstPos.x` and `y = slotY i`. -/
def Placed (s : State) : Prop :=
  ∀ i w, s.activeNotifications[i]? = some w →
    windowPos s w = some (some s.config.firstPos.x, some (slotY s.config i))

/-- The active windows below index `m` sit at the slot of their index, the
others one slot further: the placement while `moveOneDown` has re-stacked the
indices below `m`. -/
def PlacedFrom (s : State) (m : Nat) : Prop :=
  ∀ j v, s.activeNotifications[j]? = some v →
    windowPos s v =
      some (some s.config.firstPos.x, some (slotY s.config (if j < m then j else j + 1)))

/-- A decision procedure for `Placed`: every index of the active list names a
window at the slot of that index. -/
def placedCheck (s : State) : Bool :=
  (List.range s.activeNotifications.length).all (fun i =>
    match s.activeNotifications[i]? with
    | some w => decide (windowPos s w = some (some s.config.firstPos.x, some (slotY s.config i)))
    | none => true)

/-- The events of one `showNotification` that displays: the `onShowFunc`
call, if the request has one, and the contents sent to the window. -/
def showEvents (notificationObj : NotificationObj) (w : Nat) (timeoutId : Nat) : List Event :=
  (match notificationObj.request.onShowFunc with
    | some cb => [Event.onShow cb notificationObj.id w (some timeoutId)]
    | none => []) ++ [Event.setContents w notificationObj]

/-- A primary display whose work area is 170 pixels high: room for two
notifications of the default size. -/
def twoSlotDisplay : Display :=
  { boundsX := 0, boundsY := 0, workAreaX := 0, workAreaY := 0,
    workAreaWidth := 1920, workAreaHeight := 170 }

/-- A primary display whose work area is 100 pixels high: room for one
notification of the default size. -/
def oneSlotDisplay : Display :=
  { boundsX := 0, boundsY := 0, workAreaX := 0, workAreaY := 0,
    workAreaWidth := 1920, workAreaHeight := 100 }

/-- The scenario of the spec: `maxVisibleNotifications = 2`, then `notify(A)`,
`notify(B)`, `notify(C)` in immediate succession and the queue running the
three show tasks. -/
def twoShownOneQueued : State :=
  run (initialState defaultConfig twoSlotDisplay) (burst 3 ++ List.replicate 3 Action.runNext)

/-- With room for one notification: request 0 is displayed, requests 1 and 2
wait in the backlog; then, in one turn, the client calls `notify` for request
3, closes request 0 and calls `notify` for request 4; the queue has run the
show task of request 3 (into the backlog) and is about to run the close. -/
def closeThenNotify : State :=
  run (initialState defaultConfig oneSlotDisplay)
    [Action.notify (singleCall (exampleRequest 0)), Action.runNext,
     Action.notify (singleCall (exampleRequest 1)), Action.runNext,
     Action.notify (singleCall (exampleRequest 2)), Action.runNext,
     Action.notify (singleCall (exampleRequest 3)),
     Action.callClose 0 { id := 0, request := exampleRequest 0 } (some 0) none,
     Action.notify (singleCall (exampleRequest 4)),
     Action.runNext]

/-- The window registered under `v`, if any, is destroyed and not shown. -/
def DeadAt (ws : List NotificationWindow) (v : Nat) : Prop :=
  ∀ win, ws[v]? = some win → win.destroyed = true ∧ win.visible = false

/-- Whether a task is the show task of the request with id `i`. -/
def Task.isShowOf (i : Nat) : Task → Bool
  | Task.show notf => notf.id == i
  | Task.close _ _ _ _ => false

/-- Whether an event is the display of the request with id `i`. -/
def Event.isShownOf (i : Nat) : Event → Bool
  | Event.setContents _ notf => notf.id == i
  | _ => false

/-- Whether an event is an `onErrorFunc` call for the request with id `i`. -/
def Event.isErrorOf (i : Nat) : Event → Bool
  | Event.onError _ id _ => id == i
  | _ => false

/-- Whether a timer is a scheduled `onErrorFunc` call for the request with id
`i`. -/
def Timer.isErrorOf (i : Nat) (t : Timer) : Bool :=
  match t.action with
  | TimerAction.onError _ id _ => id == i
  | TimerAction.autoClose _ _ => false

/-- How often the request id `i` occurs in the state: as a pending show task,
in the backlog, as a display that has happened, as a scheduled `onErrorFunc`
call, and as an `onErrorFunc` call that has happened. -/
def occurrences (s : State) (i : Nat) : Nat :=
  s.animationQueue.pending.countP (Task.isShowOf i) +
  s.notificationQueue.countP (fun notf => notf.id == i) +
  s.events.countP (Event.isShownOf i) +
  s.timers.countP (Timer.isErrorOf i) +
  s.events.countP (Event.isErrorOf i)

/-- Every request id occurs at most once in the state, and ids not yet
assigned do not occur. -/
def IdsTracked (s : State) : Prop :=
  ∀ i, occurrences s i ≤ 1 ∧ (s.latestID ≤ i → occurrences s i = 0)

/-- A primary display whose work area is 50 pixels high: no room for a
notification of the default size. -/
def tinyDisplay : Display :=
  { boundsX := 0, boundsY := 0, workAreaX := 0, workAreaY := 0,
    workAreaWidth := 1920, workAreaHeight := 50 }

/-- Two calls of `notify` in immediate succession on the 1920 by 1080 display,
then a call of the exported `closeAll()` before the animation queue has run
the show tasks. -/
def notifyTwiceThenCloseAll : List Action :=
  [Action.notify (singleCall (exampleRequest 0)), Action.notify (singleCall (exampleRequest 1)),
   Action.closeAll]

/-- The anchor corner `config.corner` that `setupConfig` computes for display
`d` (lines 199-221). -/
def cornerOf (c : Corner) (d : Display) : Point :=
  match c with
  | Corner.upperRight =>
      { x := d.boundsX + d.workAreaX + d.workAreaWidth, y := d.boundsY + d.workAreaY }
  | Corner.lowerRight =>
      { x := d.boundsX + d.workAreaX + d.workAreaWidth,
        y := d.boundsY + d.workAreaY + d.workAreaHeight }
  | Corner.lowerLeft =>
      { x := d.boundsX + d.workAreaX, y := d.boundsY + d.workAreaY + d.workAreaHeight }
  | _ => { x := d.boundsX + d.workAreaX, y := d.boundsY + d.workAreaY }

/-- A request that asks for a display time of 0. -/
def zeroDisplayTimeRequest : Request :=
  { content := 0, displayTime := some 0, onShowFunc := none, onClickFunc := none,
    onCloseFunc := none, onErrorFunc := none }

/-- The options object that `showLoadFailure` passes to
`electron.dialog.showMessageBox` (`src/js/dialogs/showLoadError.js`,
lines 27-35). -/
structure MessageBoxOptions where
  type : String
  buttons : List String
  defaultId : Nat
  cancelId : Nat
  noLink : Bool
  title : String
  message : String
deriving DecidableEq, Repr

/-- The message text built by `showLoadFailure` (lines 14-25); an absent or
empty string is falsy, and so is the error code 0. The error code is an
integer and is printed in decimal notation, as JavaScript prints an integer
below `1e21` in size. -/
def loadFailureMessage (url errorDesc : String) (errorCode : Int) : String :=
  let msg0 := if url ≠ "" then "Error loading URL:\n" ++ url else "Error loading window"
  let msg1 := if errorDesc ≠ "" then msg0 ++ "\n\n" ++ errorDesc else msg0
  if errorCode ≠ 0 then msg1 ++ "\n\nError Code: " ++ toString errorCode else msg1

/-- The inner function `response` of `showLoadFailure` (lines 38-47): the
calls of `retryCallback` it makes for the button index it receives;
`retryCallback` is `none` when it is not a function. -/
def response (retryCallback : Option Callback) (buttonId : Nat) : List Callback :=
  if buttonId = 1 then []
  else
    match retryCallback with
    | some cb => [cb]
    | none => []

/-- The function `showLoadFailure` (lines 13-48): the dialog it opens and the
handler it registers for the user's answer. -/
def showLoadFailure (url errorDesc : String) (errorCode : Int)
    (retryCallback : Option Callback) : MessageBoxOptions × (Nat → List Callback) :=
  ({ type := "error", buttons := ["Reload", "Ignore"], defaultId := 0, cancelId := 0,
     noLink := true, title := "Loading Error",
     message := loadFailureMessage url errorDesc errorCode },
   response retryCallback)

/-- The function `showNetworkConnectivityError` (lines 56-59). -/
def showNetworkConnectivityError (url : String) (retryCallback : Option Callback) :
    MessageBoxOptions × (Nat → List Callback) :=
  showLoadFailure url "Network connectivity has been lost, check your internet connection." 0
    retryCallback

/-- What a window carries besides its position: whether it is shown, whether
it is destroyed, the two attached callbacks and the contents on display. -/
def windowAttrs (win : NotificationWindow) :
    Bool × Bool × Option Callback × Option Callback × Option NotificationObj :=
  (win.visible, win.destroyed, win.electronNotifyOnClickFunc, win.electronNotifyOnCloseFunc,
    win.contents)

/-- Three notifications were on display; the first one was closed by the
client, and a close message of its window then cleared the closed flag of its
request again. Window 0 waits in the inactive pool, windows 1 and 2 are
active. -/
def lateCloseState : State :=
  run threeShownState
    [Action.callClose 0 { id := 0, request := exampleRequest 0 } (some 0) none, Action.runNext,
     Action.ipcClose 0 { id := 0, request := exampleRequest 0 }, Action.runNext]

/-- Consecutive runs of the close function (lines 333-373) for one request
`notificationObj`, each run with the window, the timer id and the event it
was built with, every run started when the one before has settled. `none`: a
run did not settle. -/
def closeRuns (notificationObj : NotificationObj) :
    List (Nat × Option Nat × String) → State → Option State
  | [], s => some s
  | (w, tid, ev) :: rest, s =>
      (closeNotification s w notificationObj tid ev).bind (closeRuns notificationObj rest)

/-- The module on the 1920 by 1080 display: the client calls the exported
`closeAll()` while nothing is displayed, then `notify` for one request, and
the queue runs the show task. -/
def shownAfterCloseAll : State :=
  run (initialState defaultConfig exampleDisplay)
    [Action.closeAll, Action.notify (singleCall (exampleRequest 0)), Action.runNext]

/-- The `electronNotifyOnCloseFunc` attached to the window registered under
`w`, if there is one. -/
def attachedOnClose (s : State) (w : Nat) : Option Callback :=
  s.windows[w]?.bind (fun win => win.electronNotifyOnCloseFunc)

/-- The rational value `mantissa * 2 ^ exponent` of a finite number. -/
def Binary64.toRat (x : Binary64) : ℚ := x.mantissa * (2 : ℚ) ^ x.exponent

/-! # Properties -/

/-! ## Frame lemmas -/

theorem modifyWindow_length (ws : List NotificationWindow) (w : Nat)
    (f : NotificationWindow → NotificationWindow) :
    (modifyWindow ws w f).length = ws.length := by
  induction ws generalizing w with
  | nil => simp [modifyWindow]
  | cons a rest ih =>
      cases w with
      | zero => simp [modifyWindow]
      | succ n => simp [modifyWindow, ih]

theorem SameButWindows.refl (s : State) : SameButWindows s s := rfl

theorem SameButWindows.trans {s t u : State} (h1 : SameButWindows s t)
    (h2 : SameButWindows t u) : SameButWindows s u := by
  unfold SameButWindows at *
  rw [h2, h1]

theorem setWindowPosition_same (s : State) (w : Nat) (x y : Option Int) :
    SameButWindows s (setWindowPosition s w x y) := rfl

theorem foldl_setWindowPosition_same (frames : List (Option Int)) (w : Nat) (x : Option Int) (s : State) :
    SameButWindows s
      (frames.foldl (fun t y => setWindowPosition t w x y) s) := by
  induction frames generalizing s with
  | nil => exact SameButWindows.refl s
  | cons a rest ih =>
      exact SameButWindows.trans (setWindowPosition_same s w x a) (ih _)

theorem moveNotificationAnimation_same {s t : State} {i : Nat}
    (h : moveNotificationAnimation s i = some t) : SameButWindows s t := by
  unfold moveNotificationAnimation at h
  split at h
  · cases h; exact SameButWindows.refl s
  · simp only at h
    split at h
    · cases h
    · cases h
      exact foldl_setWindowPosition_same _ _ _ _

theorem animateAll_same {l : List Nat} {s t : State} (h : animateAll s l = some t) :
    SameButWindows s t := by
  induction l generalizing s with
  | nil => simp [animateAll] at h; subst h; exact SameButWindows.refl s
  | cons i rest ih =>
      unfold animateAll at h
      split at h
      · cases h
      · rename_i u hu
        exact SameButWindows.trans (moveNotificationAnimation_same hu) (ih h)

theorem moveOneDown_same {s t : State} {pos : Int} (h : moveOneDown s pos = some t) :
    SameButWindows s t := by
  unfold moveOneDown at h
  split at h
  · cases h; exact SameButWindows.refl s
  · exact animateAll_same h

theorem foldl_preserves {α β : Type} (proj : State → β) (f : State → α → State)
    (h : ∀ s a, proj (f s a) = proj s) (l : List α) (s : State) :
    proj (l.foldl f s) = proj s := by
  induction l generalizing s with
  | nil => rfl
  | cons a rest ih => simp only [List.foldl_cons]; rw [ih, h]

theorem closeAllWindow_config (s : State) (w : Nat) : (closeAllWindow s w).config = s.config := by
  unfold closeAllWindow
  split
  · split <;> rfl
  · rfl

theorem closeAll_config (s : State) : (closeAll s).config = s.config := by
  simp only [closeAll, cleanUpInactiveWindow]
  exact foldl_preserves (fun t => t.config) closeAllWindow closeAllWindow_config _ _

theorem closeAll_activeNotifications (s : State) : (closeAll s).activeNotifications = [] := rfl

theorem showNotification_config (s : State) (n : NotificationObj) :
    (showNotification s n).config = s.config := by
  unfold showNotification
  split
  · simp only [getWindow, calcInsertPos, setWindowPosition]
    split <;> split <;> split <;> rfl
  · rfl

theorem showNotification_activeNotifications (s : State) (n : NotificationObj) :
    (showNotification s n).activeNotifications =
      if (s.activeNotifications.length : Int) < s.config.maxVisibleNotifications then
        s.activeNotifications ++ [(getWindow s).2]
      else s.activeNotifications := by
  unfold showNotification
  split
  · simp only [getWindow, calcInsertPos, setWindowPosition]
    split <;> split <;> split <;> rfl
  · rfl

theorem checkForQueuedNotifications_config (s : State) :
    (checkForQueuedNotifications s).config = s.config := by
  unfold checkForQueuedNotifications
  split
  · rfl
  · split <;> rfl

theorem checkForQueuedNotifications_activeNotifications (s : State) :
    (checkForQueuedNotifications s).activeNotifications = s.activeNotifications := by
  unfold checkForQueuedNotifications
  split
  · rfl
  · split <;> rfl

theorem closeBody_config (s : State) (w : Nat) (n : NotificationObj) (tid : Option Nat)
    (ev : String) : (closeBody s w n tid ev).1.config = s.config := by
  simp only [closeBody, checkForQueuedNotifications_config]
  split <;> split <;> rfl

theorem closeBody_activeNotifications (s : State) (w : Nat) (n : NotificationObj)
    (tid : Option Nat) (ev : String) :
    (closeBody s w n tid ev).1.activeNotifications =
      splice1 s.activeNotifications (indexOf s.activeNotifications w) := by
  simp only [closeBody, checkForQueuedNotifications_activeNotifications]
  split <;> split <;> rfl

theorem splice1_length_le (l : List Nat) (pos : Int) : (splice1 l pos).length ≤ l.length := by
  unfold splice1
  split <;> exact List.length_eraseIdx_le _ _

theorem SameButWindows.capacity {s t : State} (h : SameButWindows s t) (hs : CapacityInv s) :
    CapacityInv t := by
  unfold SameButWindows at h
  unfold CapacityInv at *
  rw [h]; exact hs

theorem showNotification_capacity (s : State) (n : NotificationObj) (hs : CapacityInv s) :
    CapacityInv (showNotification s n) := by
  unfold CapacityInv at *
  rw [showNotification_activeNotifications, showNotification_config]
  split
  · simp only [List.length_append, List.length_singleton, Nat.cast_add, Nat.cast_one]
    omega
  · exact hs

theorem closeBody_capacity (s : State) (w : Nat) (n : NotificationObj) (tid : Option Nat)
    (ev : String) (hs : CapacityInv s) : CapacityInv (closeBody s w n tid ev).1 := by
  unfold CapacityInv at *
  rw [closeBody_activeNotifications, closeBody_config]
  have := splice1_length_le s.activeNotifications (indexOf s.activeNotifications w)
  omega

theorem runTask_capacity (s : State) (task : Task) (hs : CapacityInv s) :
    CapacityInv (runTask s task) := by
  cases task
  · exact showNotification_capacity _ _ hs
  · rename_i win notf timeoutId event
    simp only [runTask]
    split
    · rename_i s2 h2
      unfold closeNotification at h2
      split at h2
      · cases h2; exact hs
      · exact (moveOneDown_same h2).capacity (closeBody_capacity _ _ _ _ _ hs)
    · exact closeBody_capacity _ _ _ _ _ hs

theorem runNext_capacity (s : State) (hs : CapacityInv s) : CapacityInv (runNext s) := by
  unfold runNext
  split
  · exact hs
  · split
    · exact hs
    · exact runTask_capacity _ _ hs

theorem closeAll_capacity (s : State) (hs : CapacityInv s) : CapacityInv (closeAll s) := by
  unfold CapacityInv at *
  rw [closeAll_activeNotifications, closeAll_config]
  simp only [List.length_nil, Nat.cast_zero]
  omega

theorem notify_capacity (s : State) (call : NotifyCall) (hs : CapacityInv s) :
    CapacityInv (notify s call).1 := by
  unfold notify
  split
  · simp only; split <;> exact hs
  · split
    · exact hs
    · unfold log; split <;> exact hs

theorem fireTimer_capacity (s : State) (id : Nat) (hs : CapacityInv s) :
    CapacityInv (fireTimer s id) := by
  unfold fireTimer
  split
  · exact hs
  · simp only; split <;> exact hs

theorem step_capacity (s : State) (a : Action) (hs : CapacityInv s) : CapacityInv (step s a) := by
  cases a with
  | notify call => exact notify_capacity s call hs
  | runNext => exact runNext_capacity s hs
  | closeAll => exact closeAll_capacity s hs
  | fireTimer id => exact fireTimer_capacity s id hs
  | ipcClose winId n => simp only [step, ipcClose]; split <;> exact hs
  | ipcClick winId n => simp only [step, ipcClick]; split <;> exact hs
  | callClose win n tid reason => exact hs
  | cleanUp => exact hs

theorem run_capacity (actions : List Action) (s : State) (hs : CapacityInv s) :
    CapacityInv (run s actions) := by
  induction actions generalizing s with
  | nil => exact hs
  | cons a rest ih => exact ih _ (step_capacity s a hs)

theorem mathFloorDiv_nonneg (a b : Nat) : 0 ≤ mathFloorDiv a b := by
  unfold mathFloorDiv
  split
  · split <;> omega
  · exact Int.fdiv_nonneg (Int.natCast_nonneg a) (Int.natCast_nonneg b)

theorem initialState_capacity (c : Config) (d : Display) : CapacityInv (initialState c d) := by
  unfold CapacityInv initialState setupConfig
  simp only [calcDimensions, closeAll_activeNotifications, List.length_nil, Nat.cast_zero]
  have := mathFloorDiv_nonneg d.workAreaHeight ((closeAll (moduleState c)).config.height + (closeAll (moduleState c)).config.padding)
  push_cast at this
  split <;> omega


/-- C1: in every state reachable from the initial state (geometry set up by
`setupConfig`) through notify calls, tasks run by the animation queue, timers,
window messages, client close calls, the inactive-window sweep and `closeAll`,
the number of active windows is at most `config.maxVisibleNotifications`. -/
theorem activeNotifications_length_le_maxVisible (c : Config) (d : Display)
    (actions : List Action) :
    ((run (initialState c d) actions).activeNotifications.length : Int) ≤
      (run (initialState c d) actions).config.maxVisibleNotifications :=
  run_capacity actions _ (initialState_capacity c d)

theorem showNotification_latestID (s : State) (n : NotificationObj) :
    (showNotification s n).latestID = s.latestID := by
  unfold showNotification
  split
  · simp only [getWindow, calcInsertPos, setWindowPosition]
    split <;> split <;> split <;> rfl
  · rfl

theorem closeBody_latestID (s : State) (w : Nat) (n : NotificationObj) (tid : Option Nat)
    (ev : String) : (closeBody s w n tid ev).1.latestID = s.latestID := by
  simp only [closeBody, checkForQueuedNotifications]
  repeat' split
  all_goals rfl

theorem SameButWindows.latestID {s t : State} (h : SameButWindows s t) :
    t.latestID = s.latestID := by
  unfold SameButWindows at h
  rw [h]

theorem runTask_latestID (s : State) (task : Task) : (runTask s task).latestID = s.latestID := by
  cases task
  · exact showNotification_latestID _ _
  · rename_i win notf timeoutId event
    simp only [runTask]
    split
    · rename_i s2 h2
      unfold closeNotification at h2
      split at h2
      · cases h2; rfl
      · rw [(moveOneDown_same h2).latestID, closeBody_latestID]
    · exact closeBody_latestID _ _ _ _ _

theorem closeAllWindow_latestID (s : State) (w : Nat) :
    (closeAllWindow s w).latestID = s.latestID := by
  unfold closeAllWindow
  split
  · split <;> rfl
  · rfl

theorem step_latestID (s : State) (a : Action) (h : a.isNotify = false) :
    (step s a).latestID = s.latestID := by
  cases a with
  | notify call => simp [Action.isNotify] at h
  | runNext =>
      simp only [step, runNext]
      split
      · rfl
      · split
        · rfl
        · exact runTask_latestID _ _
  | closeAll =>
      simp only [step, closeAll, cleanUpInactiveWindow]
      exact foldl_preserves (fun t => t.latestID) closeAllWindow closeAllWindow_latestID _ _
  | fireTimer id =>
      simp only [step, fireTimer]
      split
      · rfl
      · split <;> rfl
  | ipcClose winId n => simp only [step, ipcClose]; split <;> rfl
  | ipcClick winId n => simp only [step, ipcClick]; split <;> rfl
  | callClose win n tid reason => rfl
  | cleanUp => rfl

theorem notify_rejected (s : State) (call : NotifyCall)
    (hq : MAX_QUEUE_SIZE ≤ s.notificationQueue.length) :
    notify s call =
      ({ s with
          latestID := s.latestID + 1
          timers := s.timers ++
            (match call.notification.onErrorFunc with
              | some cb =>
                  [{ id := s.nextTimer, delay := 0,
                     action := TimerAction.onError cb s.latestID queueFullError }]
              | none => [])
          nextTimer :=
            (match call.notification.onErrorFunc with
              | some _ => s.nextTimer + 1
              | none => s.nextTimer) },
       some s.latestID) := by
  unfold notify
  rw [if_pos hq]
  cases call.notification.onErrorFunc <;> simp

theorem notify_admitted (s : State) (call : NotifyCall)
    (h : call.argumentsLength = 1 ∧ call.isObject = true)
    (hq : s.notificationQueue.length < MAX_QUEUE_SIZE) :
    notify s call =
      ({ s with
          latestID := s.latestID + 1
          animationQueue := s.animationQueue.push
            (Task.show { id := s.latestID, request := call.notification }) },
       some s.latestID) := by
  unfold notify
  rw [if_neg (by omega), if_pos h]

theorem notify_result (s : State) (call : NotifyCall)
    (h : call.argumentsLength = 1 ∧ call.isObject = true) :
    (notify s call).2 = some s.latestID ∧ (notify s call).1.latestID = s.latestID + 1 := by
  by_cases hq : MAX_QUEUE_SIZE ≤ s.notificationQueue.length
  · rw [notify_rejected s call hq]; exact ⟨rfl, rfl⟩
  · rw [notify_admitted s call h (by omega)]; exact ⟨rfl, rfl⟩

theorem notifyResults_eq_range (actions : List Action) (s : State)
    (h : SingleObjectCalls actions) :
    notifyResults s actions =
      (List.range' s.latestID (actions.countP Action.isNotify)).map some := by
  induction actions generalizing s with
  | nil => rfl
  | cons a rest ih =>
      have hrest : SingleObjectCalls rest := fun call hc => h call (List.mem_cons_of_mem _ hc)
      cases ha : a.isNotify with
      | true =>
          cases a with
          | notify call =>
              have hc := notify_result s call (h call (List.mem_cons_self _ _))
              simp only [notifyResults, List.countP_cons, ha, if_true]
              rw [ih _ hrest, hc.1, hc.2, List.range'_succ, List.map_cons]
          | _ => simp [Action.isNotify] at ha
      | false =>
          have hl := step_latestID s a ha
          cases a with
          | notify call => simp [Action.isNotify] at ha
          | _ =>
              simp only [notifyResults, List.countP_cons, ha]
              rw [ih _ hrest, hl]
              simp

theorem notifyAll_admitted (rs : List Request) (s : State)
    (h : s.notificationQueue.length < MAX_QUEUE_SIZE) :
    notifyResults s (notifyAll rs) = (List.range' s.latestID rs.length).map some ∧
    run s (notifyAll rs) =
      { s with
        latestID := s.latestID + rs.length
        animationQueue :=
          { s.animationQueue with
            pending := s.animationQueue.pending ++
              (List.enumFrom s.latestID rs).map
                (fun p => Task.show { id := p.1, request := p.2 }) } } := by
  induction rs generalizing s with
  | nil => simp [notifyAll, notifyResults, run]
  | cons r rest ih =>
      have hn := notify_admitted s (singleCall r) ⟨rfl, rfl⟩ h
      have ih2 := ih (notify s (singleCall r)).1 (by rw [hn]; exact h)
      unfold notifyAll at ih2 ⊢
      simp only [List.map_cons, notifyResults, run, List.foldl_cons, step]
      unfold run at ih2
      rw [ih2.1, ih2.2, hn]
      constructor
      · simp [List.range'_succ]
      · simp [AnimationQueue.push, List.enumFrom_cons, singleCall, Nat.add_assoc, Nat.add_comm 1]

/-- C2 (the code exceeds the limit): on the 1920 by 1080 display
(`maxVisibleNotifications = 5`), 36 calls of `notify` made before the
animation queue has run any show task are all admitted, and once the queue has
run the 36 show tasks the backlog holds 31 requests, more than
`MAX_QUEUE_SIZE`. -/
theorem notificationQueue_exceeds_MAX_QUEUE_SIZE :
    (initialState defaultConfig exampleDisplay).config.maxVisibleNotifications = 5 ∧
    notifyResults (initialState defaultConfig exampleDisplay) (burst 36) =
      (List.range 36).map some ∧
    (run (initialState defaultConfig exampleDisplay) (burst 36)).timers = [] ∧
    (run (initialState defaultConfig exampleDisplay)
      (burst 36 ++ List.replicate 36 Action.runNext)).notificationQueue.length = 31 ∧
    MAX_QUEUE_SIZE < (run (initialState defaultConfig exampleDisplay)
      (burst 36 ++ List.replicate 36 Action.runNext)).notificationQueue.length := by
  decide

/-- C3, as amended: in every state whose backlog holds at least 30 requests,
`notify` returns the current id counter and advances it by one, pushes no task
on the animation queue, leaves the backlog and the active list unchanged, calls
nothing in the same turn, and, when the request has an `onErrorFunc`,
schedules exactly one timer (delay 0) that calls it with the returned id and
the error text "max notification queue size reached: 30"; without an
`onErrorFunc` no timer is scheduled. -/
theorem notify_at_capacity (s : State) (call : NotifyCall)
    (h : 30 ≤ s.notificationQueue.length) :
    (notify s call).2 = some s.latestID ∧
    (notify s call).1.latestID = s.latestID + 1 ∧
    (notify s call).1.animationQueue = s.animationQueue ∧
    (notify s call).1.notificationQueue = s.notificationQueue ∧
    (notify s call).1.activeNotifications = s.activeNotifications ∧
    (notify s call).1.events = s.events ∧
    (∀ cb, call.notification.onErrorFunc = some cb →
      (notify s call).1.timers = s.timers ++
        [{ id := s.nextTimer, delay := 0,
           action := TimerAction.onError cb s.latestID
             "max notification queue size reached: 30" }]) ∧
    (call.notification.onErrorFunc = none → (notify s call).1.timers = s.timers) := by
  rw [notify_rejected s call h]
  refine ⟨rfl, rfl, rfl, rfl, rfl, rfl, ?_, ?_⟩
  · intro cb hcb
    simp only [hcb]
    have : queueFullError = "max notification queue size reached: 30" := by decide
    rw [this]
  · intro hnone
    simp only [hnone, List.append_nil]

/-- Witness of C3: the state with 30 backlogged requests, and a 36th call. -/
theorem notify_at_capacity_witness :
    30 ≤ fullBacklogState.notificationQueue.length ∧
    (notify fullBacklogState (singleCall (exampleRequest 35))).2 = some fullBacklogState.latestID :=
  ⟨by decide, (notify_at_capacity fullBacklogState (singleCall (exampleRequest 35)) (by decide)).1⟩

/-- C3 as stated fails: with 30 requests in the backlog, the `onErrorFunc`
call that `notify` schedules carries the error text with the limit appended,
not the text "max notification queue size reached". -/
theorem notify_at_capacity_error_text :
    fullBacklogState.notificationQueue.length = 30 ∧
    (notify fullBacklogState (singleCall (exampleRequest 35))).1.timers.getLast? =
      some { id := 5, delay := 0,
             action := TimerAction.onError 353 35 "max notification queue size reached: 30" } ∧
    ¬ ∃ t ∈ (notify fullBacklogState (singleCall (exampleRequest 35))).1.timers,
      t.action = TimerAction.onError 353 35 "max notification queue size reached" := by
  decide

/-- C4 as stated fails: after 31 calls of `notify` in immediate succession
from the initial state, each with an `onErrorFunc`, the 31st call has returned
id 30 like an admitted call, no `onErrorFunc` call is scheduled or made, and
31 show tasks are pending; once the queue has run them, 5 requests are
displayed and 26 are in the backlog. -/
theorem thirty_first_call_admitted :
    notifyResults (initialState defaultConfig exampleDisplay) (burst 31) =
      (List.range 31).map some ∧
    (run (initialState defaultConfig exampleDisplay) (burst 31)).timers = [] ∧
    (run (initialState defaultConfig exampleDisplay) (burst 31)).events = [] ∧
    (run (initialState defaultConfig exampleDisplay) (burst 31)).animationQueue.pending.getLast? =
      some (Task.show { id := 30, request := exampleRequest 30 }) ∧
    (run (initialState defaultConfig exampleDisplay)
      (burst 31 ++ List.replicate 31 Action.runNext)).activeNotifications.length = 5 ∧
    (run (initialState defaultConfig exampleDisplay)
      (burst 31 ++ List.replicate 31 Action.runNext)).notificationQueue.length = 26 := by
  decide

/-- C5: from the initial state, along any sequence of actions whose `notify`
calls each pass a single object, the `k`-th call of `notify` returns `k`,
admitted or rejected and whatever is interleaved; so the returned ids are
strictly increasing and pairwise distinct. In any state, the copy that an
admitted call pushes on the animation queue carries the returned id. -/
theorem notify_returns_call_index (c : Config) (d : Display) (actions : List Action)
    (h : SingleObjectCalls actions) :
    notifyResults (initialState c d) actions =
      (List.range (actions.countP Action.isNotify)).map some ∧
    (notifyResults (initialState c d) actions).Pairwise
      (fun a b => ∃ i j, a = some i ∧ b = some j ∧ i < j) ∧
    (notifyResults (initialState c d) actions).Nodup ∧
    ∀ (s : State) (call : NotifyCall), call.argumentsLength = 1 ∧ call.isObject = true →
      s.notificationQueue.length < MAX_QUEUE_SIZE →
      ∃ k, (notify s call).2 = some k ∧
        (notify s call).1.animationQueue.pending =
          s.animationQueue.pending ++ [Task.show { id := k, request := call.notification }] := by
  have h0 : (initialState c d).latestID = 0 := by
    simp only [initialState, setupConfig, calcDimensions, closeAll, cleanUpInactiveWindow]
    exact foldl_preserves (fun t => t.latestID) closeAllWindow closeAllWindow_latestID _ _
  have h1 := notifyResults_eq_range actions (initialState c d) h
  rw [h0, ← List.range_eq_range'] at h1
  refine ⟨h1, ?_, ?_, ?_⟩
  · rw [h1, List.pairwise_map]
    exact (List.pairwise_lt_range _).imp (fun hij => ⟨_, _, rfl, rfl, hij⟩)
  · rw [h1]
    exact (List.nodup_range _).map (Option.some_injective _)
  · intro s call hs hq
    refine ⟨s.latestID, ?_⟩
    rw [notify_admitted s call hs hq]
    exact ⟨rfl, rfl⟩

/-- Witness of C5: three calls with a queue run and a `closeAll` in between. -/
theorem notify_returns_call_index_witness :
    SingleObjectCalls
      [Action.notify (singleCall (exampleRequest 0)), Action.runNext,
       Action.notify (singleCall (exampleRequest 1)), Action.closeAll,
       Action.notify (singleCall (exampleRequest 2))] ∧
    notifyResults (initialState defaultConfig exampleDisplay)
      [Action.notify (singleCall (exampleRequest 0)), Action.runNext,
       Action.notify (singleCall (exampleRequest 1)), Action.closeAll,
       Action.notify (singleCall (exampleRequest 2))] = [some 0, some 1, some 2] :=
  ⟨by intro call hc; simp [singleCall] at hc; rcases hc with rfl | rfl | rfl <;> exact ⟨rfl, rfl⟩,
   (notify_returns_call_index defaultConfig exampleDisplay _
      (by intro call hc; simp [singleCall] at hc; rcases hc with rfl | rfl | rfl <;> exact ⟨rfl, rfl⟩)).1⟩

theorem modifyWindow_get? (ws : List NotificationWindow) (w v : Nat)
    (f : NotificationWindow → NotificationWindow) :
    (modifyWindow ws w f)[v]? = if v = w then ws[v]?.map f else ws[v]? := by
  induction ws generalizing w v with
  | nil => simp [modifyWindow]
  | cons a rest ih =>
      cases w with
      | zero =>
          cases v with
          | zero => simp [modifyWindow]
          | succ m => simp [modifyWindow]
      | succ k =>
          cases v with
          | zero => simp [modifyWindow]
          | succ m => simp [modifyWindow, ih]

theorem animationLoop_terminates (steps : Nat) (startY newY : Int) (fuel cur : Nat)
    (acc : List (Option Int)) (hcur : cur ≤ steps) (hfuel : steps - cur < fuel) :
    ∃ frames, animationLoop steps startY newY fuel cur acc = some (frames ++ [some newY]) := by
  induction fuel generalizing cur acc with
  | zero => omega
  | succ k ih =>
      unfold animationLoop
      by_cases h : cur = steps
      · rw [if_pos h]; exact ⟨acc, rfl⟩
      · rw [if_neg h]
        exact ih (cur + 1) _ (by omega) (by omega)

theorem foldl_setWindowPosition_windowPos (frames : List (Option Int)) (y : Option Int) (w : Nat)
    (x : Option Int) (s : State) (v : Nat) :
    windowPos ((frames ++ [y]).foldl (fun t y => setWindowPosition t w x y) s) v =
      if v = w then (windowPos s v).map (fun _ => (x, y)) else windowPos s v := by
  induction frames generalizing s with
  | nil =>
      simp only [List.nil_append, List.foldl_cons, List.foldl_nil, windowPos, setWindowPosition,
        modifyWindow_get?]
      split <;> cases s.windows[v]? <;> simp
  | cons a rest ih =>
      simp only [List.cons_append, List.foldl_cons]
      rw [ih]
      simp only [windowPos, setWindowPosition, modifyWindow_get?]
      split <;> cases s.windows[v]? <;> simp

theorem SameButWindows.config {s t : State} (h : SameButWindows s t) : t.config = s.config := by
  unfold SameButWindows at h
  rw [h]

theorem moveNotificationAnimation_total (s : State) (i : Nat)
    (hsteps : 0 < s.config.animationSteps) : ∃ t, moveNotificationAnimation s i = some t := by
  unfold moveNotificationAnimation
  split
  · exact ⟨s, rfl⟩
  · rename_i w _
    obtain ⟨frames, hf⟩ := animationLoop_terminates s.config.animationSteps (getPositionY s w)
      (slotY s.config i) s.config.animationSteps 1 [] hsteps (by omega)
    simp only [hf]
    exact ⟨_, rfl⟩

theorem animateAll_total (l : List Nat) (s : State) (hsteps : 0 < s.config.animationSteps) :
    ∃ t, animateAll s l = some t := by
  induction l generalizing s with
  | nil => exact ⟨s, rfl⟩
  | cons i rest ih =>
      obtain ⟨u, hu⟩ := moveNotificationAnimation_total s i hsteps
      have hc : 0 < u.config.animationSteps := by
        rw [(moveNotificationAnimation_same hu).config]; exact hsteps
      obtain ⟨t, ht⟩ := ih u hc
      exact ⟨t, by simp only [animateAll, hu, ht]⟩

theorem moveOneDown_total (s : State) (pos : Int) (hsteps : 0 < s.config.animationSteps) :
    ∃ t, moveOneDown s pos = some t := by
  unfold moveOneDown
  split
  · exact ⟨s, rfl⟩
  · exact animateAll_total _ s hsteps

theorem closeNotification_flag_set (s : State) (w : Nat) (n : NotificationObj)
    (tid : Option Nat) (ev : String) (h : n.id ∈ s.closedNotifications) :
    closeNotification s w n tid ev =
      some { s with closedNotifications := s.closedNotifications.filter (fun i => i ≠ n.id) } := by
  unfold closeNotification
  rw [if_pos h]

theorem closeNotification_flag_unset (s : State) (w : Nat) (n : NotificationObj)
    (tid : Option Nat) (ev : String) (h : n.id ∉ s.closedNotifications) :
    closeNotification s w n tid ev =
      moveOneDown (closeBody s w n tid ev).1 (closeBody s w n tid ev).2 := by
  unfold closeNotification
  rw [if_neg h]

theorem closeNotification_total (s : State) (w : Nat) (n : NotificationObj)
    (tid : Option Nat) (ev : String) (hsteps : 0 < s.config.animationSteps)
    (h : n.id ∉ s.closedNotifications) :
    ∃ t, closeNotification s w n tid ev = some t ∧
      SameButWindows (closeBody s w n tid ev).1 t := by
  rw [closeNotification_flag_unset s w n tid ev h]
  obtain ⟨t, ht⟩ := moveOneDown_total (closeBody s w n tid ev).1 (closeBody s w n tid ev).2
    (by rw [closeBody_config]; exact hsteps)
  exact ⟨t, ht, moveOneDown_same ht⟩

theorem checkForQueuedNotifications_events (s : State) :
    (checkForQueuedNotifications s).events = s.events := by
  unfold checkForQueuedNotifications
  split
  · rfl
  · split <;> rfl

theorem checkForQueuedNotifications_closedNotifications (s : State) :
    (checkForQueuedNotifications s).closedNotifications = s.closedNotifications := by
  unfold checkForQueuedNotifications
  split
  · rfl
  · split <;> rfl

theorem closeBody_events (s : State) (w : Nat) (n : NotificationObj) (tid : Option Nat)
    (ev : String) :
    (closeBody s w n tid ev).1.events =
      match s.windows[w]?.bind (fun win => win.electronNotifyOnCloseFunc) with
      | some cb => s.events ++ [Event.onClose cb ev (some n.id)]
      | none => s.events := by
  simp only [closeBody, checkForQueuedNotifications_events]
  cases s.windows[w]?.bind (fun win => win.electronNotifyOnCloseFunc) <;> cases tid <;> rfl

theorem closeBody_closedNotifications (s : State) (w : Nat) (n : NotificationObj)
    (tid : Option Nat) (ev : String) :
    (closeBody s w n tid ev).1.closedNotifications = n.id :: s.closedNotifications := by
  simp only [closeBody, checkForQueuedNotifications_closedNotifications]
  split <;> split <;> rfl

theorem SameButWindows.events {s t : State} (h : SameButWindows s t) : t.events = s.events := by
  unfold SameButWindows at h
  rw [h]

theorem SameButWindows.closedNotifications {s t : State} (h : SameButWindows s t) :
    t.closedNotifications = s.closedNotifications := by
  unfold SameButWindows at h
  rw [h]

/-- C7: for a window with an attached `onCloseFunc` (as a displayed
notification whose request has one) and a request id whose closed flag is not
set, the first run of the close function calls `onCloseFunc` once, with the
event and the id, and sets the flag; a second run for the same id calls
nothing and changes nothing but the flag of that id, which it clears: the
active list, the inactive pool, the backlog and every other part of the state
are as before the second run. Both runs return. -/
theorem close_twice_calls_onClose_once (s : State) (w : Nat) (n : NotificationObj)
    (win : NotificationWindow) (cb : Callback) (tid tid2 : Option Nat) (ev ev2 : String)
    (hsteps : 0 < s.config.animationSteps)
    (hwin : s.windows[w]? = some win)
    (hcb : win.electronNotifyOnCloseFunc = some cb)
    (hflag : n.id ∉ s.closedNotifications) :
    ∃ t u, closeNotification s w n tid ev = some t ∧
      closeNotification t w n tid2 ev2 = some u ∧
      t.events = s.events ++ [Event.onClose cb ev (some n.id)] ∧
      u.events = s.events ++ [Event.onClose cb ev (some n.id)] ∧
      u = { t with closedNotifications := t.closedNotifications.filter (fun i => i ≠ n.id) } ∧
      u.activeNotifications = t.activeNotifications ∧
      u.inactiveWindows = t.inactiveWindows ∧
      u.notificationQueue = t.notificationQueue ∧
      n.id ∈ t.closedNotifications ∧
      n.id ∉ u.closedNotifications := by
  obtain ⟨t, ht, hsame⟩ := closeNotification_total s w n tid ev hsteps hflag
  have hclosed : t.closedNotifications = n.id :: s.closedNotifications := by
    rw [hsame.closedNotifications, closeBody_closedNotifications]
  have hmem : n.id ∈ t.closedNotifications := by
    rw [hclosed]; exact List.mem_cons_self _ _
  have hev : t.events = s.events ++ [Event.onClose cb ev (some n.id)] := by
    rw [hsame.events, closeBody_events, hwin]
    simp [hcb]
  refine ⟨t, _, ht, closeNotification_flag_set t w n tid2 ev2 hmem, hev, hev, rfl, rfl, rfl, rfl,
    hmem, ?_⟩
  simp [List.mem_filter]

theorem indexOf_of_mem (l : List Nat) (w : Nat) (h : w ∈ l) :
    ∃ k : Nat, indexOf l w = (k : Int) ∧ l[k]? = some w ∧ k < l.length ∧
      l.eraseIdx k = l.erase w := by
  induction l with
  | nil => simp at h
  | cons a rest ih =>
      unfold indexOf
      by_cases ha : a = w
      · subst ha
        exact ⟨0, by simp⟩
      · have hr : w ∈ rest := by
          rcases List.mem_cons.mp h with h1 | h1
          · exact absurd h1.symm ha
          · exact h1
        obtain ⟨k, hk, hget, hlt, her⟩ := ih hr
        refine ⟨k + 1, ?_, ?_, ?_, ?_⟩
        · rw [if_neg ha, hk]
          have : ¬ ((k : Int) = -1) := by omega
          rw [if_neg this]
          push_cast
          rfl
        · simpa using hget
        · simpa using hlt
        · rw [List.eraseIdx_cons_succ, her, List.erase_cons_tail]
          simpa using ha

theorem indexOf_of_not_mem (l : List Nat) (w : Nat) (h : w ∉ l) : indexOf l w = -1 := by
  induction l with
  | nil => rfl
  | cons a rest ih =>
      unfold indexOf
      have ha : ¬ a = w := fun e => h (by rw [e]; exact List.mem_cons_self _ _)
      have hr : w ∉ rest := fun e => h (List.mem_cons_of_mem _ e)
      rw [if_neg ha, ih hr]
      rfl

theorem slotY_all_eq (c : Config) (a b : Nat) (h : slotY c a = slotY c b) (hab : a ≠ b)
    (x y : Nat) : slotY c x = slotY c y := by
  have ht : c.totalHeight = 0 := by
    have hne : (a : Int) - b ≠ 0 := by omega
    have hz : c.totalHeight * ((a : Int) - b) = 0 := by
      unfold slotY at h
      cases hc : c.startCorner <;> simp only [hc] at h <;> linarith
    rcases mul_eq_zero.mp hz with h0 | h0
    · exact h0
    · exact absurd h0 hne
  unfold slotY
  cases c.startCorner <;> simp [ht]

theorem moveNotificationAnimation_windowPos (s : State) (i w : Nat)
    (hw : s.activeNotifications[i]? = some w) (hsteps : 0 < s.config.animationSteps) :
    ∃ t, moveNotificationAnimation s i = some t ∧ SameButWindows s t ∧
      ∀ v, windowPos t v =
        if v = w then
          (windowPos s v).map (fun _ => (some s.config.firstPos.x, some (slotY s.config i)))
        else windowPos s v := by
  obtain ⟨frames, hf⟩ := animationLoop_terminates s.config.animationSteps (getPositionY s w)
    (slotY s.config i) s.config.animationSteps 1 [] hsteps (by omega)
  have heq : moveNotificationAnimation s i =
      some ((frames ++ [some (slotY s.config i)]).foldl
        (fun t y => setWindowPosition t w (some s.config.firstPos.x) y) s) := by
    unfold moveNotificationAnimation
    simp only [hw, hf]
  refine ⟨_, heq, moveNotificationAnimation_same heq, ?_⟩
  intro v
  exact foldl_setWindowPosition_windowPos frames _ w _ s v

theorem moveNotificationAnimation_placedFrom (s : State) (m : Nat)
    (hP : PlacedFrom s m) (hm : m < s.activeNotifications.length)
    (hsteps : 0 < s.config.animationSteps) :
    ∃ t, moveNotificationAnimation s m = some t ∧ SameButWindows s t ∧ PlacedFrom t (m + 1) := by
  obtain ⟨w, hw⟩ : ∃ w, s.activeNotifications[m]? = some w :=
    ⟨s.activeNotifications[m], List.getElem?_eq_getElem hm⟩
  obtain ⟨t, ht, hsame, hpos⟩ := moveNotificationAnimation_windowPos s m w hw hsteps
  refine ⟨t, ht, hsame, ?_⟩
  have hact : t.activeNotifications = s.activeNotifications := by
    unfold SameButWindows at hsame; rw [hsame]
  intro j v hj
  rw [hact] at hj
  rw [hsame.config, hpos v]
  have hPj := hP j v hj
  by_cases hv : v = w
  · rw [if_pos hv, hPj]
    simp only [Option.map_some']
    by_cases hjm : j = m
    · subst hjm; simp
    · have hPm := hP m w hw
      rw [← hv, hPj] at hPm
      simp only [lt_irrefl, if_false, Option.some.injEq, Prod.mk.injEq, true_and] at hPm
      have hne : (if j < m then j else j + 1) ≠ m + 1 := by split <;> omega
      rw [slotY_all_eq s.config _ _ hPm hne m (if j < m + 1 then j else j + 1)]
  · rw [if_neg hv, hPj]
    have hjm : j ≠ m := by
      intro e; subst e; rw [hw] at hj; exact hv (Option.some.inj hj).symm
    have : (if j < m then j else j + 1) = (if j < m + 1 then j else j + 1) := by
      split <;> split <;> omega
    rw [this]

theorem animateAll_placedFrom (k : Nat) (s : State) (m : Nat)
    (hP : PlacedFrom s m) (hk : m + k = s.activeNotifications.length)
    (hsteps : 0 < s.config.animationSteps) :
    ∃ t, animateAll s (List.range' m k) = some t ∧ SameButWindows s t ∧ PlacedFrom t (m + k) := by
  induction k generalizing s m with
  | zero => exact ⟨s, rfl, SameButWindows.refl s, hP⟩
  | succ k ih =>
      obtain ⟨u, hu, hsu, hPu⟩ := moveNotificationAnimation_placedFrom s m hP (by omega) hsteps
      have hact : u.activeNotifications = s.activeNotifications := by
        unfold SameButWindows at hsu; rw [hsu]
      obtain ⟨t, ht, hut, hPt⟩ := ih u (m + 1) hPu (by rw [hact]; omega)
        (by rw [hsu.config]; exact hsteps)
      refine ⟨t, ?_, hsu.trans hut, ?_⟩
      · simp only [List.range'_succ, animateAll, hu, ht]
      · rw [show m + (k + 1) = m + 1 + k by omega]; exact hPt

theorem PlacedFrom.placed {s : State} {m : Nat} (hP : PlacedFrom s m)
    (hm : s.activeNotifications.length ≤ m) : Placed s := by
  intro i w hi
  have hlt : i < s.activeNotifications.length := by
    by_contra hge
    rw [List.getElem?_eq_none (by omega)] at hi
    cases hi
  have := hP i w hi
  rwa [if_pos (by omega)] at this

theorem moveOneDown_placed (s : State) (p : Nat) (hP : PlacedFrom s p)
    (hp : p ≤ s.activeNotifications.length) (hsteps : 0 < s.config.animationSteps) :
    ∃ t, moveOneDown s (p : Int) = some t ∧ SameButWindows s t ∧ Placed t := by
  unfold moveOneDown
  split
  · rename_i hguard
    refine ⟨s, rfl, SameButWindows.refl s, ?_⟩
    rcases hguard with hg | hg
    · cases hact : s.activeNotifications with
      | nil => intro i w hi; rw [hact] at hi; simp at hi
      | cons a rest => rw [hact] at hg; simp [arrayToNumber, geNumber] at hg
    · omega
  · simp only [Int.toNat_ofNat]
    obtain ⟨t, ht, hst, hPt⟩ := animateAll_placedFrom (s.activeNotifications.length - p) s p hP
      (by omega) hsteps
    refine ⟨t, ht, hst, hPt.placed ?_⟩
    have hact : t.activeNotifications = s.activeNotifications := by
      unfold SameButWindows at hst; rw [hst]
    rw [hact]; omega

theorem checkForQueuedNotifications_windows (s : State) :
    (checkForQueuedNotifications s).windows = s.windows := by
  unfold checkForQueuedNotifications
  split
  · rfl
  · split <;> rfl

theorem closeBody_windows (s : State) (w : Nat) (n : NotificationObj) (tid : Option Nat)
    (ev : String) :
    (closeBody s w n tid ev).1.windows =
      modifyWindow
        (modifyWindow
          (match s.windows[w]?.bind (fun win => win.electronNotifyOnCloseFunc) with
            | some _ => modifyWindow s.windows w
                (fun win => { win with electronNotifyOnCloseFunc := none })
            | none => s.windows)
          w (fun win => { win with contents := none }))
        w (fun win => { win with visible := false }) := by
  simp only [closeBody, checkForQueuedNotifications_windows]
  cases s.windows[w]?.bind (fun win => win.electronNotifyOnCloseFunc) <;> cases tid <;> rfl

theorem modifyWindow_pos (ws : List NotificationWindow) (w v : Nat)
    (f : NotificationWindow → NotificationWindow)
    (hf : ∀ win, (f win).x = win.x ∧ (f win).y = win.y) :
    (modifyWindow ws w f)[v]?.map (fun win => (win.x, win.y)) =
      ws[v]?.map (fun win => (win.x, win.y)) := by
  rw [modifyWindow_get?]
  split
  · cases ws[v]? with
    | none => rfl
    | some win => simp [(hf win).1, (hf win).2]
  · rfl

theorem closeBody_windowPos (s : State) (w : Nat) (n : NotificationObj) (tid : Option Nat)
    (ev : String) (v : Nat) : windowPos (closeBody s w n tid ev).1 v = windowPos s v := by
  unfold windowPos
  rw [closeBody_windows]
  refine (modifyWindow_pos _ _ _ _ (by intro _; exact ⟨rfl, rfl⟩)).trans ?_
  refine (modifyWindow_pos _ _ _ _ (by intro _; exact ⟨rfl, rfl⟩)).trans ?_
  cases s.windows[w]?.bind (fun win => win.electronNotifyOnCloseFunc) with
  | none => rfl
  | some cb => exact modifyWindow_pos _ _ _ _ (by intro _; exact ⟨rfl, rfl⟩)

theorem closeBody_pos (s : State) (w : Nat) (n : NotificationObj) (tid : Option Nat)
    (ev : String) : (closeBody s w n tid ev).2 = indexOf s.activeNotifications w := by
  simp only [closeBody]
  cases s.windows[w]?.bind (fun win => win.electronNotifyOnCloseFunc) <;> cases tid <;> rfl

theorem closeBody_placedFrom (s : State) (w : Nat) (n : NotificationObj) (tid : Option Nat)
    (ev : String) (k : Nat) (hk : indexOf s.activeNotifications w = (k : Int))
    (hP : Placed s) : PlacedFrom (closeBody s w n tid ev).1 k := by
  intro j v hj
  rw [closeBody_activeNotifications, hk] at hj
  simp only [splice1, Int.natCast_nonneg, if_true, Int.toNat_ofNat, List.getElem?_eraseIdx] at hj
  rw [closeBody_windowPos, closeBody_config]
  by_cases hjk : j < k
  · rw [if_pos hjk] at hj ⊢
    exact hP j v hj
  · rw [if_neg hjk] at hj ⊢
    exact hP (j + 1) v hj

theorem placed_of_slots (s : State)
    (h : ∀ i v, s.activeNotifications[i]? = some v →
      ∃ win, s.windows[v]? = some win ∧ win.x = some s.config.firstPos.x ∧
        win.y = some (slotY s.config i)) : Placed s := by
  intro i v hi
  obtain ⟨win, hwin, hx, hy⟩ := h i v hi
  simp [windowPos, hwin, hx, hy]

theorem Placed.slots {s : State} (h : Placed s) :
    ∀ i v, s.activeNotifications[i]? = some v →
      ∃ win, s.windows[v]? = some win ∧ win.x = some s.config.firstPos.x ∧
        win.y = some (slotY s.config i) := by
  intro i v hi
  have := h i v hi
  unfold windowPos at this
  cases hv : s.windows[v]? with
  | none => rw [hv] at this; simp at this
  | some win =>
      rw [hv] at this
      simp only [Option.map_some', Option.some.injEq, Prod.mk.injEq] at this
      exact ⟨win, rfl, this.1, this.2⟩

theorem placed_of_check (s : State) (h : placedCheck s = true) : Placed s := by
  intro i v hi
  have hlt : i < s.activeNotifications.length := by
    by_contra hge
    rw [List.getElem?_eq_none (by omega)] at hi
    cases hi
  unfold placedCheck at h
  rw [List.all_eq_true] at h
  have := h i (List.mem_range.mpr hlt)
  rw [hi] at this
  simpa using this

/-- C8: if every active window at index `i` sits at slot `i`
(`x = firstPos.x`, `y = slotY i`), then closing an active window `w` (closed
flag not set, at least one animation step) returns, the active list is the
old one with `w` removed, the others keeping their order, and after
`moveOneDown` every remaining window at index `i` sits at slot `i` again. -/
theorem close_keeps_slots_contiguous (s : State) (w : Nat) (n : NotificationObj)
    (tid : Option Nat) (ev : String)
    (hsteps : 0 < s.config.animationSteps)
    (hflag : n.id ∉ s.closedNotifications)
    (hw : w ∈ s.activeNotifications)
    (hslots : ∀ i v, s.activeNotifications[i]? = some v →
      ∃ win, s.windows[v]? = some win ∧ win.x = some s.config.firstPos.x ∧
        win.y = some (slotY s.config i)) :
    ∃ t, closeNotification s w n tid ev = some t ∧
      t.config = s.config ∧
      t.activeNotifications = s.activeNotifications.erase w ∧
      t.activeNotifications.length + 1 = s.activeNotifications.length ∧
      ∀ i v, t.activeNotifications[i]? = some v →
        ∃ win, t.windows[v]? = some win ∧ win.x = some t.config.firstPos.x ∧
          win.y = some (slotY t.config i) := by
  have hP : Placed s := placed_of_slots s hslots
  obtain ⟨k, hk, _, hlt, herase⟩ := indexOf_of_mem s.activeNotifications w hw
  have hPF := closeBody_placedFrom s w n tid ev k hk hP
  have hact : (closeBody s w n tid ev).1.activeNotifications = s.activeNotifications.erase w := by
    rw [closeBody_activeNotifications, hk, ← herase]
    simp [splice1]
  have hlen : (s.activeNotifications.erase w).length + 1 = s.activeNotifications.length := by
    rw [List.length_erase_of_mem hw]
    have : 0 < s.activeNotifications.length := List.length_pos_of_mem hw
    omega
  obtain ⟨t, ht, hst, hPt⟩ := moveOneDown_placed (closeBody s w n tid ev).1 k hPF
    (by rw [hact]; omega) (by rw [closeBody_config]; exact hsteps)
  have htact : t.activeNotifications = s.activeNotifications.erase w := by
    have : t.activeNotifications = (closeBody s w n tid ev).1.activeNotifications := by
      unfold SameButWindows at hst; rw [hst]
    rw [this, hact]
  refine ⟨t, ?_, ?_, htact, by rw [htact]; exact hlen, ?_⟩
  · rw [closeNotification_flag_unset s w n tid ev hflag, closeBody_pos, hk]
    exact ht
  · rw [hst.config, closeBody_config]
  · exact Placed.slots hPt

theorem getWindow_frame (s : State) :
    (getWindow s).1 =
      { s with windows := (getWindow s).1.windows, inactiveWindows := (getWindow s).1.inactiveWindows } := by
  unfold getWindow
  split <;> rfl

theorem showNotification_free (s : State) (n : NotificationObj)
    (h : (s.activeNotifications.length : Int) < s.config.maxVisibleNotifications) :
    showNotification s n =
      { s with
        windows := modifyWindow
          (modifyWindow (getWindow s).1.windows (getWindow s).2
            (fun win => { win with
              x := s.nextInsertPos.x
              y := some (slotY s.config s.activeNotifications.length) }))
          (getWindow s).2
          (fun win => { win with
            electronNotifyOnClickFunc := n.request.onClickFunc
            electronNotifyOnCloseFunc := n.request.onCloseFunc
            contents := some n
            visible := true })
        inactiveWindows := (getWindow s).1.inactiveWindows
        activeNotifications := s.activeNotifications ++ [(getWindow s).2]
        nextInsertPos :=
          { x := s.nextInsertPos.x, y := some (slotY s.config s.activeNotifications.length) }
        timers := s.timers ++
          [{ id := s.nextTimer, delay := displayTimeOf s.config n,
             action := TimerAction.autoClose (getWindow s).2 n }]
        nextTimer := s.nextTimer + 1
        events := s.events ++ showEvents n (getWindow s).2 s.nextTimer } := by
  have hg := getWindow_frame s
  have h1 : ((getWindow s).1.activeNotifications.length : Int) <
      (getWindow s).1.config.maxVisibleNotifications := by rw [hg]; exact h
  unfold showNotification
  rw [if_pos h]
  simp only [calcInsertPos, if_pos h1, setWindowPosition, showEvents]
  generalize getWindow s = g at hg h1 ⊢
  obtain ⟨g1, g2⟩ := g
  simp only at hg h1 ⊢
  rw [hg]
  cases n.request.onShowFunc <;> simp

theorem showNotification_full (s : State) (n : NotificationObj)
    (h : ¬ (s.activeNotifications.length : Int) < s.config.maxVisibleNotifications) :
    showNotification s n = { s with notificationQueue := s.notificationQueue ++ [n] } := by
  unfold showNotification
  rw [if_neg h]

/-- Witness of C7: the first of three displayed notifications is closed
twice, by the client and then by its timer. -/
theorem close_twice_calls_onClose_once_witness :
    0 < threeShownState.config.animationSteps ∧
    0 ∉ threeShownState.closedNotifications ∧
    ∃ t u,
      closeNotification threeShownState 0 { id := 0, request := exampleRequest 0 } (some 0)
        "closedByAPI" = some t ∧
      closeNotification t 0 { id := 0, request := exampleRequest 0 } (some 0) "timeout" = some u ∧
      u.events = threeShownState.events ++ [Event.onClose 2 "closedByAPI" (some 0)] := by
  obtain ⟨t, u, h1, h2, _, h4, _⟩ :=
    close_twice_calls_onClose_once threeShownState 0 { id := 0, request := exampleRequest 0 }
      { x := some 1616, y := some 0, visible := true, destroyed := false,
        electronNotifyOnClickFunc := some 1, electronNotifyOnCloseFunc := some 2,
        contents := some { id := 0, request := exampleRequest 0 } }
      2 (some 0) (some 0) "closedByAPI" "timeout" (by decide) (by decide) rfl (by decide)
  exact ⟨by decide, by decide, t, u, h1, h2, h4⟩

/-- Witness of C8: the second of three displayed notifications is closed. -/
theorem close_keeps_slots_contiguous_witness :
    1 ∈ threeShownState.activeNotifications ∧
    ∃ t, closeNotification threeShownState 1 { id := 1, request := exampleRequest 1 } (some 1)
        "timeout" = some t ∧
      t.activeNotifications = threeShownState.activeNotifications.erase 1 := by
  obtain ⟨t, h1, _, h3, _⟩ :=
    close_keeps_slots_contiguous threeShownState 1 { id := 1, request := exampleRequest 1 }
      (some 1) "timeout" (by decide) (by decide) (by decide)
      (Placed.slots (placed_of_check threeShownState (by decide)))
  exact ⟨by decide, t, h1, h3⟩

theorem closeBody_eq (s : State) (w : Nat) (n : NotificationObj) (tid : Option Nat)
    (ev : String) :
    (closeBody s w n tid ev).1 =
      checkForQueuedNotifications
        { s with
          closedNotifications := n.id :: s.closedNotifications
          events := (closeBody s w n tid ev).1.events
          windows := (closeBody s w n tid ev).1.windows
          timers :=
            (match tid with
              | some t => s.timers.filter (fun u => u.id ≠ t)
              | none => s.timers)
          activeNotifications := splice1 s.activeNotifications (indexOf s.activeNotifications w)
          inactiveWindows := s.inactiveWindows ++ [w] } := by
  simp only [closeBody, checkForQueuedNotifications_events, checkForQueuedNotifications_windows]
  cases s.windows[w]?.bind (fun win => win.electronNotifyOnCloseFunc) <;> cases tid <;> rfl

theorem setWindowPosition_windows_length (s : State) (w : Nat) (x y : Option Int) :
    (setWindowPosition s w x y).windows.length = s.windows.length :=
  modifyWindow_length _ _ _

theorem foldl_setWindowPosition_windows_length (frames : List (Option Int)) (w : Nat) (x : Option Int)
    (s : State) :
    (frames.foldl (fun t y => setWindowPosition t w x y) s).windows.length =
      s.windows.length := by
  induction frames generalizing s with
  | nil => rfl
  | cons a rest ih =>
      simp only [List.foldl_cons]
      rw [ih, setWindowPosition_windows_length]

theorem moveNotificationAnimation_windows_length {s t : State} {i : Nat}
    (h : moveNotificationAnimation s i = some t) : t.windows.length = s.windows.length := by
  unfold moveNotificationAnimation at h
  split at h
  · cases h; rfl
  · simp only at h
    split at h
    · cases h
    · cases h
      exact foldl_setWindowPosition_windows_length _ _ _ _

theorem animateAll_windows_length {l : List Nat} {s t : State} (h : animateAll s l = some t) :
    t.windows.length = s.windows.length := by
  induction l generalizing s with
  | nil => simp [animateAll] at h; subst h; rfl
  | cons i rest ih =>
      unfold animateAll at h
      split at h
      · cases h
      · rename_i u hu
        rw [ih h, moveNotificationAnimation_windows_length hu]

theorem moveOneDown_windows_length {s t : State} {pos : Int} (h : moveOneDown s pos = some t) :
    t.windows.length = s.windows.length := by
  unfold moveOneDown at h
  split at h
  · cases h; rfl
  · exact animateAll_windows_length h

theorem closeBody_windows_length (s : State) (w : Nat) (n : NotificationObj)
    (tid : Option Nat) (ev : String) :
    (closeBody s w n tid ev).1.windows.length = s.windows.length := by
  rw [closeBody_windows, modifyWindow_length, modifyWindow_length]
  cases s.windows[w]?.bind (fun win => win.electronNotifyOnCloseFunc) with
  | none => rfl
  | some cb => exact modifyWindow_length _ _ _

theorem checkForQueuedNotifications_promote (s : State) (r : NotificationObj)
    (rest : List NotificationObj) (hq : s.notificationQueue = r :: rest)
    (hfree : (s.activeNotifications.length : Int) < s.config.maxVisibleNotifications) :
    checkForQueuedNotifications s =
      { s with
        notificationQueue := rest
        animationQueue := s.animationQueue.push (Task.show r) } := by
  unfold checkForQueuedNotifications
  rw [hq]
  simp only [if_pos hfree]

theorem getWindow_recycle (s : State) (w : Nat) (l : List Nat)
    (h : s.inactiveWindows = l ++ [w]) :
    getWindow s = ({ s with inactiveWindows := l }, w) := by
  unfold getWindow
  rw [h]
  simp

theorem closeNotification_placed (s : State) (w : Nat) (n : NotificationObj)
    (tid : Option Nat) (ev : String)
    (hsteps : 0 < s.config.animationSteps)
    (hflag : n.id ∉ s.closedNotifications)
    (hw : w ∈ s.activeNotifications)
    (hP : Placed s) :
    ∃ t, closeNotification s w n tid ev = some t ∧
      SameButWindows (closeBody s w n tid ev).1 t ∧
      t.windows.length = s.windows.length ∧
      (closeBody s w n tid ev).1.activeNotifications = s.activeNotifications.erase w ∧
      Placed t := by
  obtain ⟨k, hk, _, hlt, herase⟩ := indexOf_of_mem s.activeNotifications w hw
  have hPF := closeBody_placedFrom s w n tid ev k hk hP
  have hact : (closeBody s w n tid ev).1.activeNotifications = s.activeNotifications.erase w := by
    rw [closeBody_activeNotifications, hk, ← herase]
    simp [splice1]
  have hlen : (s.activeNotifications.erase w).length + 1 = s.activeNotifications.length := by
    rw [List.length_erase_of_mem hw]
    have : 0 < s.activeNotifications.length := List.length_pos_of_mem hw
    omega
  obtain ⟨t, ht, hst, hPt⟩ := moveOneDown_placed (closeBody s w n tid ev).1 k hPF
    (by rw [hact]; omega) (by rw [closeBody_config]; exact hsteps)
  refine ⟨t, ?_, hst, ?_, hact, hPt⟩
  · rw [closeNotification_flag_unset s w n tid ev hflag, closeBody_pos, hk]
    exact ht
  · rw [moveOneDown_windows_length ht, closeBody_windows_length]

theorem Placed.slots_const_of_dup {s : State} (hP : Placed s)
    (hdup : ¬ s.activeNotifications.Nodup) (a b : Nat) :
    slotY s.config a = slotY s.config b := by
  rw [List.nodup_iff_getElem?_ne_getElem?] at hdup
  push_neg at hdup
  obtain ⟨i, j, hij, hj, heq⟩ := hdup
  have hi : s.activeNotifications[i]? = some s.activeNotifications[i] :=
    List.getElem?_eq_getElem (by omega)
  have h1 := hP i _ hi
  have h2 := hP j _ (heq ▸ hi)
  rw [h1] at h2
  simp only [Option.some.injEq, Prod.mk.injEq, true_and] at h2
  exact slotY_all_eq s.config i j h2 (by omega) a b

/-- C9, as amended: in a state with a full active list whose windows sit at
their slots, a non-empty backlog `r :: rest`, the insert position `x` as set
by `calcDimensions`, and no other task pending in the animation queue, closing
an active window `w` returns; it removes exactly the oldest backlog request
`r`, keeps the rest of the backlog in order, and leaves the show task of `r`
as the only pending task; when the queue runs that task, the backlog is still
`rest`, the active list is the remaining windows in their order followed by
the window showing `r`, and that window is visible at slot `n - 1`, right
after the `n - 1` remaining windows. -/
theorem close_promotes_backlog_head (s : State) (w : Nat) (n r : NotificationObj)
    (rest : List NotificationObj) (tid : Option Nat) (ev : String)
    (hsteps : 0 < s.config.animationSteps)
    (hflag : n.id ∉ s.closedNotifications)
    (hw : w ∈ s.activeNotifications)
    (hslots : ∀ i v, s.activeNotifications[i]? = some v →
      ∃ win, s.windows[v]? = some win ∧ win.x = some s.config.firstPos.x ∧
        win.y = some (slotY s.config i))
    (hfull : (s.activeNotifications.length : Int) = s.config.maxVisibleNotifications)
    (hq : s.notificationQueue = r :: rest)
    (hpending : s.animationQueue.pending = [])
    (hstalled : s.animationQueue.stalled = false)
    (hx : s.nextInsertPos.x = some s.config.firstPos.x) :
    ∃ t, closeNotification s w n tid ev = some t ∧
      t.notificationQueue = rest ∧
      t.animationQueue.pending = [Task.show r] ∧
      t.activeNotifications = s.activeNotifications.erase w ∧
      (runNext t).notificationQueue = rest ∧
      (runNext t).animationQueue.pending = [] ∧
      (runNext t).activeNotifications = s.activeNotifications.erase w ++ [w] ∧
      (∃ win, (runNext t).windows[w]? = some win ∧
        win.contents = some r ∧ win.visible = true ∧
        win.x = some s.config.firstPos.x ∧
        win.y = some (slotY s.config (s.activeNotifications.length - 1))) ∧
      ∀ i v, (runNext t).activeNotifications[i]? = some v →
        ∃ win, (runNext t).windows[v]? = some win ∧ win.x = some s.config.firstPos.x ∧
          win.y = some (slotY s.config i) := by
  have hPs : Placed s := placed_of_slots s hslots
  obtain ⟨t, ht, hst, hwl, hact, hPt⟩ :=
    closeNotification_placed s w n tid ev hsteps hflag hw hPs
  have hlen : (s.activeNotifications.erase w).length + 1 = s.activeNotifications.length := by
    rw [List.length_erase_of_mem hw]
    have : 0 < s.activeNotifications.length := List.length_pos_of_mem hw
    omega
  -- the close body promotes `r`
  have hbody := closeBody_eq s w n tid ev
  have hsplice : splice1 s.activeNotifications (indexOf s.activeNotifications w) =
      s.activeNotifications.erase w := by
    rw [← closeBody_activeNotifications s w n tid ev, hact]
  have hfree : ((s.activeNotifications.erase w).length : Int) <
      s.config.maxVisibleNotifications := by
    rw [← hfull]; omega
  rw [hsplice] at hbody
  rw [checkForQueuedNotifications_promote _ r rest ?_ ?_] at hbody
  rotate_left
  · exact hq
  · exact hfree
  -- the state after the animation
  have htq : t = { (closeBody s w n tid ev).1 with windows := t.windows } := hst
  rw [hbody] at htq
  have hq' : t.notificationQueue = rest := by rw [htq]
  have hpend' : t.animationQueue = { pending := [Task.show r], stalled := false } := by
    rw [htq]
    simp only [AnimationQueue.push, hpending, List.nil_append]
    rw [← hstalled]
  have hact' : t.activeNotifications = s.activeNotifications.erase w := by rw [htq]
  have hinact : t.inactiveWindows = s.inactiveWindows ++ [w] := by rw [htq]
  have hcfg : t.config = s.config := by rw [htq]
  have hnip : t.nextInsertPos = s.nextInsertPos := by rw [htq]
  have hreg : w < t.windows.length := by
    obtain ⟨i, hi⟩ := List.getElem?_of_mem hw
    obtain ⟨win, hwin, _⟩ := hslots i w hi
    rw [hwl]
    by_contra hge
    rw [List.getElem?_eq_none (by omega)] at hwin
    cases hwin
  obtain ⟨win0, hwin0⟩ : ∃ win0, t.windows[w]? = some win0 :=
    ⟨t.windows[w], List.getElem?_eq_getElem hreg⟩
  have hrun : runNext t =
      showNotification { t with animationQueue := { pending := [], stalled := false } } r := by
    unfold runNext
    rw [hpend']
    simp [runTask]
  have hshow := showNotification_free
    { t with animationQueue := { pending := [], stalled := false } } r
    (by show ((t.activeNotifications.length : Int) < t.config.maxVisibleNotifications)
        rw [hact', hcfg]; exact hfree)
  rw [getWindow_recycle { t with animationQueue := { pending := [], stalled := false } } w
    s.inactiveWindows hinact] at hshow
  rw [← hrun] at hshow
  have hfinal : (runNext t).windows[w]? =
      some { x := some s.config.firstPos.x,
             y := some (slotY s.config (s.activeNotifications.length - 1)),
             visible := true, destroyed := win0.destroyed,
             electronNotifyOnClickFunc := r.request.onClickFunc,
             electronNotifyOnCloseFunc := r.request.onCloseFunc,
             contents := some r } := by
    rw [hshow]
    simp only [modifyWindow_get?, if_true, hwin0, Option.map_some']
    have e1 : t.nextInsertPos.x = some s.config.firstPos.x := by rw [hnip]; exact hx
    have e2 : slotY t.config t.activeNotifications.length =
        slotY s.config (s.activeNotifications.length - 1) := by
      rw [hcfg, hact', ← hlen, Nat.add_sub_cancel]
    rw [e1, e2]
  have hother : ∀ v, v ≠ w → (runNext t).windows[v]? = t.windows[v]? := by
    intro v hv
    rw [hshow]
    simp only [modifyWindow_get?, if_neg hv]
  have hactfinal : (runNext t).activeNotifications = s.activeNotifications.erase w ++ [w] := by
    rw [hshow, hact']
  refine ⟨t, ht, hq', by rw [hpend'], hact', ?_, ?_, hactfinal, ⟨_, hfinal, rfl, rfl, rfl, rfl⟩, ?_⟩
  · rw [hshow]; exact hq'
  · rw [hshow]
  · intro i v hi
    rw [hactfinal] at hi
    by_cases hv : v = w
    · subst hv
      refine ⟨_, hfinal, rfl, ?_⟩
      by_cases hil : i < (s.activeNotifications.erase v).length
      · -- `v` occurs twice in the old active list: all slots coincide
        rw [List.getElem?_append_left hil] at hi
        have hmem : v ∈ s.activeNotifications.erase v := List.getElem?_mem hi
        have hdup : ¬ s.activeNotifications.Nodup := fun hnd => hnd.not_mem_erase hmem
        rw [hPs.slots_const_of_dup hdup _ i]
      · have : i = (s.activeNotifications.erase v).length := by
          by_contra hne
          rw [List.getElem?_eq_none (by simp; omega)] at hi
          cases hi
        rw [this, ← hlen, Nat.add_sub_cancel]
    · have hil : i < (s.activeNotifications.erase w).length := by
        by_contra hge
        by_cases hie : i = (s.activeNotifications.erase w).length
        · rw [hie] at hi
          simp at hi
          exact hv hi.symm
        · rw [List.getElem?_eq_none (by simp; omega)] at hi
          cases hi
      rw [List.getElem?_append_left hil, ← hact'] at hi
      obtain ⟨win, hwin, hx1, hy1⟩ := hPt.slots i v hi
      rw [hcfg] at hx1 hy1
      exact ⟨win, by rw [hother v hv]; exact hwin, hx1, hy1⟩

/-- Witness of C9: the scenario of the spec. After A, B, C with two slots, A
and B are displayed and C is in the backlog; closing A and running the
promoted show task gives the active list B, C (windows 1 and 0), with B at
`firstPos` and C, in the recycled window, in the second slot. -/
theorem close_promotes_backlog_head_witness :
    twoShownOneQueued.config.maxVisibleNotifications = 2 ∧
    twoShownOneQueued.activeNotifications = [0, 1] ∧
    twoShownOneQueued.notificationQueue = [{ id := 2, request := exampleRequest 2 }] ∧
    twoShownOneQueued.config.firstPos = { x := 1616, y := 0 } ∧
    ∃ t, closeNotification twoShownOneQueued 0 { id := 0, request := exampleRequest 0 } (some 0)
        "closedByAPI" = some t ∧
      (runNext t).notificationQueue = [] ∧
      (runNext t).activeNotifications = [1, 0] ∧
      (∃ win, (runNext t).windows[1]? = some win ∧ win.x = some 1616 ∧ win.y = some 0) ∧
      (∃ win, (runNext t).windows[0]? = some win ∧
        win.contents = some { id := 2, request := exampleRequest 2 } ∧
        win.x = some 1616 ∧ win.y = some 84) := by
  obtain ⟨t, h1, _, _, _, h5, _, h7, ⟨win, hw1, hw2, _, hw4, hw5⟩, h9⟩ :=
    close_promotes_backlog_head twoShownOneQueued 0 { id := 0, request := exampleRequest 0 }
      { id := 2, request := exampleRequest 2 } [] (some 0) "closedByAPI"
      (by decide) (by decide) (by decide)
      (Placed.slots (placed_of_check twoShownOneQueued (by decide)))
      (by decide) (by decide) (by decide) (by decide) (by decide)
  have hact : (runNext t).activeNotifications = [1, 0] := h7.trans (by decide)
  obtain ⟨winB, hB1, hB2, hB3⟩ := h9 0 1 (by rw [hact]; rfl)
  exact ⟨by decide, by decide, by decide, by decide, t, h1, h5, hact,
    ⟨winB, hB1, hB2.trans (by decide), hB3.trans (by decide)⟩,
    ⟨win, hw1, hw2, hw4.trans (by decide), hw5.trans (by decide)⟩⟩

/-- C9 as stated fails when another task is pending: with one slot, request 0
on display, requests 1, 2 and 3 in the backlog, and the animation queue
holding the close of request 0 followed by the show task of a new request 4,
the close takes request 1 from the backlog, but the queue then shows request
4; request 1 is not shown and goes back to the backlog behind requests 2 and
3. -/
theorem close_with_pending_show_not_fifo :
    (closeThenNotify.activeNotifications.length : Int) =
      closeThenNotify.config.maxVisibleNotifications ∧
    closeThenNotify.notificationQueue.map (fun q => q.id) = [1, 2, 3] ∧
    closeThenNotify.animationQueue.pending =
      [Task.close 0 { id := 0, request := exampleRequest 0 } (some 0) "closedByAPI",
       Task.show { id := 4, request := exampleRequest 4 }] ∧
    (runNext closeThenNotify).notificationQueue.map (fun q => q.id) = [2, 3] ∧
    (runNext closeThenNotify).animationQueue.pending =
      [Task.show { id := 4, request := exampleRequest 4 },
       Task.show { id := 1, request := exampleRequest 1 }] ∧
    (run closeThenNotify [Action.runNext, Action.runNext, Action.runNext]).animationQueue.pending
      = [] ∧
    (run closeThenNotify [Action.runNext, Action.runNext, Action.runNext]).activeNotifications
      = [0] ∧
    (run closeThenNotify [Action.runNext, Action.runNext, Action.runNext]).windows[0]?.bind
      (fun win => win.contents) = some { id := 4, request := exampleRequest 4 } ∧
    (run closeThenNotify [Action.runNext, Action.runNext, Action.runNext]).notificationQueue.map
      (fun q => q.id) = [2, 3, 1] := by
  decide

theorem modifyWindow_deadAt_self (ws : List NotificationWindow) (w : Nat)
    (f : NotificationWindow → NotificationWindow)
    (hf : ∀ win, (f win).destroyed = true ∧ (f win).visible = false) :
    DeadAt (modifyWindow ws w f) w := by
  intro win hwin
  rw [modifyWindow_get?, if_pos rfl] at hwin
  cases h : ws[w]? with
  | none => rw [h] at hwin; cases hwin
  | some win0 =>
      rw [h] at hwin
      cases hwin
      exact hf win0

theorem modifyWindow_deadAt_keep (ws : List NotificationWindow) (w v : Nat)
    (f : NotificationWindow → NotificationWindow)
    (hf : ∀ win, win.destroyed = true ∧ win.visible = false →
      (f win).destroyed = true ∧ (f win).visible = false)
    (h : DeadAt ws v) : DeadAt (modifyWindow ws w f) v := by
  intro win hwin
  rw [modifyWindow_get?] at hwin
  split at hwin
  · cases h0 : ws[v]? with
    | none => rw [h0] at hwin; cases hwin
    | some win0 =>
        rw [h0] at hwin
        cases hwin
        exact hf win0 (h win0 h0)
  · exact h win hwin

theorem closeAllWindow_frame (s : State) (w : Nat) :
    closeAllWindow s w =
      { s with windows := (closeAllWindow s w).windows, events := (closeAllWindow s w).events } := by
  unfold closeAllWindow
  split
  · split <;> rfl
  · rfl

theorem closeAllWindow_deadAt_self (s : State) (w : Nat) :
    DeadAt (closeAllWindow s w).windows w := by
  unfold closeAllWindow
  exact modifyWindow_deadAt_self _ _ _ (fun _ => ⟨rfl, rfl⟩)

theorem closeAllWindow_deadAt_keep (s : State) (w v : Nat) (h : DeadAt s.windows v) :
    DeadAt (closeAllWindow s w).windows v := by
  unfold closeAllWindow
  refine modifyWindow_deadAt_keep _ _ _ _ (fun _ _ => ⟨rfl, rfl⟩) ?_
  split
  · split
    · exact modifyWindow_deadAt_keep _ _ _ _ (fun _ hd => hd) h
    · exact h
  · exact h

theorem closeAllWindow_windows_length (s : State) (w : Nat) :
    (closeAllWindow s w).windows.length = s.windows.length := by
  unfold closeAllWindow
  rw [modifyWindow_length]
  split
  · split
    · exact modifyWindow_length _ _ _
    · rfl
  · rfl

theorem closeAllWindow_events (s : State) (w : Nat) :
    ∀ e ∈ (closeAllWindow s w).events,
      e ∈ s.events ∨ ∃ cb, e = Event.onClose cb "close-all" none := by
  intro e he
  unfold closeAllWindow at he
  split at he
  · split at he
    · rename_i cb _
      rcases List.mem_append.mp he with h | h
      · exact Or.inl h
      · exact Or.inr ⟨cb, List.mem_singleton.mp h⟩
    · exact Or.inl he
  · exact Or.inl he

theorem foldl_closeAllWindow_dead (l : List Nat) (s : State) :
    (∀ w ∈ l, DeadAt (l.foldl closeAllWindow s).windows w) ∧
    (∀ v, DeadAt s.windows v → DeadAt (l.foldl closeAllWindow s).windows v) ∧
    (l.foldl closeAllWindow s).windows.length = s.windows.length ∧
    (∀ e ∈ (l.foldl closeAllWindow s).events,
      e ∈ s.events ∨ ∃ cb, e = Event.onClose cb "close-all" none) := by
  induction l generalizing s with
  | nil => exact ⟨fun w hw => (by cases hw), fun v h => h, rfl, fun e he => Or.inl he⟩
  | cons a rest ih =>
      obtain ⟨h1, h2, h3, h4⟩ := ih (closeAllWindow s a)
      simp only [List.foldl_cons]
      refine ⟨?_, ?_, ?_, ?_⟩
      · intro w hw
        rcases List.mem_cons.mp hw with e | e
        · subst e; exact h2 _ (closeAllWindow_deadAt_self s w)
        · exact h1 w e
      · intro v hv
        exact h2 v (closeAllWindow_deadAt_keep s a v hv)
      · rw [h3, closeAllWindow_windows_length]
      · intro e he
        rcases h4 e he with h | h
        · exact closeAllWindow_events s a e h
        · exact Or.inr h

theorem foldl_destroy_dead (l : List Nat) (ws : List NotificationWindow) :
    (∀ w ∈ l, DeadAt (l.foldl (fun ws w => modifyWindow ws w
        (fun win => { win with destroyed := true, visible := false })) ws) w) ∧
    (∀ v, DeadAt ws v → DeadAt (l.foldl (fun ws w => modifyWindow ws w
        (fun win => { win with destroyed := true, visible := false })) ws) v) ∧
    (l.foldl (fun ws w => modifyWindow ws w
        (fun win => { win with destroyed := true, visible := false })) ws).length = ws.length := by
  induction l generalizing ws with
  | nil => exact ⟨fun w hw => (by cases hw), fun v h => h, rfl⟩
  | cons a rest ih =>
      obtain ⟨h1, h2, h3⟩ := ih (modifyWindow ws a
        (fun win => { win with destroyed := true, visible := false }))
      simp only [List.foldl_cons]
      refine ⟨?_, ?_, ?_⟩
      · intro w hw
        rcases List.mem_cons.mp hw with e | e
        · subst e; exact h2 _ (modifyWindow_deadAt_self _ _ _ (fun _ => ⟨rfl, rfl⟩))
        · exact h1 w e
      · intro v hv
        exact h2 v (modifyWindow_deadAt_keep _ _ _ _ (fun _ hd => ⟨rfl, rfl⟩) hv)
      · rw [h3, modifyWindow_length]

/-- C10: after `closeAll()` the active list and the inactive pool are empty,
every window that was in one of them is destroyed and not shown (and no
window has left the registry), and the animation queue has no pending task;
none of the dropped tasks has run: the backlog, the timers, the closed flags
and the id counter are unchanged, and the only callbacks called are the
`close-all` calls of `onCloseFunc`. -/
theorem closeAll_destroys_all_windows (s : State) :
    (closeAll s).activeNotifications = [] ∧
    (closeAll s).inactiveWindows = [] ∧
    (∀ w, w ∈ s.activeNotifications ∨ w ∈ s.inactiveWindows →
      ∀ win, (closeAll s).windows[w]? = some win →
        win.destroyed = true ∧ win.visible = false) ∧
    (closeAll s).windows.length = s.windows.length ∧
    (closeAll s).animationQueue.pending = [] ∧
    (closeAll s).notificationQueue = s.notificationQueue ∧
    (closeAll s).timers = s.timers ∧
    (closeAll s).closedNotifications = s.closedNotifications ∧
    (closeAll s).latestID = s.latestID ∧
    (∀ e ∈ (closeAll s).events,
      e ∈ s.events ∨ ∃ cb, e = Event.onClose cb "close-all" none) := by
  have hfold := foldl_closeAllWindow_dead s.activeNotifications
    { s with animationQueue := s.animationQueue.clear }
  have hsweep := foldl_destroy_dead
    (s.activeNotifications.foldl closeAllWindow
      { s with animationQueue := s.animationQueue.clear }).inactiveWindows
    (s.activeNotifications.foldl closeAllWindow
      { s with animationQueue := s.animationQueue.clear }).windows
  have hinact : (s.activeNotifications.foldl closeAllWindow
      { s with animationQueue := s.animationQueue.clear }).inactiveWindows = s.inactiveWindows :=
    foldl_preserves (fun t => t.inactiveWindows) closeAllWindow
      (fun t w => by rw [closeAllWindow_frame]) _ _
  obtain ⟨h1, h2, h3, h4⟩ := hfold
  obtain ⟨k1, k2, k3⟩ := hsweep
  refine ⟨rfl, rfl, ?_, ?_, ?_, ?_, ?_, ?_, ?_, ?_⟩
  · intro w hw
    rcases hw with hw | hw
    · exact k2 w (h1 w hw)
    · exact k1 w (by rw [hinact]; exact hw)
  · exact k3.trans h3
  · exact foldl_preserves (fun t => t.animationQueue.pending) closeAllWindow
      (fun t w => by rw [closeAllWindow_frame]) _ _
  · exact foldl_preserves (fun t => t.notificationQueue) closeAllWindow
      (fun t w => by rw [closeAllWindow_frame]) _ _
  · exact foldl_preserves (fun t => t.timers) closeAllWindow
      (fun t w => by rw [closeAllWindow_frame]) _ _
  · exact foldl_preserves (fun t => t.closedNotifications) closeAllWindow
      (fun t w => by rw [closeAllWindow_frame]) _ _
  · exact foldl_preserves (fun t => t.latestID) closeAllWindow
      (fun t w => by rw [closeAllWindow_frame]) _ _
  · exact h4

theorem SameButWindows.occurrences {s t : State} (h : SameButWindows s t) (i : Nat) :
    occurrences t i = occurrences s i := by
  unfold SameButWindows at h
  rw [h]
  rfl

theorem showNotification_occurrences (s : State) (n : NotificationObj) (i : Nat) :
    occurrences (showNotification s n) i = occurrences s i + (if n.id = i then 1 else 0) := by
  by_cases h : (s.activeNotifications.length : Int) < s.config.maxVisibleNotifications
  · rw [showNotification_free s n h]
    simp only [occurrences, showEvents, List.countP_append, List.countP_cons, List.countP_nil,
      Timer.isErrorOf, Event.isShownOf, Event.isErrorOf]
    cases n.request.onShowFunc <;> simp [Event.isShownOf, Event.isErrorOf] <;> omega
  · rw [showNotification_full s n h]
    simp only [occurrences, List.countP_append, List.countP_cons, List.countP_nil]
    simp
    omega

theorem checkForQueuedNotifications_occurrences (s : State) (i : Nat) :
    occurrences (checkForQueuedNotifications s) i = occurrences s i := by
  unfold checkForQueuedNotifications
  split
  · rfl
  · rename_i next rest hq
    split
    · simp only [occurrences, AnimationQueue.push, hq, List.countP_append, List.countP_cons,
        List.countP_nil, Task.isShowOf]
      omega
    · rfl

theorem closeBody_timers_events (s : State) (w : Nat) (n : NotificationObj) (tid : Option Nat)
    (ev : String) (i : Nat) :
    occurrences (closeBody s w n tid ev).1 i ≤ occurrences s i := by
  rw [closeBody_eq, checkForQueuedNotifications_occurrences]
  simp only [occurrences, closeBody_events]
  have hf : ∀ t, (s.timers.filter (fun u : Timer => u.id ≠ t)).countP (Timer.isErrorOf i) ≤
      s.timers.countP (Timer.isErrorOf i) := fun t => (List.filter_sublist _).countP_le _
  cases s.windows[w]?.bind (fun win => win.electronNotifyOnCloseFunc) <;> cases tid <;>
    simp only [List.countP_append, List.countP_cons, List.countP_nil, Event.isShownOf,
      Event.isErrorOf, Bool.false_eq_true, if_false]
  · exact le_refl _
  · rename_i t; have := hf t; omega
  · exact le_refl _
  · rename_i t; have := hf t; omega

theorem runTask_occurrences (s : State) (task : Task) (i : Nat) :
    occurrences (runTask s task) i ≤
      occurrences s i + (if Task.isShowOf i task then 1 else 0) := by
  cases task
  · rename_i notf
    simp only [runTask, showNotification_occurrences, Task.isShowOf, beq_iff_eq]
    exact le_refl _
  · rename_i win notf timeoutId event
    simp only [runTask, Task.isShowOf, Bool.false_eq_true, if_false, Nat.add_zero]
    split
    · rename_i s2 h2
      unfold closeNotification at h2
      split at h2
      · cases h2; exact le_refl _
      · rw [(moveOneDown_same h2).occurrences]
        exact closeBody_timers_events _ _ _ _ _ _
    · exact closeBody_timers_events _ _ _ _ _ _

theorem runNext_occurrences (s : State) (i : Nat) :
    occurrences (runNext s) i ≤ occurrences s i := by
  unfold runNext
  split
  · exact le_refl _
  · split
    · exact le_refl _
    · rename_i task rest hp
      refine (runTask_occurrences _ task i).trans ?_
      simp only [occurrences, hp, List.countP_cons]
      omega

theorem closeAllWindow_countP (p : Event → Bool) (hp : ∀ cb e id, p (Event.onClose cb e id) = false)
    (s : State) (w : Nat) :
    (closeAllWindow s w).events.countP p = s.events.countP p := by
  unfold closeAllWindow
  split
  · split
    · simp [List.countP_append, List.countP_cons, hp]
    · rfl
  · rfl

theorem closeAll_occurrences (s : State) (i : Nat) :
    occurrences (closeAll s) i ≤ occurrences s i := by
  have h1 : (closeAll s).events.countP (Event.isShownOf i) = s.events.countP (Event.isShownOf i) :=
    foldl_preserves (fun t => t.events.countP (Event.isShownOf i)) closeAllWindow
      (closeAllWindow_countP _ (fun _ _ _ => rfl)) _ _
  have h2 : (closeAll s).events.countP (Event.isErrorOf i) = s.events.countP (Event.isErrorOf i) :=
    foldl_preserves (fun t => t.events.countP (Event.isErrorOf i)) closeAllWindow
      (closeAllWindow_countP _ (fun _ _ _ => rfl)) _ _
  have h3 : (closeAll s).timers = s.timers :=
    foldl_preserves (fun t => t.timers) closeAllWindow
      (fun t w => by rw [closeAllWindow_frame]) _ _
  have h4 : (closeAll s).notificationQueue = s.notificationQueue :=
    foldl_preserves (fun t => t.notificationQueue) closeAllWindow
      (fun t w => by rw [closeAllWindow_frame]) _ _
  have h5 : (closeAll s).animationQueue.pending = [] :=
    foldl_preserves (fun t => t.animationQueue.pending) closeAllWindow
      (fun t w => by rw [closeAllWindow_frame]) _ _
  unfold occurrences
  rw [h1, h2, h3, h4, h5]
  simp only [List.countP_nil]
  omega

theorem countP_filter_removed {α : Type} (p q : α → Bool) (l : List α) (t : α) (ht : t ∈ l)
    (hq : q t = false) :
    (l.filter q).countP p + (if p t then 1 else 0) ≤ l.countP p := by
  induction l with
  | nil => cases ht
  | cons a rest ih =>
      rcases List.mem_cons.mp ht with e | e
      · subst e
        have := (List.filter_sublist (p := q) rest).countP_le p
        simp only [List.filter_cons, hq, Bool.false_eq_true, if_false, List.countP_cons]
        omega
      · have := ih e
        simp only [List.filter_cons, List.countP_cons]
        split
        · simp only [List.countP_cons]; omega
        · omega

theorem fireTimer_occurrences (s : State) (id : Nat) (i : Nat) :
    occurrences (fireTimer s id) i ≤ occurrences s i := by
  unfold fireTimer
  split
  · exact le_refl _
  · rename_i t hfind
    have hmem : t ∈ s.timers := List.mem_of_find?_eq_some hfind
    have hid : t.id = id := by simpa using List.find?_some hfind
    have hrem := countP_filter_removed (Timer.isErrorOf i) (fun u : Timer => decide (u.id ≠ id))
      s.timers t hmem (by simp [hid])
    cases hact : t.action with
    | autoClose win notf =>
        simp only [occurrences, closeNotificationSafely, AnimationQueue.push,
          List.countP_append, List.countP_cons, List.countP_nil, Task.isShowOf,
          Bool.false_eq_true, if_false]
        omega
    | onError cb nid error =>
        have hte : Timer.isErrorOf i t = (nid == i) := by
          unfold Timer.isErrorOf; rw [hact]
        rw [hte] at hrem
        simp only [occurrences, List.countP_append, List.countP_cons, List.countP_nil,
          Event.isShownOf, Event.isErrorOf]
        simp only [Bool.false_eq_true, if_false] at hrem ⊢
        omega

theorem notify_invalid (s : State) (call : NotifyCall)
    (hq : s.notificationQueue.length < MAX_QUEUE_SIZE)
    (h : ¬ (call.argumentsLength = 1 ∧ call.isObject = true)) :
    notify s call =
      (log s "electron-notify: ERROR notify() only accepts a single object with notification parameters.",
       none) := by
  unfold notify
  rw [if_neg (by omega), if_neg h]

theorem notify_occurrences (s : State) (call : NotifyCall) (i : Nat) :
    occurrences (notify s call).1 i ≤
        occurrences s i + (if i = s.latestID then (notify s call).1.latestID - s.latestID else 0) ∧
      s.latestID ≤ (notify s call).1.latestID := by
  by_cases hq : MAX_QUEUE_SIZE ≤ s.notificationQueue.length
  · rw [notify_rejected s call hq]
    refine ⟨?_, Nat.le_succ _⟩
    cases call.notification.onErrorFunc <;>
      simp only [occurrences, List.countP_append, List.countP_cons, List.countP_nil,
        Timer.isErrorOf, List.append_nil, beq_iff_eq] <;>
      split <;> simp_all
    all_goals omega
  · by_cases hs : call.argumentsLength = 1 ∧ call.isObject = true
    · rw [notify_admitted s call hs (by omega)]
      refine ⟨?_, Nat.le_succ _⟩
      simp only [occurrences, AnimationQueue.push, List.countP_append, List.countP_cons,
        List.countP_nil, Task.isShowOf, beq_iff_eq]
      split <;> simp_all
      all_goals omega
    · rw [notify_invalid s call (by omega) hs]
      refine ⟨?_, ?_⟩
      · unfold log
        split
        · simp only [occurrences, List.countP_append, List.countP_cons, List.countP_nil,
            Event.isShownOf, Event.isErrorOf, Bool.false_eq_true, if_false]
          omega
        · exact Nat.le_add_right _ _
      · unfold log
        split <;> exact le_refl _

theorem step_occurrences (s : State) (a : Action) (i : Nat) :
    occurrences (step s a) i ≤
        occurrences s i + (if i = s.latestID then (step s a).latestID - s.latestID else 0) ∧
      s.latestID ≤ (step s a).latestID := by
  cases ha : a.isNotify with
  | true =>
      cases a with
      | notify call => exact notify_occurrences s call i
      | _ => simp [Action.isNotify] at ha
  | false =>
      have hl := step_latestID s a ha
      rw [hl]
      refine ⟨?_, le_refl _⟩
      have : occurrences (step s a) i ≤ occurrences s i := by
        cases a with
        | notify call => simp [Action.isNotify] at ha
        | runNext => exact runNext_occurrences s i
        | closeAll => exact closeAll_occurrences s i
        | fireTimer id => exact fireTimer_occurrences s id i
        | ipcClose winId n =>
            simp only [step, ipcClose]
            split
            · simp only [occurrences, closeNotificationSafely, AnimationQueue.push,
                List.countP_append, List.countP_cons, List.countP_nil, Task.isShowOf,
                Bool.false_eq_true, if_false]
              omega
            · exact le_refl _
        | ipcClick winId n =>
            simp only [step, ipcClick]
            split
            · simp only [occurrences, List.countP_append, List.countP_cons, List.countP_nil,
                Event.isShownOf, Event.isErrorOf, Bool.false_eq_true, if_false]
              omega
            · exact le_refl _
        | callClose win n tid reason =>
            simp only [step, occurrences, closeNotificationSafely, AnimationQueue.push,
              List.countP_append, List.countP_cons, List.countP_nil, Task.isShowOf,
              Bool.false_eq_true, if_false]
            omega
        | cleanUp => exact le_refl _
      omega

theorem step_idsTracked (s : State) (a : Action) (h : IdsTracked s) : IdsTracked (step s a) := by
  intro i
  obtain ⟨h1, h2⟩ := step_occurrences s a i
  obtain ⟨k1, k2⟩ := h i
  by_cases hi : i = s.latestID
  · rw [if_pos hi] at h1
    have h0 := k2 (by omega)
    have hle : (step s a).latestID ≤ s.latestID + 1 := by
      cases ha : a.isNotify with
      | false => rw [step_latestID s a ha]; omega
      | true =>
          cases a with
          | notify call =>
              simp only [step]
              by_cases hq : MAX_QUEUE_SIZE ≤ s.notificationQueue.length
              · rw [notify_rejected s call hq]
              · by_cases hs : call.argumentsLength = 1 ∧ call.isObject = true
                · rw [notify_admitted s call hs (by omega)]
                · rw [notify_invalid s call (by omega) hs]; unfold log; split <;> simp
          | _ => simp [Action.isNotify] at ha
    refine ⟨by omega, fun hge => by omega⟩
  · rw [if_neg hi] at h1
    refine ⟨by omega, fun hge => ?_⟩
    have := k2 (by omega)
    omega

theorem run_idsTracked (actions : List Action) (s : State) (h : IdsTracked s) :
    IdsTracked (run s actions) := by
  induction actions generalizing s with
  | nil => exact h
  | cons a rest ih => exact ih _ (step_idsTracked s a h)

theorem initialState_occurrences (c : Config) (d : Display) (i : Nat) :
    occurrences (initialState c d) i = 0 := rfl

theorem initialState_idsTracked (c : Config) (d : Display) : IdsTracked (initialState c d) :=
  fun i => ⟨by rw [initialState_occurrences]; omega, fun _ => initialState_occurrences c d i⟩

theorem run_occurrences_zero (actions : List Action) (s : State) (i : Nat)
    (h0 : occurrences s i = 0) (hi : i < s.latestID) :
    occurrences (run s actions) i = 0 := by
  induction actions generalizing s with
  | nil => exact h0
  | cons a rest ih =>
      obtain ⟨h1, h2⟩ := step_occurrences s a i
      rw [if_neg (by omega)] at h1
      exact ih _ (by omega) (by omega)

/-- C6, as amended: in every state reachable from the initial state by calls
of `notify`, tasks of the animation queue, timers, window messages, client
close calls, the sweep and `closeAll`, and for every request id, the number of
times the request has been displayed plus the number of `onErrorFunc` calls
scheduled or made for it is at most one: no request is displayed twice, none
has its `onErrorFunc` called twice, and none is both displayed and given
`onErrorFunc`. That one of the two happens is not guaranteed: an id that has
been assigned and occurs nowhere in the state any more (its show task was
dropped by `closeAll`) is never displayed and never given `onErrorFunc`
afterwards. -/
theorem displayed_and_onError_at_most_once (c : Config) (d : Display) (actions : List Action)
    (i : Nat) :
    (run (initialState c d) actions).events.countP (Event.isShownOf i) +
      ((run (initialState c d) actions).timers.countP (Timer.isErrorOf i) +
        (run (initialState c d) actions).events.countP (Event.isErrorOf i)) ≤ 1 ∧
    ∀ more : List Action,
      occurrences (run (initialState c d) actions) i = 0 →
      i < (run (initialState c d) actions).latestID →
        (run (run (initialState c d) actions) more).events.countP (Event.isShownOf i) = 0 ∧
        (run (run (initialState c d) actions) more).timers.countP (Timer.isErrorOf i) = 0 ∧
        (run (run (initialState c d) actions) more).events.countP (Event.isErrorOf i) = 0 := by
  constructor
  · have h := (run_idsTracked actions _ (initialState_idsTracked c d) i).1
    unfold occurrences at h
    omega
  · intro more h0 hi
    have h := run_occurrences_zero more _ i h0 hi
    unfold occurrences at h
    omega

/-- C6 as stated fails. (a) Only `notify` is called: on a display whose work
area is 50 pixels high (`maxVisibleNotifications = 0`), one call of `notify`
is admitted with id 0 and its show task puts the request in the backlog; then
nothing is pending, no timer is scheduled, and the request has neither been
displayed nor been given `onErrorFunc`. (b) After two calls of `notify` in
immediate succession (ids 0 and 1, backlog empty, nothing active) and a call
of `closeAll()`, the show task of request 1 is gone: nothing is pending, the
backlog is empty, no timer is scheduled, nothing has been displayed and no
callback called, and no later sequence of actions displays request 1 or calls
its `onErrorFunc`. -/
theorem admitted_request_never_displayed :
    (initialState defaultConfig tinyDisplay).config.maxVisibleNotifications = 0 ∧
    notifyResults (initialState defaultConfig tinyDisplay)
      [Action.notify (singleCall (exampleRequest 0)), Action.runNext] = [some 0] ∧
    (run (initialState defaultConfig tinyDisplay)
      [Action.notify (singleCall (exampleRequest 0)), Action.runNext]).notificationQueue =
      [{ id := 0, request := exampleRequest 0 }] ∧
    (run (initialState defaultConfig tinyDisplay)
      [Action.notify (singleCall (exampleRequest 0)), Action.runNext]).animationQueue.pending
      = [] ∧
    (run (initialState defaultConfig tinyDisplay)
      [Action.notify (singleCall (exampleRequest 0)), Action.runNext]).timers = [] ∧
    (run (initialState defaultConfig tinyDisplay)
      [Action.notify (singleCall (exampleRequest 0)), Action.runNext]).events = [] ∧
    notifyResults (initialState defaultConfig exampleDisplay) notifyTwiceThenCloseAll =
      [some 0, some 1] ∧
    (run (initialState defaultConfig exampleDisplay) notifyTwiceThenCloseAll).animationQueue.pending
      = [] ∧
    (run (initialState defaultConfig exampleDisplay) notifyTwiceThenCloseAll).notificationQueue
      = [] ∧
    (run (initialState defaultConfig exampleDisplay) notifyTwiceThenCloseAll).activeNotifications
      = [] ∧
    (run (initialState defaultConfig exampleDisplay) notifyTwiceThenCloseAll).timers = [] ∧
    (run (initialState defaultConfig exampleDisplay) notifyTwiceThenCloseAll).events = [] ∧
    ¬ ∃ more : List Action,
      0 < (run (run (initialState defaultConfig exampleDisplay) notifyTwiceThenCloseAll)
            more).events.countP (Event.isShownOf 1) +
          (run (run (initialState defaultConfig exampleDisplay) notifyTwiceThenCloseAll)
            more).events.countP (Event.isErrorOf 1) := by
  refine ⟨by decide, by decide, by decide, by decide, by decide, by decide, by decide, by decide,
    by decide, by decide, by decide, by decide, ?_⟩
  rintro ⟨more, hmore⟩
  have h := run_occurrences_zero more
    (run (initialState defaultConfig exampleDisplay) notifyTwiceThenCloseAll) 1
    (by decide) (by decide)
  unfold occurrences at h
  omega

theorem runNext_show (s : State) (n : NotificationObj) (rest : List Task)
    (hst : s.animationQueue.stalled = false)
    (hp : s.animationQueue.pending = Task.show n :: rest) :
    runNext s =
      showNotification { s with animationQueue := { pending := rest, stalled := false } } n := by
  unfold runNext
  rw [hp]
  simp [runTask, hst]

theorem showNotification_animationQueue (s : State) (n : NotificationObj) :
    (showNotification s n).animationQueue = s.animationQueue := by
  by_cases h : (s.activeNotifications.length : Int) < s.config.maxVisibleNotifications
  · rw [showNotification_free s n h]
  · rw [showNotification_full s n h]

theorem showNotification_lengths (s : State) (n : NotificationObj)
    (hcap : (s.activeNotifications.length : Int) ≤ s.config.maxVisibleNotifications) :
    (showNotification s n).activeNotifications.length +
        (showNotification s n).notificationQueue.length =
      s.activeNotifications.length + s.notificationQueue.length + 1 ∧
    s.notificationQueue.length ≤ (showNotification s n).notificationQueue.length ∧
    ((showNotification s n).notificationQueue.length = s.notificationQueue.length ∨
      ((showNotification s n).activeNotifications.length : Int) =
        s.config.maxVisibleNotifications) := by
  by_cases h : (s.activeNotifications.length : Int) < s.config.maxVisibleNotifications
  · rw [showNotification_free s n h]
    refine ⟨?_, le_refl _, Or.inl rfl⟩
    simp only [List.length_append, List.length_singleton]
    omega
  · rw [showNotification_full s n h]
    refine ⟨?_, ?_, Or.inr (by
      show (s.activeNotifications.length : Int) = s.config.maxVisibleNotifications
      omega)⟩
    · simp only [List.length_append, List.length_singleton]
      omega
    · simp only [List.length_append, List.length_singleton]
      omega

theorem run_show_tasks (tasks : List NotificationObj) (s : State)
    (hst : s.animationQueue.stalled = false)
    (hp : s.animationQueue.pending = tasks.map Task.show)
    (hcap : (s.activeNotifications.length : Int) ≤ s.config.maxVisibleNotifications) :
    (run s (List.replicate tasks.length Action.runNext)).animationQueue.pending = [] ∧
    (run s (List.replicate tasks.length Action.runNext)).config = s.config ∧
    ((run s (List.replicate tasks.length Action.runNext)).activeNotifications.length : Int) ≤
      s.config.maxVisibleNotifications ∧
    (run s (List.replicate tasks.length Action.runNext)).activeNotifications.length +
        (run s (List.replicate tasks.length Action.runNext)).notificationQueue.length =
      s.activeNotifications.length + s.notificationQueue.length + tasks.length ∧
    s.notificationQueue.length ≤
      (run s (List.replicate tasks.length Action.runNext)).notificationQueue.length ∧
    ((run s (List.replicate tasks.length Action.runNext)).notificationQueue.length =
        s.notificationQueue.length ∨
      ((run s (List.replicate tasks.length Action.runNext)).activeNotifications.length : Int) =
        s.config.maxVisibleNotifications) := by
  induction tasks generalizing s with
  | nil => exact ⟨hp, rfl, hcap, rfl, le_refl _, Or.inl rfl⟩
  | cons n rest ih =>
      have hrun := runNext_show s n (rest.map Task.show) hst hp
      have hq := showNotification_animationQueue
        { s with animationQueue := { pending := rest.map Task.show, stalled := false } } n
      have hl := showNotification_lengths
        { s with animationQueue := { pending := rest.map Task.show, stalled := false } } n hcap
      have hc := showNotification_config
        { s with animationQueue := { pending := rest.map Task.show, stalled := false } } n
      have hcap' := showNotification_capacity
        { s with animationQueue := { pending := rest.map Task.show, stalled := false } } n hcap
      rw [← hrun] at hq hl hc hcap'
      obtain ⟨h1, h2, h3, h4, h5, h6⟩ := ih (runNext s) (by rw [hq]) (by rw [hq]) hcap'
      simp only [List.length_cons, List.replicate_succ, run, List.foldl_cons, step]
      unfold run at h1 h2 h3 h4 h5 h6
      rw [hc] at h3 h6
      dsimp only at hl hc h3 h6 hcap'
      refine ⟨h1, h2.trans hc, h3, by omega, by omega, ?_⟩
      rcases h6 with h6 | h6
      · rcases hl.2.2 with h7 | h7
        · exact Or.inl (by omega)
        · exact Or.inr (by omega)
      · exact Or.inr h6

/-- C4, as amended: starting from a state with an empty backlog, no active
notification, an idle animation queue and room for at least one notification,
31 consecutive calls of `notify`, each with a single request object, are all
admitted, the 31st like the first 30: call `k` returns the id counter plus
`k` and pushes one show task carrying that id, no timer is scheduled and no
callback is called (so no `onErrorFunc`). When the animation queue has then
run the 31 show tasks, every request is displayed or in the backlog, and the
backlog holds at most 30. -/
theorem thirty_one_calls_all_admitted (s : State) (rs : List Request)
    (hlen : rs.length = 31)
    (hq : s.notificationQueue = [])
    (hact : s.activeNotifications = [])
    (hpend : s.animationQueue.pending = [])
    (hst : s.animationQueue.stalled = false)
    (hmax : 1 ≤ s.config.maxVisibleNotifications) :
    notifyResults s (notifyAll rs) = (List.range' s.latestID 31).map some ∧
    (run s (notifyAll rs)).animationQueue.pending =
      (List.enumFrom s.latestID rs).map (fun p => Task.show { id := p.1, request := p.2 }) ∧
    (run s (notifyAll rs)).timers = s.timers ∧
    (run s (notifyAll rs)).events = s.events ∧
    (run s (notifyAll rs)).notificationQueue = [] ∧
    (run s (notifyAll rs ++ List.replicate 31 Action.runNext)).animationQueue.pending = [] ∧
    (run s (notifyAll rs ++ List.replicate 31 Action.runNext)).activeNotifications.length +
      (run s (notifyAll rs ++ List.replicate 31 Action.runNext)).notificationQueue.length = 31 ∧
    (run s (notifyAll rs ++ List.replicate 31 Action.runNext)).notificationQueue.length ≤ 30 := by
  have hlt : s.notificationQueue.length < MAX_QUEUE_SIZE := by
    rw [hq]; decide
  obtain ⟨h1, h2⟩ := notifyAll_admitted rs s hlt
  have hsplit : run s (notifyAll rs ++ List.replicate 31 Action.runNext) =
      run (run s (notifyAll rs)) (List.replicate 31 Action.runNext) := by
    unfold run; rw [List.foldl_append]
  have htasks := run_show_tasks
    ((List.enumFrom s.latestID rs).map
      (fun p => ({ id := p.1, request := p.2 } : NotificationObj)))
    (run s (notifyAll rs))
    (by rw [h2]; exact hst)
    (by rw [h2]; simp [hpend, Function.comp])
    (by rw [h2]; show (s.activeNotifications.length : Int) ≤ s.config.maxVisibleNotifications
        rw [hact]; simp only [List.length_nil, Nat.cast_zero]; omega)
  simp only [List.length_map, List.enumFrom_length, hlen] at htasks
  rw [← hsplit] at htasks
  obtain ⟨k1, _, _, k4, _, k6⟩ := htasks
  rw [h2] at k4 k6
  simp only [hact, hq, List.length_nil, Nat.zero_add] at k4 k6
  rw [hlen] at h1
  refine ⟨h1, ?_, ?_, ?_, ?_, k1, k4, ?_⟩
  · rw [h2]; simp [hpend]
  · rw [h2]
  · rw [h2]
  · rw [h2]; exact hq
  · rcases k6 with k6 | k6
    · omega
    · omega

/-- Witness of C4: 31 requests from the initial state of the 1920 by 1080
display. -/
theorem thirty_one_calls_all_admitted_witness :
    (initialState defaultConfig exampleDisplay).notificationQueue = [] ∧
    (initialState defaultConfig exampleDisplay).activeNotifications = [] ∧
    1 ≤ (initialState defaultConfig exampleDisplay).config.maxVisibleNotifications ∧
    (run (initialState defaultConfig exampleDisplay)
      (notifyAll ((List.range 31).map exampleRequest))).timers = [] ∧
    (run (initialState defaultConfig exampleDisplay)
      (notifyAll ((List.range 31).map exampleRequest) ++
        List.replicate 31 Action.runNext)).notificationQueue.length ≤ 30 :=
  ⟨by decide, by decide, by decide,
   (thirty_one_calls_all_admitted (initialState defaultConfig exampleDisplay)
      ((List.range 31).map exampleRequest) (by decide) (by decide) (by decide) (by decide)
      (by decide) (by decide)).2.2.1,
   (thirty_one_calls_all_admitted (initialState defaultConfig exampleDisplay)
      ((List.range 31).map exampleRequest) (by decide) (by decide) (by decide) (by decide)
      (by decide) (by decide)).2.2.2.2.2.2.2⟩

theorem setupConfig_config (d : Display) (s : State) :
    (setupConfig d s).config.startCorner = s.config.startCorner ∧
    (setupConfig d s).config.corner = cornerOf s.config.startCorner d ∧
    (setupConfig d s).config.totalHeight = ((s.config.height + s.config.padding : Nat) : Int) ∧
    (setupConfig d s).config.totalWidth = ((s.config.width + s.config.padding : Nat) : Int) ∧
    (setupConfig d s).config.maxVisibleNotifications =
      (if 5 < mathFloorDiv d.workAreaHeight ((s.config.height + s.config.padding : Nat) : Int)
        then 5
        else mathFloorDiv d.workAreaHeight ((s.config.height + s.config.padding : Nat) : Int)) := by
  simp only [setupConfig, calcDimensions, closeAll_config, cornerOf, Nat.cast_add]
  cases s.config.startCorner <;> simp

/-- C12: for every work-area height and every configured height and padding
with `height + padding > 0`, `setupConfig` sets `totalHeight = height +
padding` and `maxVisibleNotifications` to the smaller of 5 and the floor of
the quotient of the work-area height by `totalHeight`; so it never exceeds
5. -/
theorem setupConfig_maxVisibleNotifications (s : State) (d : Display)
    (h : 0 < s.config.height + s.config.padding) :
    (setupConfig d s).config.totalHeight = (s.config.height : Int) + s.config.padding ∧
    (setupConfig d s).config.maxVisibleNotifications =
      min 5 ⌊(d.workAreaHeight : ℚ) / ((s.config.height : ℚ) + s.config.padding)⌋ ∧
    (setupConfig d s).config.maxVisibleNotifications ≤ 5 := by
  obtain ⟨_, _, h3, _, h5⟩ := setupConfig_config d s
  have hne : ((s.config.height + s.config.padding : Nat) : Int) ≠ 0 := by
    exact_mod_cast (Nat.pos_iff_ne_zero.mp h)
  have hfloor : mathFloorDiv d.workAreaHeight ((s.config.height + s.config.padding : Nat) : Int) =
      ⌊(d.workAreaHeight : ℚ) / ((s.config.height : ℚ) + s.config.padding)⌋ := by
    unfold mathFloorDiv
    rw [if_neg hne, Int.fdiv_eq_ediv _ (Int.natCast_nonneg _)]
    have := Rat.floor_intCast_div_natCast (d.workAreaHeight : Int)
      (s.config.height + s.config.padding)
    push_cast at this ⊢
    rw [this]
  rw [h5, hfloor]
  refine ⟨by rw [h3]; push_cast; rfl, ?_, ?_⟩
  · rw [min_def]
    split <;> split <;> omega
  · split <;> omega

/-- Witness of C12: the default sizes on the 1920 by 1080 display. -/
theorem setupConfig_maxVisibleNotifications_witness :
    0 < (moduleState defaultConfig).config.height + (moduleState defaultConfig).config.padding ∧
    (setupConfig exampleDisplay (moduleState defaultConfig)).config.maxVisibleNotifications ≤ 5 :=
  ⟨by decide,
   (setupConfig_maxVisibleNotifications (moduleState defaultConfig) exampleDisplay
      (by decide)).2.2⟩

theorem mathFloorDiv_natCast (a b : Nat) (hb : 0 < b) :
    mathFloorDiv (a : Int) (b : Int) = ((a / b : Nat) : Int) := by
  unfold mathFloorDiv
  rw [if_neg (by omega), Int.fdiv_eq_ediv _ (Int.natCast_nonneg _)]
  norm_cast

/-- C18: after `setupConfig` with `totalHeight > 0` and one of the four named
corners, every slot index `i` below `maxVisibleNotifications` has its vertical
span `[y_i, y_i + totalHeight]` inside the work area `[T, T + H]`, where `T`
is the top `bounds.y + workArea.y` that `setupConfig` uses, `H` the work-area
height, and `y_i` is `T + totalHeight * i` for the upper corners and
`(T + H) - totalHeight * (i + 1)` for the lower corners. -/
theorem slots_fit_work_area (s : State) (d : Display) (i : Nat)
    (ht : 0 < s.config.height + s.config.padding)
    (hc : s.config.startCorner ≠ Corner.other)
    (hi : (i : Int) < (setupConfig d s).config.maxVisibleNotifications) :
    slotY (setupConfig d s).config i =
      (if s.config.startCorner = Corner.upperRight ∨ s.config.startCorner = Corner.upperLeft then
        d.boundsY + d.workAreaY + (setupConfig d s).config.totalHeight * i
      else
        d.boundsY + d.workAreaY + d.workAreaHeight -
          (setupConfig d s).config.totalHeight * (i + 1)) ∧
    d.boundsY + d.workAreaY ≤ slotY (setupConfig d s).config i ∧
    slotY (setupConfig d s).config i + (setupConfig d s).config.totalHeight ≤
      d.boundsY + d.workAreaY + d.workAreaHeight := by
  obtain ⟨h1, h2, h3, _, h5⟩ := setupConfig_config d s
  rw [h5, mathFloorDiv_natCast _ _ ht] at hi
  have hdiv : i + 1 ≤ d.workAreaHeight / (s.config.height + s.config.padding) := by
    split at hi <;> omega
  have hmul : (i + 1) * (s.config.height + s.config.padding) ≤ d.workAreaHeight :=
    (Nat.le_div_iff_mul_le ht).mp hdiv
  have hmulZ : ((s.config.height + s.config.padding : Nat) : Int) * ((i : Int) + 1) ≤
      (d.workAreaHeight : Int) := by
    have : (((i + 1) * (s.config.height + s.config.padding) : Nat) : Int) ≤
        (d.workAreaHeight : Int) := by exact_mod_cast hmul
    push_cast at this ⊢
    linarith
  have hnn : (0 : Int) ≤ ((s.config.height + s.config.padding : Nat) : Int) * (i : Int) :=
    mul_nonneg (Int.natCast_nonneg _) (Int.natCast_nonneg _)
  have hpos : (0 : Int) ≤ ((s.config.height + s.config.padding : Nat) : Int) :=
    Int.natCast_nonneg _
  unfold slotY
  rw [h1, h2, h3]
  cases hcorner : s.config.startCorner
  · simp only [cornerOf, reduceCtorEq, or_false, or_true, if_true, true_or]
    refine ⟨trivial, ?_, ?_⟩ <;> nlinarith
  · simp only [cornerOf, reduceCtorEq, or_self, if_false]
    refine ⟨trivial, ?_, ?_⟩ <;> nlinarith
  · simp only [cornerOf, reduceCtorEq, or_self, if_false]
    refine ⟨trivial, ?_, ?_⟩ <;> nlinarith
  · simp only [cornerOf, reduceCtorEq, or_false, or_true, if_true, true_or]
    refine ⟨trivial, ?_, ?_⟩ <;> nlinarith
  · exact absurd hcorner hc

/-- Witness of C18: the fifth slot of the default configuration on the 1920 by
1080 display. -/
theorem slots_fit_work_area_witness :
    (4 : Int) < (setupConfig exampleDisplay (moduleState defaultConfig)).config.maxVisibleNotifications ∧
    slotY (setupConfig exampleDisplay (moduleState defaultConfig)).config 4 +
        (setupConfig exampleDisplay (moduleState defaultConfig)).config.totalHeight ≤
      exampleDisplay.boundsY + exampleDisplay.workAreaY + exampleDisplay.workAreaHeight :=
  ⟨by decide,
   (slots_fit_work_area (moduleState defaultConfig) exampleDisplay 4 (by decide) (by decide)
      (by decide)).2.2⟩

/-- C14, as amended: when `showNotification` displays a request it schedules
exactly one timer, the auto-dismiss of that window and request, and its delay
is `request.displayTime` when the request supplies a non-zero one, and
`config.displayTime` when the request supplies none or supplies 0. -/
theorem autoDismiss_delay (s : State) (n : NotificationObj)
    (h : (s.activeNotifications.length : Int) < s.config.maxVisibleNotifications) :
    ∃ timer, (showNotification s n).timers = s.timers ++ [timer] ∧
      timer.action = TimerAction.autoClose (getWindow s).2 n ∧
      (∀ t, n.request.displayTime = some t → t ≠ 0 → timer.delay = t) ∧
      (n.request.displayTime = some 0 → timer.delay = s.config.displayTime) ∧
      (n.request.displayTime = none → timer.delay = s.config.displayTime) := by
  rw [showNotification_free s n h]
  refine ⟨_, rfl, rfl, ?_, ?_, ?_⟩
  · intro t ht hne
    simp only [displayTimeOf, ht, if_pos hne]
  · intro ht
    simp [displayTimeOf, ht]
  · intro ht
    simp only [displayTimeOf, ht]

/-- Witness of C14: a request with a display time of 1500 on the initial
state. -/
theorem autoDismiss_delay_witness :
    ((initialState defaultConfig exampleDisplay).activeNotifications.length : Int) <
      (initialState defaultConfig exampleDisplay).config.maxVisibleNotifications ∧
    ∃ timer,
      (showNotification (initialState defaultConfig exampleDisplay)
        { id := 0, request := { zeroDisplayTimeRequest with displayTime := some 1500 } }).timers =
        (initialState defaultConfig exampleDisplay).timers ++ [timer] ∧
      timer.delay = 1500 := by
  obtain ⟨timer, h1, _, h3, _⟩ :=
    autoDismiss_delay (initialState defaultConfig exampleDisplay)
      { id := 0, request := { zeroDisplayTimeRequest with displayTime := some 1500 } }
      (by decide)
  exact ⟨by decide, timer, h1, h3 1500 rfl (by decide)⟩

/-- C14 as stated fails: a request that supplies `displayTime` 0 is displayed
with an auto-dismiss delay of `config.displayTime` (5000), not 0. -/
theorem zero_displayTime_uses_default :
    zeroDisplayTimeRequest.displayTime = some 0 ∧
    (showNotification (initialState defaultConfig exampleDisplay)
      { id := 0, request := zeroDisplayTimeRequest }).timers.map (fun t => t.delay) = [5000] ∧
    (showNotification (initialState defaultConfig exampleDisplay)
      { id := 0, request := zeroDisplayTimeRequest }).activeNotifications = [0] := by
  decide

/-- C16: the dialog of `showLoadFailure` has the buttons Reload (index 0) and
Ignore (index 1); with a function `retryCallback`, the answer 0 calls it
exactly once, the answer 1 calls nothing, and for every answer that names one
of the two buttons the callback is called (once) if and only if the answer is
Reload. -/
theorem retryCallback_iff_reload (url errorDesc : String) (errorCode : Int) (cb : Callback)
    (buttonId : Nat) :
    (showLoadFailure url errorDesc errorCode (some cb)).1.buttons = ["Reload", "Ignore"] ∧
    (showLoadFailure url errorDesc errorCode (some cb)).2 0 = [cb] ∧
    (showLoadFailure url errorDesc errorCode (some cb)).2 1 = [] ∧
    (buttonId < 2 →
      ((showLoadFailure url errorDesc errorCode (some cb)).2 buttonId = [cb] ↔ buttonId = 0)) := by
  refine ⟨rfl, rfl, rfl, ?_⟩
  intro h
  have : buttonId = 0 ∨ buttonId = 1 := by omega
  rcases this with e | e <;> subst e <;> simp [showLoadFailure, response]

theorem modifyWindow_map {β : Type} (g : NotificationWindow → β)
    (ws : List NotificationWindow) (w v : Nat) (f : NotificationWindow → NotificationWindow)
    (hf : ∀ win, g (f win) = g win) :
    (modifyWindow ws w f)[v]?.map g = ws[v]?.map g := by
  rw [modifyWindow_get?]
  split
  · cases ws[v]? with
    | none => rfl
    | some win => simp [hf win]
  · rfl

theorem foldl_setWindowPosition_attrs (frames : List (Option Int)) (w : Nat) (x : Option Int)
    (s : State) (v : Nat) :
    (frames.foldl (fun t y => setWindowPosition t w x y) s).windows[v]?.map windowAttrs =
      s.windows[v]?.map windowAttrs := by
  induction frames generalizing s with
  | nil => rfl
  | cons a rest ih =>
      simp only [List.foldl_cons]
      rw [ih]
      exact modifyWindow_map windowAttrs _ _ _ _ (by intro _; rfl)

theorem moveNotificationAnimation_attrs {s t : State} {i : Nat}
    (h : moveNotificationAnimation s i = some t) (v : Nat) :
    t.windows[v]?.map windowAttrs = s.windows[v]?.map windowAttrs := by
  unfold moveNotificationAnimation at h
  split at h
  · cases h; rfl
  · simp only at h
    split at h
    · cases h
    · cases h
      exact foldl_setWindowPosition_attrs _ _ _ _ _

theorem animateAll_attrs {l : List Nat} {s t : State} (h : animateAll s l = some t) (v : Nat) :
    t.windows[v]?.map windowAttrs = s.windows[v]?.map windowAttrs := by
  induction l generalizing s with
  | nil => simp [animateAll] at h; subst h; rfl
  | cons i rest ih =>
      unfold animateAll at h
      split at h
      · cases h
      · rename_i u hu
        rw [ih h, moveNotificationAnimation_attrs hu]

theorem moveOneDown_attrs {s t : State} {pos : Int} (h : moveOneDown s pos = some t) (v : Nat) :
    t.windows[v]?.map windowAttrs = s.windows[v]?.map windowAttrs := by
  unfold moveOneDown at h
  split at h
  · cases h; rfl
  · exact animateAll_attrs h v

theorem closeBody_inactiveWindows (s : State) (w : Nat) (n : NotificationObj)
    (tid : Option Nat) (ev : String) :
    (closeBody s w n tid ev).1.inactiveWindows = s.inactiveWindows ++ [w] := by
  rw [closeBody_eq]
  unfold checkForQueuedNotifications
  split
  · rfl
  · split <;> rfl

theorem closeBody_window_self (s : State) (w : Nat) (n : NotificationObj) (tid : Option Nat)
    (ev : String) :
    (closeBody s w n tid ev).1.windows[w]? =
      s.windows[w]?.map (fun win =>
        { win with electronNotifyOnCloseFunc := none, contents := none, visible := false }) := by
  rw [closeBody_windows]
  cases hw : s.windows[w]? with
  | none =>
      have hb : s.windows[w]?.bind (fun win => win.electronNotifyOnCloseFunc) = none := by
        rw [hw]; rfl
      rw [hw] at hb
      rw [hb]
      simp only [modifyWindow_get?, if_true, hw, Option.map_none']
  | some win =>
      cases hcb : win.electronNotifyOnCloseFunc with
      | none =>
          have hb : s.windows[w]?.bind (fun win => win.electronNotifyOnCloseFunc) = none := by
            rw [hw]; exact hcb
          rw [hw] at hb
          rw [hb]
          simp only [modifyWindow_get?, if_true, hw, Option.map_some', hcb]
      | some cb =>
          have hb : s.windows[w]?.bind (fun win => win.electronNotifyOnCloseFunc) = some cb := by
            rw [hw]; exact hcb
          rw [hw] at hb
          rw [hb]
          simp only [modifyWindow_get?, if_true, hw, Option.map_some']

theorem closeBody_window_other (s : State) (w v : Nat) (n : NotificationObj)
    (tid : Option Nat) (ev : String) (hv : v ≠ w) :
    (closeBody s w n tid ev).1.windows[v]? = s.windows[v]? := by
  rw [closeBody_windows]
  simp only [modifyWindow_get?, if_neg hv]
  cases s.windows[w]?.bind (fun win => win.electronNotifyOnCloseFunc) with
  | none => rfl
  | some cb => simp only [modifyWindow_get?, if_neg hv]

theorem splice1_neg_one (l : List Nat) : splice1 l (-1) = l.dropLast := by
  unfold splice1
  rw [if_neg (by omega)]
  cases l with
  | nil => rfl
  | cons a rest =>
      have h : (((a :: rest).length : Int) + -1).toNat + 1 = (a :: rest).length := by
        simp only [List.length_cons]
        omega
      exact (List.dropLast_eq_eraseIdx h).symm

/-- C20: in a state with a non-empty active list, when the close function
runs for a window `w` that is not in the active list (closed flag of the
request id not set), it returns; the last element of the active list is
removed from it, every window other than `w` is left as it was (so the
removed one is not hidden and keeps its callbacks), the only callback called
is the `onCloseFunc` attached to `w` itself, if any, and `w` is appended to
the inactive pool. The active list has changed. -/
theorem close_of_absent_window_drops_last (s : State) (w : Nat) (n : NotificationObj)
    (tid : Option Nat) (ev : String)
    (hne : s.activeNotifications ≠ [])
    (hw : w ∉ s.activeNotifications)
    (hflag : n.id ∉ s.closedNotifications) :
    ∃ t, closeNotification s w n tid ev = some t ∧
      t.activeNotifications = s.activeNotifications.dropLast ∧
      t.activeNotifications ≠ s.activeNotifications ∧
      t.inactiveWindows = s.inactiveWindows ++ [w] ∧
      (∀ v, v ≠ w → t.windows[v]? = s.windows[v]?) ∧
      (∀ v, s.activeNotifications.getLast? = some v → t.windows[v]? = s.windows[v]?) ∧
      t.events =
        s.events ++
          (match s.windows[w]?.bind (fun win => win.electronNotifyOnCloseFunc) with
            | some cb => [Event.onClose cb ev (some n.id)]
            | none => []) := by
  have hpos : (closeBody s w n tid ev).2 = -1 := by
    rw [closeBody_pos, indexOf_of_not_mem _ _ hw]
  have hrun : closeNotification s w n tid ev = some (closeBody s w n tid ev).1 := by
    rw [closeNotification_flag_unset s w n tid ev hflag, hpos]
    unfold moveOneDown
    rw [if_pos (Or.inr rfl)]
  have hact : (closeBody s w n tid ev).1.activeNotifications = s.activeNotifications.dropLast := by
    rw [closeBody_activeNotifications, indexOf_of_not_mem _ _ hw, splice1_neg_one]
  refine ⟨_, hrun, hact, ?_, closeBody_inactiveWindows s w n tid ev,
    fun v hv => closeBody_window_other s w v n tid ev hv, ?_, ?_⟩
  · rw [hact]
    intro heq
    have hlen := congrArg List.length heq
    rw [List.length_dropLast] at hlen
    have : 0 < s.activeNotifications.length := List.length_pos.mpr hne
    omega
  · intro v hv
    have hmem : v ∈ s.activeNotifications := List.mem_of_mem_getLast? hv
    have hvw : v ≠ w := fun e => hw (e ▸ hmem)
    exact closeBody_window_other s w v n tid ev hvw
  · rw [closeBody_events]
    cases s.windows[w]?.bind (fun win => win.electronNotifyOnCloseFunc) <;> simp

/-- Witness of C20: a second close message names window 0 after it was
recycled; window 2, the last active one, leaves the active list and stays as
it was. -/
theorem close_of_absent_window_drops_last_witness :
    lateCloseState.activeNotifications = [1, 2] ∧
    0 ∉ lateCloseState.activeNotifications ∧
    0 ∉ lateCloseState.closedNotifications ∧
    ∃ t, closeNotification lateCloseState 0 { id := 0, request := exampleRequest 0 } none
        "close" = some t ∧
      t.activeNotifications = [1] ∧
      t.inactiveWindows = [0, 0] ∧
      t.windows[2]? = lateCloseState.windows[2]? ∧
      t.events = lateCloseState.events := by
  obtain ⟨t, h1, h2, _, h4, h5, _, h7⟩ :=
    close_of_absent_window_drops_last lateCloseState 0 { id := 0, request := exampleRequest 0 }
      none "close" (by decide) (by decide) (by decide)
  refine ⟨by decide, by decide, by decide, t, h1, ?_, ?_, h5 2 (by decide), ?_⟩
  · rw [h2]; decide
  · rw [h4]; decide
  · rw [h7]
    have : lateCloseState.windows[0]?.bind (fun win => win.electronNotifyOnCloseFunc) = none := by
      decide
    rw [this]
    simp

/-- C15 (as the code has it): when the close function runs its body for a
registered window `w` (closed flag of the request id not set, animation with
at least one step), it returns, `w` is the last element of the inactive pool,
hidden, with no `onClose` callback attached; the `onClick` callback that was
attached before the close is still attached. It is replaced, together with
the `onClose` callback, by those of the next request that `showNotification`
displays, which takes `w` from the pool. -/
theorem close_detaches_onClose_only (s : State) (w : Nat) (win : NotificationWindow)
    (n : NotificationObj) (tid : Option Nat) (ev : String)
    (hsteps : 0 < s.config.animationSteps)
    (hflag : n.id ∉ s.closedNotifications)
    (hwin : s.windows[w]? = some win) :
    ∃ t win1, closeNotification s w n tid ev = some t ∧
      t.inactiveWindows = s.inactiveWindows ++ [w] ∧
      t.windows[w]? = some win1 ∧
      win1.electronNotifyOnCloseFunc = none ∧
      win1.electronNotifyOnClickFunc = win.electronNotifyOnClickFunc ∧
      win1.visible = false ∧
      ∀ r : NotificationObj,
        (t.activeNotifications.length : Int) < t.config.maxVisibleNotifications →
        ∃ win2, (showNotification t r).windows[w]? = some win2 ∧
          win2.electronNotifyOnClickFunc = r.request.onClickFunc ∧
          win2.electronNotifyOnCloseFunc = r.request.onCloseFunc ∧
          (showNotification t r).activeNotifications = t.activeNotifications ++ [w] := by
  obtain ⟨t, ht, hsame⟩ := closeNotification_total s w n tid ev hsteps hflag
  have hmove : moveOneDown (closeBody s w n tid ev).1 (closeBody s w n tid ev).2 = some t := by
    rw [← closeNotification_flag_unset s w n tid ev hflag]; exact ht
  have hattrs := moveOneDown_attrs hmove w
  rw [closeBody_window_self, hwin] at hattrs
  have hinact : t.inactiveWindows = s.inactiveWindows ++ [w] := by
    have h1 : t.inactiveWindows = (closeBody s w n tid ev).1.inactiveWindows := by
      unfold SameButWindows at hsame
      rw [hsame]
    rw [h1, closeBody_inactiveWindows]
  cases hw1 : t.windows[w]? with
  | none => rw [hw1] at hattrs; simp at hattrs
  | some win1 =>
      rw [hw1] at hattrs
      simp only [Option.map_some', Option.some.injEq, windowAttrs, Prod.mk.injEq] at hattrs
      obtain ⟨hvis, _, hclick, hclose, _⟩ := hattrs
      refine ⟨t, win1, ht, hinact, hw1, hclose, hclick, hvis, ?_⟩
      intro r hfree
      have hg := getWindow_recycle t w s.inactiveWindows hinact
      rw [showNotification_free t r hfree, hg]
      simp [modifyWindow_get?, hw1]

/-- Witness of C15 (as the code has it): the first of three displayed
notifications is closed by its timer. -/
theorem close_detaches_onClose_only_witness :
    0 < threeShownState.config.animationSteps ∧
    0 ∉ threeShownState.closedNotifications ∧
    ∃ t win1,
      closeNotification threeShownState 0 { id := 0, request := exampleRequest 0 } (some 0)
        "timeout" = some t ∧
      t.inactiveWindows = [0] ∧
      t.windows[0]? = some win1 ∧
      win1.electronNotifyOnCloseFunc = none ∧
      win1.electronNotifyOnClickFunc = some 1 := by
  obtain ⟨t, win1, h1, h2, h3, h4, h5, _⟩ :=
    close_detaches_onClose_only threeShownState 0
      { x := some 1616, y := some 0, visible := true, destroyed := false,
        electronNotifyOnClickFunc := some 1, electronNotifyOnCloseFunc := some 2,
        contents := some { id := 0, request := exampleRequest 0 } }
      { id := 0, request := exampleRequest 0 } (some 0) "timeout"
      (by decide) (by decide) (by decide)
  exact ⟨by decide, by decide, t, win1, h1, h2, h3, h4, h5⟩

/-- Counterexample to C15: the first of three displayed notifications
(request 0, `onClickFunc` 1, `onCloseFunc` 2) is closed by its timer. Its
window is the last element of the inactive pool and has no `onClose`
callback, but the `onClick` callback of the closed request is still attached
to it. -/
theorem released_window_keeps_onClick :
    threeShownState.activeNotifications = [0, 1, 2] ∧
    (threeShownState.windows[0]?.map (fun win => win.contents)) =
      some (some { id := 0, request := exampleRequest 0 }) ∧
    ((closeNotification threeShownState 0 { id := 0, request := exampleRequest 0 } (some 0)
        "timeout").map (fun t => t.inactiveWindows.getLast?)) = some (some 0) ∧
    ((closeNotification threeShownState 0 { id := 0, request := exampleRequest 0 } (some 0)
        "timeout").map
      (fun t => t.windows[0]?.map
        (fun win => (win.electronNotifyOnClickFunc, win.electronNotifyOnCloseFunc, win.visible)))) =
      some (some (some 1, none, false)) ∧
    (exampleRequest 0).onClickFunc = some 1 := by
  decide

theorem closeRuns_toggle (n : NotificationObj) (c : List Nat) (hc : n.id ∉ c)
    (rs : List (Nat × Option Nat × String)) :
    ∀ s : State, 0 < s.config.animationSteps →
      (s.closedNotifications = c →
        ∃ t, closeRuns n rs s = some t ∧
          t.closedNotifications = (if rs.length % 2 = 1 then n.id :: c else c) ∧
          t.inactiveWindows.length = s.inactiveWindows.length + (rs.length + 1) / 2) ∧
      (s.closedNotifications = n.id :: c →
        ∃ t, closeRuns n rs s = some t ∧
          t.closedNotifications = (if rs.length % 2 = 1 then c else n.id :: c) ∧
          t.inactiveWindows.length = s.inactiveWindows.length + rs.length / 2) := by
  induction rs with
  | nil =>
      intro s _
      exact ⟨fun h => ⟨s, rfl, by simpa using h, by simp⟩, fun h => ⟨s, rfl, by simpa using h, by simp⟩⟩
  | cons r rest ih =>
      obtain ⟨w, tid, ev⟩ := r
      intro s hsteps
      constructor
      · intro h
        have hflag : n.id ∉ s.closedNotifications := by rw [h]; exact hc
        obtain ⟨s1, hs1, hsame⟩ := closeNotification_total s w n tid ev hsteps hflag
        have hcfg : s1.config = s.config := by rw [hsame.config, closeBody_config]
        have hcl : s1.closedNotifications = n.id :: c := by
          rw [hsame.closedNotifications, closeBody_closedNotifications, h]
        have hin : s1.inactiveWindows = s.inactiveWindows ++ [w] := by
          have h1 : s1.inactiveWindows = (closeBody s w n tid ev).1.inactiveWindows := by
            have := hsame
            unfold SameButWindows at this
            rw [this]
          rw [h1, closeBody_inactiveWindows]
        obtain ⟨t, ht, htc, hti⟩ := (ih s1 (by rw [hcfg]; exact hsteps)).2 hcl
        refine ⟨t, ?_, ?_, ?_⟩
        · simp only [closeRuns, hs1, Option.some_bind]; exact ht
        · rw [htc]
          simp only [List.length_cons]
          split <;> split <;> first | rfl | omega
        · rw [hti, hin]
          simp only [List.length_cons, List.length_append, List.length_nil]
          omega
      · intro h
        have hflag : n.id ∈ s.closedNotifications := by rw [h]; exact List.mem_cons_self _ _
        have hs1 := closeNotification_flag_set s w n tid ev hflag
        have hfil : s.closedNotifications.filter (fun i => i ≠ n.id) = c := by
          rw [h, List.filter_cons_of_neg (by simp)]
          apply List.filter_eq_self.mpr
          intro a ha
          have : a ≠ n.id := fun e => hc (e ▸ ha)
          simpa using this
        obtain ⟨t, ht, htc, hti⟩ :=
          (ih { s with closedNotifications := s.closedNotifications.filter (fun i => i ≠ n.id) }
            hsteps).1 hfil
        refine ⟨t, ?_, ?_, ?_⟩
        · simp only [closeRuns, hs1, Option.some_bind]; exact ht
        · rw [htc]
          simp only [List.length_cons]
          split <;> split <;> first | rfl | omega
        · rw [hti]
          simp only [List.length_cons]

/-- C19: the closed flag is a toggle. From a state in which the flag of
request `n` is not set (animation with at least one step), any number of
consecutive runs of the close function for `n` all return; the flag is set
afterwards exactly if the number of runs is odd, and the closed-flag set is
otherwise as before; the inactive pool has grown by one window for every
odd-numbered run. The run that follows an even number of runs (an
odd-numbered run) executes the close body; the run that follows an odd number
of runs (an even-numbered run) only clears the flag. -/
theorem closed_flag_is_toggle (s : State) (n : NotificationObj)
    (rs : List (Nat × Option Nat × String))
    (hsteps : 0 < s.config.animationSteps)
    (hflag : n.id ∉ s.closedNotifications) :
    ∃ t, closeRuns n rs s = some t ∧
      (n.id ∈ t.closedNotifications ↔ rs.length % 2 = 1) ∧
      t.closedNotifications =
        (if rs.length % 2 = 1 then n.id :: s.closedNotifications else s.closedNotifications) ∧
      t.inactiveWindows.length = s.inactiveWindows.length + (rs.length + 1) / 2 ∧
      ∀ (w : Nat) (tid : Option Nat) (ev : String),
        closeNotification t w n tid ev =
          if rs.length % 2 = 0 then
            moveOneDown (closeBody t w n tid ev).1 (closeBody t w n tid ev).2
          else
            some { t with
              closedNotifications := t.closedNotifications.filter (fun i => i ≠ n.id) } := by
  obtain ⟨t, ht, htc, hti⟩ := (closeRuns_toggle n s.closedNotifications hflag rs s hsteps).1 rfl
  have hiff : n.id ∈ t.closedNotifications ↔ rs.length % 2 = 1 := by
    rw [htc]
    split
    · simp [*]
    · simp [*]
  refine ⟨t, ht, hiff, htc, hti, ?_⟩
  intro w tid ev
  split
  · exact closeNotification_flag_unset t w n tid ev (fun h => by have := hiff.mp h; omega)
  · exact closeNotification_flag_set t w n tid ev (hiff.mpr (by omega))

/-- Witness of C19: request 0 of three displayed notifications is closed by
the client, by its timer and by a close message of its window. -/
theorem closed_flag_is_toggle_witness :
    0 < threeShownState.config.animationSteps ∧
    0 ∉ threeShownState.closedNotifications ∧
    ∃ t,
      closeRuns { id := 0, request := exampleRequest 0 }
        [(0, some 0, "closedByAPI"), (0, some 0, "timeout"), (0, none, "close")]
        threeShownState = some t ∧
      0 ∈ t.closedNotifications ∧
      t.inactiveWindows.length = 2 := by
  obtain ⟨t, h1, h2, _, h4, _⟩ :=
    closed_flag_is_toggle threeShownState { id := 0, request := exampleRequest 0 }
      [(0, some 0, "closedByAPI"), (0, some 0, "timeout"), (0, none, "close")]
      (by decide) (by decide)
  refine ⟨by decide, by decide, t, h1, h2.mpr (by decide), ?_⟩
  rw [h4]
  decide

/-- C13 fails after a direct call of the exported `closeAll()`: on the 1920 by
1080 display `closeAll()` leaves `nextInsertPos` without an `x`, and the next
notification that `showNotification` admits (no window active, room for five)
is positioned with `y = firstPos.y = 0` but with `x = NaN`, not with
`x = firstPos.x = 1616`. Without the `closeAll()` the same request is placed
at `firstPos`. -/
theorem show_after_closeAll_has_no_x :
    (step (initialState defaultConfig exampleDisplay) Action.closeAll).activeNotifications = [] ∧
    (step (initialState defaultConfig exampleDisplay) Action.closeAll).config.maxVisibleNotifications
      = 5 ∧
    shownAfterCloseAll.activeNotifications = [0] ∧
    shownAfterCloseAll.config.firstPos = { x := 1616, y := 0 } ∧
    windowPos shownAfterCloseAll 0 = some (none, some 0) ∧
    windowPos
      (run (initialState defaultConfig exampleDisplay)
        [Action.notify (singleCall (exampleRequest 0)), Action.runNext]) 0 =
      some (some 1616, some 0) := by
  decide

theorem closeAllWindow_events_eq (s : State) (w : Nat) :
    (closeAllWindow s w).events =
      s.events ++
        (match attachedOnClose s w with
          | some cb => [Event.onClose cb "close-all" none]
          | none => []) := by
  unfold closeAllWindow attachedOnClose
  cases hw : s.windows[w]? with
  | none => simp
  | some win =>
      cases hcb : win.electronNotifyOnCloseFunc with
      | none => simp [hcb]
      | some cb => simp [hcb]

theorem closeAllWindow_attached (s : State) (w v : Nat) :
    attachedOnClose (closeAllWindow s w) v = if v = w then none else attachedOnClose s v := by
  unfold closeAllWindow attachedOnClose
  cases hw : s.windows[w]? with
  | none =>
      by_cases hv : v = w
      · subst hv; simp [modifyWindow_get?, hw]
      · simp [modifyWindow_get?, hv]
  | some win =>
      cases hcb : win.electronNotifyOnCloseFunc with
      | none =>
          by_cases hv : v = w
          · subst hv; simp [modifyWindow_get?, hw, hcb]
          · simp [modifyWindow_get?, hv, hcb]
      | some cb =>
          by_cases hv : v = w
          · subst hv; simp [modifyWindow_get?, hw, hcb]
          · simp [modifyWindow_get?, hv, hcb]

theorem foldl_closeAllWindow_onClose (l : List Nat) :
    ∀ s : State,
      (∀ v, attachedOnClose (l.foldl closeAllWindow s) v =
        if v ∈ l then none else attachedOnClose s v) ∧
      ∃ es, (l.foldl closeAllWindow s).events = s.events ++ es ∧
        (∀ e ∈ es, ∃ cb w, w ∈ l ∧ attachedOnClose s w = some cb ∧
          e = Event.onClose cb "close-all" none) ∧
        ∀ cb, es.count (Event.onClose cb "close-all" none) =
          (l.toFinset.filter (fun w => attachedOnClose s w = some cb)).card := by
  induction l with
  | nil =>
      intro s
      exact ⟨fun v => by simp, [], by simp, by simp, by simp⟩
  | cons w rest ih =>
      intro s
      obtain ⟨h1, es, h2, h3, h4⟩ := ih (closeAllWindow s w)
      refine ⟨?_, ?_⟩
      · intro v
        simp only [List.foldl_cons, h1, closeAllWindow_attached, List.mem_cons]
        by_cases hv : v = w
        · simp [hv]
        · simp [hv]
      · have hF : ∀ cb,
            rest.toFinset.filter (fun v => attachedOnClose (closeAllWindow s w) v = some cb) =
              (rest.toFinset.filter (fun v => attachedOnClose s v = some cb)).erase w := by
          intro cb
          ext v
          simp only [Finset.mem_filter, Finset.mem_erase, closeAllWindow_attached]
          by_cases hv : v = w
          · simp [hv]
          · simp [hv]
        cases hcb : attachedOnClose s w with
        | none =>
            refine ⟨es, ?_, ?_, ?_⟩
            · simp only [List.foldl_cons, h2, closeAllWindow_events_eq, hcb, List.append_nil]
            · intro e he
              obtain ⟨cb, v, hv, hat, heq⟩ := h3 e he
              rw [closeAllWindow_attached] at hat
              by_cases hvw : v = w
              · rw [if_pos hvw] at hat; cases hat
              · rw [if_neg hvw] at hat
                exact ⟨cb, v, List.mem_cons_of_mem _ hv, hat, heq⟩
            · intro cb
              rw [h4 cb, hF cb]
              have hw : w ∉ rest.toFinset.filter (fun v => attachedOnClose s v = some cb) := by
                simp [hcb]
              rw [Finset.erase_eq_of_not_mem hw, List.toFinset_cons, Finset.filter_insert]
              simp [hcb]
        | some cb0 =>
            refine ⟨Event.onClose cb0 "close-all" none :: es, ?_, ?_, ?_⟩
            · simp only [List.foldl_cons, h2, closeAllWindow_events_eq, hcb, List.append_assoc,
                List.singleton_append]
            · intro e he
              rcases List.mem_cons.mp he with he | he
              · exact ⟨cb0, w, List.mem_cons_self _ _, hcb, he⟩
              · obtain ⟨cb, v, hv, hat, heq⟩ := h3 e he
                rw [closeAllWindow_attached] at hat
                by_cases hvw : v = w
                · rw [if_pos hvw] at hat; cases hat
                · rw [if_neg hvw] at hat
                  exact ⟨cb, v, List.mem_cons_of_mem _ hv, hat, heq⟩
            · intro cb
              rw [List.count_cons, h4 cb, hF cb, List.toFinset_cons, Finset.filter_insert]
              by_cases hc : cb0 = cb
              · subst hc
                simp only [hcb, if_true, beq_self_eq_true]
                by_cases hw : w ∈ rest.toFinset.filter (fun v => attachedOnClose s v = some cb0)
                · rw [Finset.insert_eq_of_mem hw, Finset.card_erase_add_one hw]
                · rw [Finset.erase_eq_of_not_mem hw, Finset.card_insert_of_not_mem hw]
              · have hw : w ∉ rest.toFinset.filter (fun v => attachedOnClose s v = some cb) := by
                  simp [hcb, hc]
                have hne : (Event.onClose cb0 "close-all" none == Event.onClose cb "close-all" none)
                    = false := by
                  simp [hc]
                rw [Finset.erase_eq_of_not_mem hw, hne]
                simp [hcb, hc]

theorem foldl_destroy_onClose (l : List Nat) (ws : List NotificationWindow) (v : Nat) :
    (l.foldl (fun ws w => modifyWindow ws w
        (fun win => { win with destroyed := true, visible := false })) ws)[v]?.bind
        (fun win => win.electronNotifyOnCloseFunc) =
      ws[v]?.bind (fun win => win.electronNotifyOnCloseFunc) := by
  induction l generalizing ws with
  | nil => rfl
  | cons a rest ih =>
      simp only [List.foldl_cons]
      rw [ih, modifyWindow_get?]
      split
      · cases ws[v]? <;> rfl
      · rfl

theorem closeAll_onClose (s : State) :
    (∀ v, attachedOnClose (closeAll s) v =
      if v ∈ s.activeNotifications then none else attachedOnClose s v) ∧
    ∃ es, (closeAll s).events = s.events ++ es ∧
      (∀ e ∈ es, ∃ cb w, w ∈ s.activeNotifications ∧ attachedOnClose s w = some cb ∧
        e = Event.onClose cb "close-all" none) ∧
      ∀ cb, es.count (Event.onClose cb "close-all" none) =
        (s.activeNotifications.toFinset.filter (fun w => attachedOnClose s w = some cb)).card := by
  obtain ⟨h1, h2⟩ := foldl_closeAllWindow_onClose s.activeNotifications
    { s with animationQueue := s.animationQueue.clear }
  refine ⟨?_, h2⟩
  intro v
  have e : attachedOnClose (closeAll s) v =
      attachedOnClose (s.activeNotifications.foldl closeAllWindow
        { s with animationQueue := s.animationQueue.clear }) v := by
    simp only [closeAll, cleanUpInactiveWindow, attachedOnClose]
    exact foldl_destroy_onClose _ _ v
  rw [e]
  exact h1 v

theorem setupConfig_events (d : Display) (s : State) :
    (setupConfig d s).events = (closeAll s).events := rfl

theorem setupConfig_windows (d : Display) (s : State) :
    (setupConfig d s).windows = (closeAll s).windows := rfl

theorem setupConfig_activeNotifications (d : Display) (s : State) :
    (setupConfig d s).activeNotifications = [] := rfl

/-- C11: for every state and every display, `setupConfig` (through
`closeAll`) leaves no active window with an `onCloseFunc` attached; the
events it adds are `onClose` calls with event `close-all` only, each for a
callback that was attached to an active window, and the number of such calls
of a callback is the number of active windows it was attached to: once per
window. Afterwards no operation finds the callback on its window: a second
`closeAll` or `setupConfig` and a run of the close body for a formerly active
window call nothing. The active list is empty, and `corner`, `firstPos`,
`nextInsertPos` and `maxVisibleNotifications` are those of the display. -/
theorem setupConfig_closes_all_once (d : Display) (s : State) :
    (∀ w ∈ s.activeNotifications, attachedOnClose (setupConfig d s) w = none) ∧
    (∃ es, (setupConfig d s).events = s.events ++ es ∧
      (∀ e ∈ es, ∃ cb w, w ∈ s.activeNotifications ∧ attachedOnClose s w = some cb ∧
        e = Event.onClose cb "close-all" none) ∧
      ∀ cb, es.count (Event.onClose cb "close-all" none) =
        (s.activeNotifications.toFinset.filter (fun w => attachedOnClose s w = some cb)).card) ∧
    (closeAll (setupConfig d s)).events = (setupConfig d s).events ∧
    (∀ d2, (setupConfig d2 (setupConfig d s)).events = (setupConfig d s).events) ∧
    (∀ w ∈ s.activeNotifications, ∀ (n : NotificationObj) (tid : Option Nat) (ev : String),
      (closeBody (setupConfig d s) w n tid ev).1.events = (setupConfig d s).events) ∧
    (setupConfig d s).activeNotifications = [] ∧
    (setupConfig d s).config.corner = cornerOf s.config.startCorner d ∧
    (setupConfig d s).config.firstPos =
      (calcDimensions
        { s with config := { s.config with corner := cornerOf s.config.startCorner d } }).config.firstPos ∧
    (setupConfig d s).nextInsertPos =
      { x := some (setupConfig d s).config.firstPos.x,
        y := some (setupConfig d s).config.firstPos.y } ∧
    (setupConfig d s).config.maxVisibleNotifications =
      (if 5 < mathFloorDiv d.workAreaHeight ((s.config.height + s.config.padding : Nat) : Int)
        then 5
        else mathFloorDiv d.workAreaHeight ((s.config.height + s.config.padding : Nat) : Int)) := by
  obtain ⟨h1, h2⟩ := closeAll_onClose s
  have hdet : ∀ w ∈ s.activeNotifications, attachedOnClose (setupConfig d s) w = none := by
    intro w hw
    have := h1 w
    rw [if_pos hw] at this
    exact this
  have hagain : (closeAll (setupConfig d s)).events = (setupConfig d s).events := by
    obtain ⟨_, es, he, hmem, _⟩ := closeAll_onClose (setupConfig d s)
    have hnil : es = [] := by
      apply List.eq_nil_iff_forall_not_mem.mpr
      intro e he2
      obtain ⟨_, w, hw, _⟩ := hmem e he2
      rw [setupConfig_activeNotifications] at hw
      cases hw
    rw [he, hnil, List.append_nil]
  obtain ⟨_, hcorner, _, _, hmax⟩ := setupConfig_config d s
  refine ⟨hdet, h2, hagain, fun d2 => hagain, ?_, rfl, hcorner, ?_, rfl, hmax⟩
  · intro w hw n tid ev
    rw [closeBody_events]
    have := hdet w hw
    unfold attachedOnClose at this
    rw [this]
  · simp only [setupConfig, calcDimensions, closeAll_config, cornerOf]

/-- Witness of C11: the display changes to a work area 170 pixels high while
three notifications with `onCloseFunc` 2, 12 and 22 are on display. -/
theorem setupConfig_closes_all_once_witness :
    threeShownState.activeNotifications = [0, 1, 2] ∧
    (setupConfig twoSlotDisplay threeShownState).events =
      threeShownState.events ++
        [Event.onClose 2 "close-all" none, Event.onClose 12 "close-all" none,
         Event.onClose 22 "close-all" none] ∧
    (∀ w ∈ threeShownState.activeNotifications,
      attachedOnClose (setupConfig twoSlotDisplay threeShownState) w = none) ∧
    (setupConfig twoSlotDisplay threeShownState).config.maxVisibleNotifications = 2 ∧
    (setupConfig twoSlotDisplay threeShownState).config.corner =
      cornerOf Corner.upperRight twoSlotDisplay ∧
    (setupConfig twoSlotDisplay threeShownState).config.firstPos =
      { x := (cornerOf Corner.upperRight twoSlotDisplay).x - 304,
        y := (cornerOf Corner.upperRight twoSlotDisplay).y } :=
  ⟨by decide, by decide, (setupConfig_closes_all_once twoSlotDisplay threeShownState).1,
    by decide, by decide, by decide⟩

theorem bitLength_zero (fuel : Nat) : bitLength fuel 0 = 0 := by
  cases fuel <;> simp [bitLength]

theorem bitLength_spec (fuel n : Nat) (hn : 0 < n) (hf : n < 2 ^ fuel) :
    2 ^ (bitLength fuel n - 1) ≤ n ∧ n < 2 ^ bitLength fuel n ∧ 0 < bitLength fuel n := by
  induction fuel generalizing n with
  | zero => simp at hf; omega
  | succ k ih =>
      have hne : n ≠ 0 := by omega
      simp only [bitLength, if_neg hne, Nat.add_sub_cancel]
      by_cases h2 : n / 2 = 0
      · have h1 : n = 1 := by omega
        subst h1
        simp [bitLength_zero]
      · have hlt : n / 2 < 2 ^ k := by
          rw [pow_succ] at hf
          omega
        obtain ⟨a, b, c⟩ := ih (n / 2) (by omega) hlt
        refine ⟨?_, ?_, by omega⟩
        · have : 2 ^ bitLength k (n / 2) = 2 ^ (bitLength k (n / 2) - 1) * 2 := by
            rw [← pow_succ]
            congr 1
            omega
          omega
        · rw [pow_succ]
          omega

theorem bitLength_self_spec (n : Nat) (hn : 0 < n) :
    2 ^ (bitLength n n - 1) ≤ n ∧ n < 2 ^ bitLength n n ∧ 0 < bitLength n n :=
  bitLength_spec n n hn (Nat.lt_two_pow n)

theorem roundNearestEven_exact (c : Int) (q : Nat) (hq : 0 < q) :
    roundNearestEven (c * q) q = c := by
  have hq0 : (q : Int) ≠ 0 := by omega
  unfold roundNearestEven
  simp only [Int.mul_ediv_cancel _ hq0, sub_self, mul_zero]
  rw [if_pos (by omega)]

theorem binaryExponent_exact (A q : Nat) (hA : 0 < A) (hq : 0 < q) (hn : A < 2 ^ 53) :
    ∃ t : Nat, binaryExponent (A * q) q = -(t : Int) := by
  have hapos : 0 < A * q := Nat.mul_pos hA hq
  obtain ⟨a1, a2, a3⟩ := bitLength_self_spec (A * q) hapos
  obtain ⟨q1, q2, q3⟩ := bitLength_self_spec q hq
  unfold binaryExponent
  generalize bitLength (A * q) (A * q) = ba at a1 a2 a3 ⊢
  generalize bitLength q q = bq at q1 q2 q3 ⊢
  have hqa : q ≤ A * q := Nat.le_mul_of_pos_left q hA
  have hle : bq ≤ ba := by
    have h1 : 2 ^ (bq - 1) < 2 ^ ba := lt_of_le_of_lt (le_trans q1 hqa) a2
    have := (Nat.pow_lt_pow_iff_right (by norm_num : 1 < 2)).mp h1
    omega
  obtain ⟨L, hL⟩ : ∃ L : Nat, ba = bq + L := ⟨ba - bq, by omega⟩
  subst hL
  have hl : ((bq + L : Nat) : Int) - (bq : Int) = (L : Int) := by push_cast; ring
  have hL53 : L ≤ 53 := by
    have h1 : 2 ^ (bq + L - 1) < 2 ^ (53 + bq) := by
      calc 2 ^ (bq + L - 1) ≤ A * q := a1
        _ < 2 ^ 53 * 2 ^ bq := Nat.mul_lt_mul'' hn q2
        _ = 2 ^ (53 + bq) := by rw [pow_add]
    have := (Nat.pow_lt_pow_iff_right (by norm_num : 1 < 2)).mp h1
    omega
  simp only [hl, Int.toNat_ofNat, Nat.cast_nonneg, if_true, decide_eq_true_eq]
  by_cases hbig : q * 2 ^ L ≤ A * q
  · have hL52 : L ≤ 52 := by
      have h2 : 2 ^ L ≤ A := by
        have : 2 ^ L * q ≤ A * q := by rw [Nat.mul_comm]; exact hbig
        exact Nat.le_of_mul_le_mul_right this hq
      have h3 : 2 ^ L < 2 ^ 53 := lt_of_le_of_lt h2 hn
      have := (Nat.pow_lt_pow_iff_right (by norm_num : 1 < 2)).mp h3
      omega
    rw [if_pos hbig, if_neg (by omega)]
    exact ⟨52 - L, by omega⟩
  · have hL1 : 1 ≤ L := by
      by_contra hc
      have : L = 0 := by omega
      subst this
      simp at hbig
      omega
    rw [if_neg hbig, if_neg (by omega)]
    exact ⟨53 - L, by omega⟩

theorem toBinary64_exact (n : Int) (q : Nat) (hq : 0 < q) (hn : n.natAbs < 2 ^ 53) :
    ∃ t : Nat, toBinary64 (n * q) q = some { mantissa := n * 2 ^ t, exponent := -(t : Int) } := by
  by_cases h0 : n = 0
  · subst h0
    refine ⟨0, ?_⟩
    unfold toBinary64
    rw [if_neg (by omega)]
    simp
  · have hA : 0 < n.natAbs := Int.natAbs_pos.mpr h0
    have ha : (n * q).natAbs = n.natAbs * q := by rw [Int.natAbs_mul, Int.natAbs_ofNat]
    have hp0 : n * q ≠ 0 := mul_ne_zero h0 (by omega)
    obtain ⟨t, hEq⟩ := binaryExponent_exact n.natAbs q hA hq hn
    refine ⟨t, ?_⟩
    unfold toBinary64
    rw [if_neg (by omega), if_neg hp0]
    simp only [ha, hEq]
    have hover : ¬ (971 < -(t : Int) ∨ (-(t : Int) = 971 ∧
        (if 0 ≤ -(t : Int) then roundNearestEven (n * q) (q * 2 ^ (-(t : Int)).toNat)
          else roundNearestEven (n * q * 2 ^ (- -(t : Int)).toNat) q).natAbs = 2 ^ 53)) := by
      omega
    rw [if_neg hover]
    by_cases ht0 : t = 0
    · subst ht0
      simp [roundNearestEven_exact n q hq]
    · have hneg : ¬ (0 ≤ -(t : Int)) := by omega
      rw [if_neg hneg]
      have : n * q * 2 ^ (- -(t : Int)).toNat = (n * 2 ^ t) * (q : Int) := by
        simp only [neg_neg, Int.toNat_ofNat]
        ring
      rw [this, roundNearestEven_exact _ q hq]

theorem numberDiv_exact (n : Int) (steps : Nat) (hs : 0 < steps) (hn : n.natAbs < 2 ^ 53) :
    ∃ t : Nat, numberDiv (n * steps) steps =
      some { mantissa := n * 2 ^ t, exponent := -(t : Int) } := by
  unfold numberDiv
  rw [if_neg (by omega)]
  exact toBinary64_exact n steps hs hn

theorem numberMul_exact (k n : Int) (t : Nat) (h : (k * n).natAbs < 2 ^ 53) :
    ∃ u : Nat, numberMul k (some { mantissa := n * 2 ^ t, exponent := -(t : Int) }) =
      some { mantissa := k * n * 2 ^ u, exponent := -(u : Int) } := by
  unfold numberMul
  simp only
  by_cases ht : t = 0
  · subst ht
    have := toBinary64_exact (k * n) 1 (by norm_num) h
    simpa using this
  · rw [if_neg (by omega)]
    have h2 := toBinary64_exact (k * n) (2 ^ t) (by positivity) h
    have e : k * (n * 2 ^ t) = k * n * ((2 ^ t : Nat) : Int) := by push_cast; ring
    simp only [neg_neg, Int.toNat_ofNat]
    rw [e]
    exact h2

theorem numberAdd_exact (a n : Int) (t : Nat) (h : (a + n).natAbs < 2 ^ 53) :
    ∃ u : Nat, numberAdd a (some { mantissa := n * 2 ^ t, exponent := -(t : Int) }) =
      some { mantissa := (a + n) * 2 ^ u, exponent := -(u : Int) } := by
  unfold numberAdd
  simp only
  by_cases ht : t = 0
  · subst ht
    have := toBinary64_exact (a + n) 1 (by norm_num) h
    simpa using this
  · rw [if_neg (by omega)]
    have h2 := toBinary64_exact (a + n) (2 ^ t) (by positivity) h
    have e : a * 2 ^ t + n * 2 ^ t = (a + n) * ((2 ^ t : Nat) : Int) := by push_cast; ring
    simp only [neg_neg, Int.toNat_ofNat]
    rw [e]
    exact h2

theorem parseIntNumber_exact (n : Int) (t : Nat) (h : n.natAbs < 2 ^ 53) :
    parseIntNumber (some { mantissa := n * 2 ^ t, exponent := -(t : Int) }) = some n := by
  unfold parseIntNumber
  simp only
  by_cases h0 : n = 0
  · subst h0; simp
  · have hm : n * 2 ^ t ≠ 0 := mul_ne_zero h0 (by positivity)
    rw [if_neg hm]
    have hA : 0 < n.natAbs := Int.natAbs_pos.mpr h0
    have habs : (n * 2 ^ t).natAbs = n.natAbs * 2 ^ t := by
      rw [Int.natAbs_mul, Int.natAbs_pow]; rfl
    have hpow : (0 : Nat) < 2 ^ t := by positivity
    have hsign : (if n * 2 ^ t < 0 then (-1 : Int) else 1) * (n.natAbs : Int) = n := by
      by_cases hneg : n < 0
      · have : n * 2 ^ t < 0 := mul_neg_of_neg_of_pos hneg (by positivity)
        rw [if_pos this]
        omega
      · have : ¬ n * 2 ^ t < 0 := by
          have : 0 ≤ n * 2 ^ t := mul_nonneg (by omega) (by positivity)
          omega
        rw [if_neg this]
        omega
    by_cases ht : t = 0
    · subst ht
      have hc : ¬ (ltPow10 n.natAbs 1 (-6) = true ∨ ¬ ltPow10 n.natAbs 1 21 = true) := by
        have h1 : ¬ (n.natAbs * 10 ^ 6 < 1) := by omega
        have h2 : n.natAbs < 1 * 10 ^ 21 := by
          have : (2 : Nat) ^ 53 < 1 * 10 ^ 21 := by norm_num
          omega
        simp only [ltPow10, show ¬ ((0 : Int) ≤ -6) by norm_num,
          show (0 : Int) ≤ 21 by norm_num, if_true, if_false, decide_eq_true_eq, not_or, not_not,
          show (-(-6 : Int)).toNat = 6 from rfl, show (21 : Int).toNat = 21 from rfl]
        exact ⟨h1, h2⟩
      simp only [pow_zero, mul_one, Nat.cast_zero, neg_zero, le_refl, if_true, Int.toNat_zero]
        at hsign ⊢
      simp only [hc, if_false, Nat.div_one]
      rw [hsign]
    · have hneg : ¬ (0 ≤ -(t : Int)) := by omega
      have hc : ¬ (ltPow10 (n.natAbs * 2 ^ t) (2 ^ t) (-6) = true ∨
          ¬ ltPow10 (n.natAbs * 2 ^ t) (2 ^ t) 21 = true) := by
        have h1 : ¬ (n.natAbs * 2 ^ t * 10 ^ 6 < 2 ^ t) := by
          have : 2 ^ t ≤ n.natAbs * 2 ^ t * 10 ^ 6 := by
            calc 2 ^ t = 1 * 2 ^ t * 1 := by ring
              _ ≤ n.natAbs * 2 ^ t * 10 ^ 6 := by gcongr <;> omega
          omega
        have h2 : n.natAbs * 2 ^ t < 2 ^ t * 10 ^ 21 := by
          have : n.natAbs < 10 ^ 21 := by
            have : (2 : Nat) ^ 53 < 10 ^ 21 := by norm_num
            omega
          calc n.natAbs * 2 ^ t < 10 ^ 21 * 2 ^ t := Nat.mul_lt_mul_of_pos_right this hpow
            _ = 2 ^ t * 10 ^ 21 := by ring
        simp only [ltPow10, show ¬ ((0 : Int) ≤ -6) by norm_num,
          show (0 : Int) ≤ 21 by norm_num, if_true, if_false, decide_eq_true_eq, not_or, not_not,
          show (-(-6 : Int)).toNat = 6 from rfl, show (21 : Int).toNat = 21 from rfl]
        exact ⟨h1, h2⟩
      have h3 : n.natAbs * 2 ^ t / 2 ^ t = n.natAbs := Nat.mul_div_cancel _ hpow
      simp only [if_neg hneg, neg_neg, Int.toNat_ofNat, habs, hc, if_false, h3]
      rw [hsign]

theorem frameY_exact (steps : Nat) (startY newY n : Int) (k : Nat)
    (hs : 0 < steps) (hd : newY - startY = n * steps)
    (hs1 : -2 ^ 52 < startY) (hs2 : startY < 2 ^ 52)
    (hn1 : -2 ^ 52 < newY) (hn2 : newY < 2 ^ 52) (hk : k ≤ steps) :
    frameY steps startY newY k = some (startY + k * n) := by
  have hsI : (1 : Int) ≤ (steps : Int) := by omega
  have hk0 : (0 : Int) ≤ (k : Int) := by omega
  have hkI : (k : Int) ≤ (steps : Int) := by exact_mod_cast hk
  have hnabs : n.natAbs < 2 ^ 53 := by
    rcases le_or_lt 0 n with h | h
    · have : n ≤ n * steps := by nlinarith
      omega
    · have : n * steps ≤ n := by nlinarith
      omega
  have hkn : ((k : Int) * n).natAbs < 2 ^ 53 := by
    rcases le_or_lt 0 n with h | h
    · have h1 : (k : Int) * n ≤ n * steps := by nlinarith
      have h2 : 0 ≤ (k : Int) * n := by positivity
      omega
    · have h1 : n * steps ≤ (k : Int) * n := by nlinarith
      have h2 : (k : Int) * n ≤ 0 := by nlinarith
      omega
  have hsum : (startY + (k : Int) * n).natAbs < 2 ^ 53 := by
    rcases le_or_lt 0 n with h | h
    · have h1 : (k : Int) * n ≤ n * steps := by nlinarith
      have h2 : 0 ≤ (k : Int) * n := by positivity
      omega
    · have h1 : n * steps ≤ (k : Int) * n := by nlinarith
      have h2 : (k : Int) * n ≤ 0 := by nlinarith
      omega
  obtain ⟨t, h1⟩ := numberDiv_exact n steps hs hnabs
  obtain ⟨u, h2⟩ := numberMul_exact k n t hkn
  obtain ⟨v, h3⟩ := numberAdd_exact startY (k * n) u hsum
  unfold frameY
  rw [hd, h1, h2, h3, parseIntNumber_exact _ _ hsum]

theorem animationLoop_eq (steps : Nat) (startY newY : Int) (fuel : Nat) :
    ∀ (cur : Nat) (acc : List (Option Int)), cur ≤ steps →
      animationLoop steps startY newY fuel cur acc =
        if steps - cur < fuel then
          some (acc ++ (List.range' cur (steps - cur)).map (frameY steps startY newY) ++
            [some newY])
        else none := by
  induction fuel with
  | zero =>
      intro cur acc _
      simp [animationLoop]
  | succ f ih =>
      intro cur acc hcur
      unfold animationLoop
      by_cases h : cur = steps
      · subst h
        simp
      · rw [if_neg h, ih (cur + 1) _ (by omega)]
        have hr : List.range' cur (steps - cur) = cur :: List.range' (cur + 1) (steps - (cur + 1)) := by
          have : steps - cur = (steps - (cur + 1)) + 1 := by omega
          rw [this, List.range'_succ]
        by_cases hf : steps - (cur + 1) < f
        · rw [if_pos hf, if_pos (by omega), hr]
          simp
        · rw [if_neg hf, if_neg (by omega)]

theorem roundNearestEven_error (p : Int) (q : Nat) (hq : 0 < q) :
    |((roundNearestEven p q : Int) : ℚ) - (p : ℚ) / q| ≤ 1 / 2 := by
  have hq0 : (0 : ℚ) < q := by exact_mod_cast hq
  have hqI : (0 : Int) < q := by exact_mod_cast hq
  have hmod1 : 0 ≤ p % (q : Int) := Int.emod_nonneg _ (by omega)
  have hmod2 : p % (q : Int) < q := Int.emod_lt_of_pos _ hqI
  have hdecomp : p = p / (q : Int) * q + p % (q : Int) := by
    have := Int.ediv_add_emod p q
    linarith [mul_comm (q : Int) (p / (q : Int))]
  have hr : p - p / (q : Int) * q = p % (q : Int) := by linarith
  have hpq : (p : ℚ) / q = ((p / (q : Int) : Int) : ℚ) + ((p % (q : Int) : Int) : ℚ) / q := by
    field_simp
    have : (p : ℚ) = ((p / (q : Int) * q + p % (q : Int) : Int) : ℚ) := by rw [← hdecomp]
    rw [this]
    push_cast
    ring
  have hm1 : (0 : ℚ) ≤ ((p % (q : Int) : Int) : ℚ) := by exact_mod_cast hmod1
  have hm2 : ((p % (q : Int) : Int) : ℚ) < q := by exact_mod_cast hmod2
  unfold roundNearestEven
  simp only [hr]
  rw [hpq]
  have key : ∀ f : ℚ, f + ((p % (q : Int) : Int) : ℚ) / q - f = ((p % (q : Int) : Int) : ℚ) / q :=
    fun f => by ring
  split_ifs with h1 h2 h3
  · have h1' : 2 * ((p % (q : Int) : Int) : ℚ) < q := by exact_mod_cast h1
    rw [abs_le]
    constructor
    · have hρ : ((p % (q : Int) : Int) : ℚ) / q * q = ((p % (q : Int) : Int) : ℚ) :=
        div_mul_cancel₀ _ hq0.ne'
      have : ((p % (q : Int) : Int) : ℚ) / q ≤ 1 / 2 := by
        by_contra hc
        push_neg at hc
        nlinarith
      linarith
    · have : 0 ≤ ((p % (q : Int) : Int) : ℚ) / q := div_nonneg hm1 hq0.le
      linarith
  · have h2' : (q : ℚ) < 2 * ((p % (q : Int) : Int) : ℚ) := by exact_mod_cast h2
    rw [abs_le]
    push_cast
    constructor
    · have : ((p % (q : Int) : Int) : ℚ) / q ≤ 1 := by
        rw [div_le_one hq0]; linarith
      linarith
    · have hρ : ((p % (q : Int) : Int) : ℚ) / q * q = ((p % (q : Int) : Int) : ℚ) :=
        div_mul_cancel₀ _ hq0.ne'
      have : 1 / 2 ≤ ((p % (q : Int) : Int) : ℚ) / q := by
        by_contra hc
        push_neg at hc
        nlinarith
      linarith
  · have h1' : ¬ 2 * ((p % (q : Int) : Int) : ℚ) < q := by exact_mod_cast h1
    have h2' : ¬ (q : ℚ) < 2 * ((p % (q : Int) : Int) : ℚ) := by exact_mod_cast h2
    have heq : ((p % (q : Int) : Int) : ℚ) / q = 1 / 2 := by
      rw [div_eq_div_iff hq0.ne' (by norm_num)]; linarith
    rw [heq, abs_le]
    constructor <;> linarith
  · have h1' : ¬ 2 * ((p % (q : Int) : Int) : ℚ) < q := by exact_mod_cast h1
    have h2' : ¬ (q : ℚ) < 2 * ((p % (q : Int) : Int) : ℚ) := by exact_mod_cast h2
    have heq : ((p % (q : Int) : Int) : ℚ) / q = 1 / 2 := by
      rw [div_eq_div_iff hq0.ne' (by norm_num)]; linarith
    rw [heq, abs_le]
    push_cast
    constructor <;> linarith

theorem binaryExponent_le (a q B : Nat) (ha : 0 < a) (hq : 0 < q) (h : a < 2 ^ B * q) :
    binaryExponent a q ≤ (B : Int) - 53 ∧ -1074 ≤ binaryExponent a q := by
  obtain ⟨a1, a2, a3⟩ := bitLength_self_spec a ha
  obtain ⟨q1, q2, q3⟩ := bitLength_self_spec q hq
  unfold binaryExponent
  generalize bitLength a a = ba at a1 a2 a3 ⊢
  generalize bitLength q q = bq at q1 q2 q3 ⊢
  by_cases hl : (0 : Int) ≤ (ba : Int) - (bq : Int)
  · obtain ⟨L, hL⟩ : ∃ L : Nat, ba = bq + L := ⟨ba - bq, by omega⟩
    subst hL
    have hl2 : ((bq + L : Nat) : Int) - (bq : Int) = (L : Int) := by push_cast; ring
    simp only [hl2, Int.toNat_ofNat, Nat.cast_nonneg, if_true, decide_eq_true_eq]
    by_cases hbig : q * 2 ^ L ≤ a
    · have hLB : L < B := by
        have h2 : 2 ^ L * q < 2 ^ B * q := by
          calc 2 ^ L * q = q * 2 ^ L := Nat.mul_comm _ _
            _ ≤ a := hbig
            _ < 2 ^ B * q := h
        have h3 : 2 ^ L < 2 ^ B := Nat.lt_of_mul_lt_mul_right h2
        exact (Nat.pow_lt_pow_iff_right (by norm_num : 1 < 2)).mp h3
      rw [if_pos hbig]
      split <;> omega
    · have hLB : L ≤ B := by
        have h1 : 2 ^ (bq + L - 1) < 2 ^ (B + bq) := by
          calc 2 ^ (bq + L - 1) ≤ a := a1
            _ < 2 ^ B * q := h
            _ < 2 ^ B * 2 ^ bq := Nat.mul_lt_mul_of_pos_left q2 (by positivity)
            _ = 2 ^ (B + bq) := by rw [pow_add]
        have := (Nat.pow_lt_pow_iff_right (by norm_num : 1 < 2)).mp h1
        omega
      rw [if_neg hbig]
      split <;> omega
  · simp only [if_neg hl]
    split <;> split <;> omega

theorem toBinary64_error (p : Int) (q B : Nat) (hq : 0 < q) (hB : p.natAbs < 2 ^ B * q)
    (hB2 : B ≤ 900) :
    ∃ x, toBinary64 p q = some x ∧ |x.toRat - (p : ℚ) / q| ≤ (2 : ℚ) ^ B / 2 ^ 54 := by
  have hq0 : (0 : ℚ) < q := by exact_mod_cast hq
  by_cases hp : p = 0
  · subst hp
    refine ⟨{ mantissa := 0, exponent := 0 }, ?_, ?_⟩
    · unfold toBinary64
      rw [if_neg (by omega)]
      simp
    · simp only [Binary64.toRat, Int.cast_zero, zero_mul, zero_div, sub_self, abs_zero]
      positivity
  · obtain ⟨he1, he2⟩ := binaryExponent_le p.natAbs q B (Int.natAbs_pos.mpr hp) hq hB
    unfold toBinary64
    rw [if_neg (by omega), if_neg hp]
    simp only
    generalize binaryExponent p.natAbs q = e at he1 he2 ⊢
    simp only [show ¬ (971 < e) by omega, show ¬ (e = 971) by omega, false_and, or_self,
      if_false]
    refine ⟨_, rfl, ?_⟩
    simp only [Binary64.toRat]
    by_cases he : 0 ≤ e
    · obtain ⟨t, rfl⟩ : ∃ t : Nat, e = (t : Int) := ⟨e.toNat, by omega⟩
      rw [if_pos he]
      simp only [Int.toNat_ofNat, zpow_natCast]
      have hT : (0 : ℚ) < 2 ^ t := by positivity
      have herr := roundNearestEven_error p (q * 2 ^ t) (by positivity)
      have hcast : (((q * 2 ^ t : Nat) : ℚ)) = (q : ℚ) * 2 ^ t := by push_cast; ring
      rw [hcast] at herr
      have hsplit : ((roundNearestEven p (q * 2 ^ t) : Int) : ℚ) * 2 ^ t - (p : ℚ) / q =
          (((roundNearestEven p (q * 2 ^ t) : Int) : ℚ) - (p : ℚ) / ((q : ℚ) * 2 ^ t)) * 2 ^ t := by
        field_simp
        ring
      rw [hsplit, abs_mul, abs_of_pos hT]
      have hpow : (2 : ℚ) ^ t * 2 ^ 54 ≤ 2 * 2 ^ B := by
        have h1 : (2 : ℚ) ^ (t + 54) ≤ 2 ^ (B + 1) :=
          pow_le_pow_right₀ (by norm_num) (by omega)
        calc (2 : ℚ) ^ t * 2 ^ 54 = 2 ^ (t + 54) := by rw [pow_add]
          _ ≤ 2 ^ (B + 1) := h1
          _ = 2 * 2 ^ B := by rw [pow_succ]; ring
      have h54 : (0 : ℚ) < 2 ^ 54 := by positivity
      rw [le_div_iff₀ h54]
      calc |((roundNearestEven p (q * 2 ^ t) : Int) : ℚ) - (p : ℚ) / ((q : ℚ) * 2 ^ t)| * 2 ^ t
            * 2 ^ 54
          ≤ 1 / 2 * 2 ^ t * 2 ^ 54 := by gcongr
        _ = 1 / 2 * ((2 : ℚ) ^ t * 2 ^ 54) := by ring
        _ ≤ 1 / 2 * (2 * 2 ^ B) := by gcongr
        _ = 2 ^ B := by ring
    · obtain ⟨t, rfl⟩ : ∃ t : Nat, e = -(t : Int) := ⟨(-e).toNat, by omega⟩
      rw [if_neg he]
      simp only [neg_neg, Int.toNat_ofNat, zpow_neg, zpow_natCast]
      have hT : (0 : ℚ) < 2 ^ t := by positivity
      have herr := roundNearestEven_error (p * 2 ^ t) q hq
      have hsplit : ((roundNearestEven (p * 2 ^ t) q : Int) : ℚ) * ((2 : ℚ) ^ t)⁻¹ - (p : ℚ) / q =
          (((roundNearestEven (p * 2 ^ t) q : Int) : ℚ) - ((p * 2 ^ t : Int) : ℚ) / q) *
            ((2 : ℚ) ^ t)⁻¹ := by
        push_cast
        field_simp
        ring
      rw [hsplit, abs_mul, abs_of_pos (inv_pos.mpr hT)]
      have hpow : (2 : ℚ) ^ 54 ≤ 2 * 2 ^ B * 2 ^ t := by
        have h1 : (2 : ℚ) ^ 54 ≤ 2 ^ (B + 1 + t) :=
          pow_le_pow_right₀ (by norm_num) (by omega)
        calc (2 : ℚ) ^ 54 ≤ 2 ^ (B + 1 + t) := h1
          _ = 2 * 2 ^ B * 2 ^ t := by rw [pow_add, pow_succ]; ring
      have h54 : (0 : ℚ) < 2 ^ 54 := by positivity
      rw [le_div_iff₀ h54]
      calc |((roundNearestEven (p * 2 ^ t) q : Int) : ℚ) - ((p * 2 ^ t : Int) : ℚ) / q| *
            ((2 : ℚ) ^ t)⁻¹ * 2 ^ 54
          ≤ 1 / 2 * ((2 : ℚ) ^ t)⁻¹ * 2 ^ 54 := by gcongr
        _ = 1 / 2 * (((2 : ℚ) ^ t)⁻¹ * 2 ^ 54) := by ring
        _ ≤ 1 / 2 * (((2 : ℚ) ^ t)⁻¹ * (2 * 2 ^ B * 2 ^ t)) := by gcongr
        _ = 2 ^ B := by field_simp

theorem natAbs_lt_of_abs_div_lt (P : Int) (Q B : Nat) (hQ : 0 < Q)
    (h : |(P : ℚ) / Q| < 2 ^ B) : P.natAbs < 2 ^ B * Q := by
  have hQ0 : (0 : ℚ) < Q := by exact_mod_cast hQ
  rw [abs_div, abs_of_pos hQ0, div_lt_iff₀ hQ0] at h
  have h2 : ((P.natAbs : Nat) : ℚ) < ((2 ^ B * Q : Nat) : ℚ) := by
    rw [Nat.cast_natAbs, Int.cast_abs]
    push_cast
    exact h
  exact_mod_cast h2

theorem numberDiv_error (d : Int) (steps B : Nat) (hs : 0 < steps)
    (h : |(d : ℚ) / steps| < 2 ^ B) (hB : B ≤ 900) :
    ∃ x, numberDiv d steps = some x ∧ |x.toRat - (d : ℚ) / steps| ≤ (2 : ℚ) ^ B / 2 ^ 54 := by
  unfold numberDiv
  rw [if_neg (by omega)]
  exact toBinary64_error d steps B hs (natAbs_lt_of_abs_div_lt d steps B hs h) hB

theorem numberMul_error (k : Int) (x : Binary64) (B : Nat)
    (h : |(k : ℚ) * x.toRat| < 2 ^ B) (hB : B ≤ 900) :
    ∃ y, numberMul k (some x) = some y ∧
      |y.toRat - (k : ℚ) * x.toRat| ≤ (2 : ℚ) ^ B / 2 ^ 54 := by
  unfold numberMul
  simp only
  by_cases he : 0 ≤ x.exponent
  · obtain ⟨t, ht⟩ : ∃ t : Nat, x.exponent = (t : Int) := ⟨x.exponent.toNat, by omega⟩
    have hval : (k : ℚ) * x.toRat = ((k * x.mantissa * 2 ^ t : Int) : ℚ) / ((1 : Nat) : ℚ) := by
      simp only [Binary64.toRat, ht, zpow_natCast]
      push_cast
      ring
    rw [if_pos he, ht, Int.toNat_ofNat]
    rw [hval] at h ⊢
    exact toBinary64_error _ 1 B (by norm_num) (natAbs_lt_of_abs_div_lt _ 1 B (by norm_num) h) hB
  · obtain ⟨t, ht⟩ : ∃ t : Nat, x.exponent = -(t : Int) := ⟨(-x.exponent).toNat, by omega⟩
    have hval : (k : ℚ) * x.toRat = ((k * x.mantissa : Int) : ℚ) / ((2 ^ t : Nat) : ℚ) := by
      simp only [Binary64.toRat, ht, zpow_neg, zpow_natCast]
      push_cast
      field_simp
    rw [if_neg he, ht, neg_neg, Int.toNat_ofNat]
    rw [hval] at h ⊢
    exact toBinary64_error _ (2 ^ t) B (by positivity)
      (natAbs_lt_of_abs_div_lt _ (2 ^ t) B (by positivity) h) hB

theorem numberAdd_error (a : Int) (x : Binary64) (B : Nat)
    (h : |(a : ℚ) + x.toRat| < 2 ^ B) (hB : B ≤ 900) :
    ∃ y, numberAdd a (some x) = some y ∧
      |y.toRat - ((a : ℚ) + x.toRat)| ≤ (2 : ℚ) ^ B / 2 ^ 54 := by
  unfold numberAdd
  simp only
  by_cases he : 0 ≤ x.exponent
  · obtain ⟨t, ht⟩ : ∃ t : Nat, x.exponent = (t : Int) := ⟨x.exponent.toNat, by omega⟩
    have hval : (a : ℚ) + x.toRat = ((a + x.mantissa * 2 ^ t : Int) : ℚ) / ((1 : Nat) : ℚ) := by
      simp only [Binary64.toRat, ht, zpow_natCast]
      push_cast
      ring
    rw [if_pos he, ht, Int.toNat_ofNat]
    rw [hval] at h ⊢
    exact toBinary64_error _ 1 B (by norm_num) (natAbs_lt_of_abs_div_lt _ 1 B (by norm_num) h) hB
  · obtain ⟨t, ht⟩ : ∃ t : Nat, x.exponent = -(t : Int) := ⟨(-x.exponent).toNat, by omega⟩
    have hval : (a : ℚ) + x.toRat =
        ((a * 2 ^ t + x.mantissa : Int) : ℚ) / ((2 ^ t : Nat) : ℚ) := by
      simp only [Binary64.toRat, ht, zpow_neg, zpow_natCast]
      push_cast
      field_simp
    rw [if_neg he, ht, neg_neg, Int.toNat_ofNat]
    rw [hval] at h ⊢
    exact toBinary64_error _ (2 ^ t) B (by positivity)
      (natAbs_lt_of_abs_div_lt _ (2 ^ t) B (by positivity) h) hB

theorem decimal_range_of_bounds (P Q F : Nat) (r : ℚ) (hQ : 0 < Q) (hP : (P : ℚ) = r * Q)
    (hlo : (F : ℚ) ≤ r) (hhi : r < F + 1) (hmin : 1 / 10 ^ 6 ≤ r) (hmax : F + 1 ≤ 10 ^ 21) :
    ltPow10 P Q (-6) = false ∧ ltPow10 P Q 21 = true ∧ P / Q = F := by
  have hQ0 : (0 : ℚ) < Q := by exact_mod_cast hQ
  refine ⟨?_, ?_, ?_⟩
  · simp only [ltPow10, show ¬ ((0 : Int) ≤ -6) by norm_num, if_false,
      show (-(-6 : Int)).toNat = 6 from rfl, decide_eq_false_iff_not, not_lt]
    have h1 : (Q : ℚ) ≤ (P : ℚ) * 10 ^ 6 := by
      rw [hP]
      have : 1 ≤ r * 10 ^ 6 := by
        have := mul_le_mul_of_nonneg_right hmin (by positivity : (0 : ℚ) ≤ 10 ^ 6)
        simpa using this
      nlinarith
    exact_mod_cast h1
  · simp only [ltPow10, show (0 : Int) ≤ 21 by norm_num, if_true,
      show (21 : Int).toNat = 21 from rfl, decide_eq_true_eq]
    have hmaxQ : ((F : ℚ) + 1) ≤ 10 ^ 21 := by exact_mod_cast hmax
    have h1 : (P : ℚ) < (Q : ℚ) * 10 ^ 21 := by
      rw [hP]
      nlinarith
    exact_mod_cast h1
  · apply Nat.div_eq_of_lt_le
    · have h1 : ((F * Q : Nat) : ℚ) ≤ (P : ℚ) := by
        rw [hP]; push_cast; nlinarith
      exact_mod_cast h1
    · have h1 : (P : ℚ) < (((F + 1) * Q : Nat) : ℚ) := by
        rw [hP]; push_cast; nlinarith
      exact_mod_cast h1

theorem parseIntNumber_of_bounds (x : Binary64) (F : Nat)
    (hlo : (F : ℚ) ≤ |x.toRat|) (hhi : |x.toRat| < F + 1)
    (hmin : 1 / 10 ^ 6 ≤ |x.toRat|) (hmax : F + 1 ≤ 10 ^ 21) :
    parseIntNumber (some x) = some (if x.toRat < 0 then -(F : Int) else F) := by
  have hpow : (0 : ℚ) < (2 : ℚ) ^ x.exponent := by positivity
  have hm : x.mantissa ≠ 0 := by
    intro h0
    have : x.toRat = 0 := by simp [Binary64.toRat, h0]
    rw [this, abs_zero] at hmin
    have : (0 : ℚ) < 1 / 10 ^ 6 := by positivity
    linarith
  have hsign : (x.toRat < 0) ↔ (x.mantissa < 0) := by
    unfold Binary64.toRat
    constructor
    · intro h
      by_contra hc
      have : (0 : ℚ) ≤ (x.mantissa : ℚ) := by exact_mod_cast (not_lt.mp hc)
      have := mul_nonneg this hpow.le
      linarith
    · intro h
      have : (x.mantissa : ℚ) < 0 := by exact_mod_cast h
      exact mul_neg_of_neg_of_pos this hpow
  have habs : |x.toRat| = (x.mantissa.natAbs : ℚ) * (2 : ℚ) ^ x.exponent := by
    unfold Binary64.toRat
    rw [abs_mul, abs_of_pos hpow, Nat.cast_natAbs, Int.cast_abs]
  unfold parseIntNumber
  simp only
  rw [if_neg hm]
  by_cases he : 0 ≤ x.exponent
  · obtain ⟨t, ht⟩ : ∃ t : Nat, x.exponent = (t : Int) := ⟨x.exponent.toNat, by omega⟩
    have hP : ((x.mantissa.natAbs * 2 ^ t : Nat) : ℚ) = |x.toRat| * ((1 : Nat) : ℚ) := by
      rw [habs, ht, zpow_natCast]; push_cast; ring
    obtain ⟨h1, h2, h3⟩ := decimal_range_of_bounds _ 1 F _ (by norm_num) hP hlo hhi hmin hmax
    have he3 : (0 : Int) ≤ (t : Int) := by omega
    simp only [ht, if_pos he3, Int.toNat_ofNat, h1, h2, Bool.false_eq_true, not_true_eq_false,
      or_self, if_false, h3]
    by_cases hneg : x.mantissa < 0
    · rw [if_pos hneg, if_pos (hsign.mpr hneg)]; simp
    · rw [if_neg hneg, if_neg (fun h => hneg (hsign.mp h))]; simp
  · obtain ⟨t, ht⟩ : ∃ t : Nat, x.exponent = -(t : Int) := ⟨(-x.exponent).toNat, by omega⟩
    have hP : ((x.mantissa.natAbs : Nat) : ℚ) = |x.toRat| * ((2 ^ t : Nat) : ℚ) := by
      rw [habs, ht, zpow_neg, zpow_natCast]; push_cast; field_simp
    obtain ⟨h1, h2, h3⟩ :=
      decimal_range_of_bounds _ (2 ^ t) F _ (by positivity) hP hlo hhi hmin hmax
    have he2 : ¬ (0 ≤ -(t : Int)) := by rw [← ht]; exact he
    simp only [ht, if_neg he2, neg_neg, Int.toNat_ofNat, h1, h2, Bool.false_eq_true,
      not_true_eq_false, or_self, if_false, h3]
    by_cases hneg : x.mantissa < 0
    · rw [if_pos hneg, if_pos (hsign.mpr hneg)]; simp
    · rw [if_neg hneg, if_neg (fun h => hneg (hsign.mp h))]; simp

theorem quotient_bounds (w S K d : ℚ) (hS : 1 ≤ S) (hK0 : 0 ≤ K) (hK : K ≤ S)
    (hwS : w * S = d) (hd1 : -2 ^ 32 ≤ d) (hd2 : d ≤ 2 ^ 32) :
    (-2 ^ 32 ≤ w ∧ w ≤ 2 ^ 32) ∧ (-2 ^ 32 ≤ K * w ∧ K * w ≤ 2 ^ 32) := by
  rcases le_or_lt 0 w with h | h
  · have h1 : w ≤ w * S := by nlinarith
    have h2 : 0 ≤ K * w := mul_nonneg hK0 h
    have h3 : K * w ≤ w * S := by nlinarith
    refine ⟨⟨by linarith, by linarith⟩, ⟨by linarith, by linarith⟩⟩
  · have h1 : w * S ≤ w := by nlinarith
    have h2 : K * w ≤ 0 := by nlinarith
    have h3 : w * S ≤ K * w := by nlinarith
    refine ⟨⟨by linarith, by linarith⟩, ⟨by linarith, by linarith⟩⟩

theorem scaled_error_bounds (K δ : ℚ) (hK0 : 0 ≤ K) (hK : K ≤ 1024)
    (h1 : -(1 / 2097152) ≤ δ) (h2 : δ ≤ 1 / 2097152) :
    -(1 / 2048) ≤ K * δ ∧ K * δ ≤ 1 / 2048 := by
  constructor
  · nlinarith
  · nlinarith

theorem frameY_error (steps : Nat) (startY newY : Int) (k : Nat)
    (hs1 : 0 < steps) (hs2 : steps ≤ 1024)
    (hy1 : -2 ^ 31 ≤ startY) (hy2 : startY ≤ 2 ^ 31)
    (hn1 : -2 ^ 31 ≤ newY) (hn2 : newY ≤ 2 ^ 31)
    (hk1 : 1 ≤ k) (hk2 : k ≤ steps) :
    ∃ x, numberAdd startY (numberMul k (numberDiv (newY - startY) steps)) = some x ∧
      |x.toRat - ((startY : ℚ) + (k : ℚ) * (((newY - startY : Int) : ℚ) / steps))| ≤
        1026 / 2097152 ∧
      |(startY : ℚ) + (k : ℚ) * (((newY - startY : Int) : ℚ) / steps)| ≤ 2 ^ 31 + 2 ^ 32 := by
  have hS0 : (0 : ℚ) < (steps : ℚ) := by exact_mod_cast hs1
  have hS1 : (1 : ℚ) ≤ (steps : ℚ) := by exact_mod_cast hs1
  have hS2 : (steps : ℚ) ≤ 1024 := by exact_mod_cast hs2
  have hK1 : (1 : ℚ) ≤ (k : ℚ) := by exact_mod_cast hk1
  have hK2 : (k : ℚ) ≤ (steps : ℚ) := by exact_mod_cast hk2
  have hsq1 : (-2 ^ 31 : ℚ) ≤ (startY : ℚ) := by exact_mod_cast hy1
  have hsq2 : (startY : ℚ) ≤ 2 ^ 31 := by exact_mod_cast hy2
  have hnq1 : (-2 ^ 31 : ℚ) ≤ (newY : ℚ) := by exact_mod_cast hn1
  have hnq2 : (newY : ℚ) ≤ 2 ^ 31 := by exact_mod_cast hn2
  obtain ⟨d, hd⟩ : ∃ d : Int, d = newY - startY := ⟨_, rfl⟩
  rw [← hd]
  have hdq : (d : ℚ) = (newY : ℚ) - startY := by rw [hd]; push_cast; ring
  obtain ⟨w, hw⟩ : ∃ w : ℚ, w = (d : ℚ) / steps := ⟨_, rfl⟩
  rw [← hw]
  have hwS : w * steps = d := by rw [hw]; exact div_mul_cancel₀ _ hS0.ne'
  have hε : (2 : ℚ) ^ 33 / 2 ^ 54 = 1 / 2097152 := by norm_num
  have h900 : 33 ≤ 900 := by norm_num
  obtain ⟨hwb, hkwb⟩ := quotient_bounds w steps k d hS1 (by linarith only [hK1]) hK2 hwS
    (by linarith only [hdq, hsq2, hnq1]) (by linarith only [hdq, hsq1, hnq2])
  have hb1 : |(d : ℚ) / steps| < 2 ^ 33 := by
    rw [← hw, abs_lt]
    constructor
    · linarith only [hwb.1]
    · linarith only [hwb.2]
  obtain ⟨x1, h1, e1⟩ := numberDiv_error d steps 33 hs1 hb1 h900
  rw [← hw, hε, abs_le] at e1
  have hkδ := scaled_error_bounds k (x1.toRat - w) (by linarith only [hK1])
    (by linarith only [hK2, hS2]) e1.1 e1.2
  have hb2 : |(((k : Nat) : Int) : ℚ) * x1.toRat| < 2 ^ 33 := by
    rw [Int.cast_natCast, abs_lt]
    constructor
    · linarith only [hkwb.1, hkδ.1]
    · linarith only [hkwb.2, hkδ.2]
  obtain ⟨x2, h2, e2⟩ := numberMul_error (k : Int) x1 33 hb2 h900
  rw [Int.cast_natCast, hε, abs_le] at e2
  have hb3 : |(startY : ℚ) + x2.toRat| < 2 ^ 33 := by
    rw [abs_lt]
    constructor
    · linarith only [hkwb.1, hkδ.1, e2.1, hsq1]
    · linarith only [hkwb.2, hkδ.2, e2.2, hsq2]
  obtain ⟨x3, h3, e3⟩ := numberAdd_error startY x2 33 hb3 h900
  rw [hε, abs_le] at e3
  refine ⟨x3, by rw [h1, h2, h3], ?_, ?_⟩
  · rw [abs_le]
    constructor
    · linarith only [e2.1, e3.1, hkδ.1]
    · linarith only [e2.2, e3.2, hkδ.2]
  · rw [abs_le]
    constructor
    · linarith only [hkwb.1, hsq1]
    · linarith only [hkwb.2, hsq2]

theorem parseIntNumber_near_quotient (x : Binary64) (N : Int) (steps : Nat)
    (hs1 : 0 < steps) (hs2 : steps ≤ 1024)
    (herr : |x.toRat - (N : ℚ) / steps| ≤ 1026 / 2097152)
    (hbound : |(N : ℚ) / steps| ≤ 2 ^ 31 + 2 ^ 32)
    (hnd : ¬ (steps : Int) ∣ N) :
    parseIntNumber (some x) = some (Int.tdiv N steps) := by
  have hS0 : (0 : ℚ) < (steps : ℚ) := by exact_mod_cast hs1
  have hS2 : (steps : ℚ) ≤ 1024 := by exact_mod_cast hs2
  obtain ⟨v, hv⟩ : ∃ v : ℚ, v = (N : ℚ) / steps := ⟨_, rfl⟩
  rw [← hv] at herr hbound
  have hNv : (N : ℚ) = v * steps := by rw [hv]; exact (div_mul_cancel₀ _ hS0.ne').symm
  have hr0 : N.natAbs % steps ≠ 0 := by
    intro h
    exact hnd (Int.natCast_dvd.mpr (Nat.dvd_of_mod_eq_zero h))
  have hrlt : N.natAbs % steps < steps := Nat.mod_lt _ hs1
  have hdecomp : N.natAbs = steps * (N.natAbs / steps) + N.natAbs % steps :=
    (Nat.div_add_mod _ _).symm
  obtain ⟨F, hF⟩ : ∃ F : Nat, F = N.natAbs / steps := ⟨_, rfl⟩
  obtain ⟨r, hr⟩ : ∃ r : Nat, r = N.natAbs % steps := ⟨_, rfl⟩
  rw [← hF, ← hr] at hdecomp
  rw [← hr] at hr0 hrlt
  have hAq : |v| * steps = (steps : ℚ) * F + r := by
    have h1 : ((N.natAbs : Nat) : ℚ) = |v| * steps := by
      rw [Nat.cast_natAbs, Int.cast_abs, hNv, abs_mul, abs_of_pos hS0]
    rw [← h1, hdecomp]; push_cast; ring
  have hrq1 : (1 : ℚ) ≤ r := by
    have : 1 ≤ r := by omega
    exact_mod_cast this
  have hrq2 : (r : ℚ) + 1 ≤ steps := by
    have : r + 1 ≤ steps := by omega
    exact_mod_cast this
  have hvlo : (F : ℚ) + 1 / 1024 ≤ |v| := by
    by_contra hc
    push_neg at hc
    nlinarith
  have hvhi : |v| ≤ (F : ℚ) + 1 - 1 / 1024 := by
    by_contra hc
    push_neg at hc
    nlinarith
  have habs : |(|x.toRat| - |v|)| ≤ 1026 / 2097152 :=
    le_trans (abs_abs_sub_abs_le_abs_sub _ _) herr
  rw [abs_le] at habs
  have hF0 : (0 : ℚ) ≤ F := by positivity
  have hFb : F + 1 ≤ 10 ^ 21 := by
    have h1 : (F : ℚ) + 1 ≤ 10 ^ 21 := by
      have : (F : ℚ) ≤ 2 ^ 31 + 2 ^ 32 := by linarith
      norm_num at this ⊢
      linarith
    exact_mod_cast h1
  have hlo : (F : ℚ) ≤ |x.toRat| := by linarith [habs.1]
  have hhi : |x.toRat| < (F : ℚ) + 1 := by linarith [habs.2]
  have hmin : (1 : ℚ) / 10 ^ 6 ≤ |x.toRat| := by
    have : (1 : ℚ) / 10 ^ 6 ≤ 1 / 1024 - 1026 / 2097152 := by norm_num
    linarith [habs.1]
  rw [parseIntNumber_of_bounds x F hlo hhi hmin hFb]
  rw [abs_le] at herr
  have hη : (1026 : ℚ) / 2097152 < 1 / 1024 := by norm_num
  rcases lt_or_le N 0 with hneg | hpos
  · have hvneg : v < 0 := by
      have : (N : ℚ) < 0 := by exact_mod_cast hneg
      rw [hNv] at this
      by_contra hc
      push_neg at hc
      have := mul_nonneg hc hS0.le
      linarith
    have hx3 : x.toRat < 0 := by
      rw [abs_of_neg hvneg] at hvlo
      linarith [herr.2]
    rw [if_pos hx3]
    have hNabs : N = -((N.natAbs : Nat) : Int) := by omega
    rw [hNabs, Int.neg_tdiv, ← Int.ofNat_tdiv, ← hF]
  · have hvpos : 0 ≤ v := by
      have : (0 : ℚ) ≤ (N : ℚ) := by exact_mod_cast hpos
      rw [hNv] at this
      by_contra hc
      push_neg at hc
      have := mul_neg_of_neg_of_pos hc hS0
      linarith
    have hx3 : ¬ x.toRat < 0 := by
      rw [abs_of_nonneg hvpos] at hvlo
      linarith [herr.1]
    rw [if_neg hx3]
    have hNabs : N = ((N.natAbs : Nat) : Int) := by omega
    rw [hNabs, ← Int.ofNat_tdiv, ← hF]

theorem frameY_of_not_dvd (steps : Nat) (startY newY : Int) (k : Nat)
    (hs1 : 0 < steps) (hs2 : steps ≤ 1024)
    (hy1 : -2 ^ 31 ≤ startY) (hy2 : startY ≤ 2 ^ 31)
    (hn1 : -2 ^ 31 ≤ newY) (hn2 : newY ≤ 2 ^ 31)
    (hk1 : 1 ≤ k) (hk2 : k ≤ steps)
    (hnd : ¬ (steps : Int) ∣ k * (newY - startY)) :
    frameY steps startY newY k =
      some (Int.tdiv (startY * steps + k * (newY - startY)) steps) := by
  have hS0 : (0 : ℚ) < (steps : ℚ) := by exact_mod_cast hs1
  obtain ⟨x, hx, herr, hbound⟩ :=
    frameY_error steps startY newY k hs1 hs2 hy1 hy2 hn1 hn2 hk1 hk2
  have hval : (startY : ℚ) + (k : ℚ) * (((newY - startY : Int) : ℚ) / steps) =
      ((startY * steps + k * (newY - startY) : Int) : ℚ) / steps := by
    push_cast
    field_simp
  rw [hval] at herr hbound
  have hnd2 : ¬ (steps : Int) ∣ startY * steps + k * (newY - startY) := by
    intro h
    exact hnd ((Int.dvd_add_right (Dvd.intro_left startY rfl)).mp h)
  unfold frameY
  rw [hx]
  exact parseIntNumber_near_quotient x _ steps hs1 hs2 herr hbound hnd2

theorem frameY_of_dvd (steps : Nat) (startY newY : Int) (k : Nat)
    (hs : 0 < steps) (hdvd : (steps : Int) ∣ newY - startY)
    (hs1 : -2 ^ 52 < startY) (hs2 : startY < 2 ^ 52)
    (hn1 : -2 ^ 52 < newY) (hn2 : newY < 2 ^ 52) (hk : k ≤ steps) :
    frameY steps startY newY k =
      some (Int.tdiv (startY * steps + k * (newY - startY)) steps) := by
  obtain ⟨n, hn⟩ := hdvd
  have hd : newY - startY = n * steps := by rw [hn]; ring
  rw [frameY_exact steps startY newY n k hs hd hs1 hs2 hn1 hn2 hk]
  have hs0 : (steps : Int) ≠ 0 := by omega
  have : startY * steps + k * (newY - startY) = (startY + k * n) * steps := by
    rw [hd]; ring
  rw [this, Int.mul_tdiv_cancel _ hs0]

theorem not_dvd_of_prime (steps k : Nat) (d : Int) (hp : steps.Prime) (hk1 : 1 ≤ k)
    (hk2 : k < steps) (hd : ¬ (steps : Int) ∣ d) : ¬ (steps : Int) ∣ k * d := by
  intro h
  have hpi : Prime (steps : Int) := Nat.prime_iff_prime_int.mp hp
  rcases hpi.dvd_or_dvd h with h1 | h1
  · have := Nat.le_of_dvd (by omega) (Int.natCast_dvd_natCast.mp h1)
    omega
  · exact hd h1

theorem closeAllWindow_windows_other (s : State) (w v : Nat) (hv : v ≠ w) :
    (closeAllWindow s w).windows[v]? = s.windows[v]? := by
  unfold closeAllWindow
  simp only [modifyWindow_get?, if_neg hv]
  cases hw : s.windows[w]? with
  | none => rfl
  | some win =>
      cases hcb : win.electronNotifyOnCloseFunc with
      | none => simp [hcb]
      | some cb => simp [hcb, modifyWindow_get?, hv]

theorem foldl_closeAllWindow_windows_other (l : List Nat) (v : Nat) (hv : v ∉ l) :
    ∀ s : State, (l.foldl closeAllWindow s).windows[v]? = s.windows[v]? := by
  induction l with
  | nil => intro s; rfl
  | cons a rest ih =>
      intro s
      simp only [List.foldl_cons]
      rw [ih (fun h => hv (List.mem_cons_of_mem _ h)),
        closeAllWindow_windows_other s a v (by intro h; subst h; exact hv (List.mem_cons_self _ _))]

theorem foldl_destroy_other (l : List Nat) (v : Nat) (hv : v ∉ l) :
    ∀ ws : List NotificationWindow,
      (l.foldl (fun ws w => modifyWindow ws w
        (fun win => { win with destroyed := true, visible := false })) ws)[v]? = ws[v]? := by
  induction l with
  | nil => intro ws; rfl
  | cons a rest ih =>
      intro ws
      simp only [List.foldl_cons]
      rw [ih (fun h => hv (List.mem_cons_of_mem _ h)), modifyWindow_get?,
        if_neg (by intro h; subst h; exact hv (List.mem_cons_self _ _))]

theorem foldl_closeAllWindow_frame (l : List Nat) :
    ∀ s : State,
      l.foldl closeAllWindow s =
        { s with
          windows := (l.foldl closeAllWindow s).windows
          events := (l.foldl closeAllWindow s).events } := by
  induction l with
  | nil => intro s; rfl
  | cons a rest ih =>
      intro s
      simp only [List.foldl_cons]
      have h := ih (closeAllWindow s a)
      have f := closeAllWindow_frame s a
      generalize rest.foldl closeAllWindow (closeAllWindow s a) = u at h ⊢
      generalize closeAllWindow s a = c at h f
      rw [f] at h
      exact h

theorem closeAll_eq (s : State) :
    closeAll s =
      { s with
        animationQueue := s.animationQueue.clear
        activeNotifications := []
        inactiveWindows := []
        nextInsertPos := { x := none, y := none }
        windows := (closeAll s).windows
        events := (closeAll s).events } := by
  have h := foldl_closeAllWindow_frame s.activeNotifications
    { s with animationQueue := s.animationQueue.clear }
  simp only [closeAll, cleanUpInactiveWindow]
  generalize (s.activeNotifications.foldl closeAllWindow
    { s with animationQueue := s.animationQueue.clear }) = u at h ⊢
  cases u
  simp only [State.mk.injEq] at h ⊢
  simp only [h, and_self]

theorem closeAll_windows_other (s : State) (v : Nat) (ha : v ∉ s.activeNotifications)
    (hi : v ∉ s.inactiveWindows) : (closeAll s).windows[v]? = s.windows[v]? := by
  have hinact : (s.activeNotifications.foldl closeAllWindow
      { s with animationQueue := s.animationQueue.clear }).inactiveWindows = s.inactiveWindows :=
    foldl_preserves (fun t => t.inactiveWindows) closeAllWindow
      (fun t w => by rw [closeAllWindow_frame]) _ _
  simp only [closeAll, cleanUpInactiveWindow]
  rw [foldl_destroy_other _ v (by rw [hinact]; exact hi),
    foldl_closeAllWindow_windows_other _ v ha]

/-- C21: `closeAll()` leaves the backlog (its contents and their order), the
id counter and the closed flags as they were, and `config` and the timers as
well: the state after it is the state before it except for the animation
queue, the active list, the inactive pool and `nextInsertPos`, for the
windows (those of the two lists are closed, every other window is as before)
and for the `close-all` calls it has made. Every request that was waiting in
the backlog is still waiting there, at the same place. -/
theorem closeAll_keeps_backlog (s : State) :
    closeAll s =
      { s with
        animationQueue := (closeAll s).animationQueue
        activeNotifications := (closeAll s).activeNotifications
        inactiveWindows := (closeAll s).inactiveWindows
        nextInsertPos := (closeAll s).nextInsertPos
        windows := (closeAll s).windows
        events := (closeAll s).events } ∧
    (closeAll s).notificationQueue = s.notificationQueue ∧
    (closeAll s).latestID = s.latestID ∧
    (closeAll s).closedNotifications = s.closedNotifications ∧
    (closeAll s).config = s.config ∧
    (closeAll s).timers = s.timers ∧
    (∀ (i : Nat) (n : NotificationObj),
      s.notificationQueue[i]? = some n → (closeAll s).notificationQueue[i]? = some n) ∧
    (∀ v, v ∉ s.activeNotifications → v ∉ s.inactiveWindows →
      (closeAll s).windows[v]? = s.windows[v]?) := by
  have h := closeAll_eq s
  have hq : (closeAll s).notificationQueue = s.notificationQueue := by rw [h]
  refine ⟨?_, hq, by rw [h], by rw [h], by rw [h], by rw [h], ?_,
    fun v ha hi => closeAll_windows_other s v ha hi⟩
  · rw [h]
  · intro i n hn
    rw [hq]
    exact hn

/-- Witness of C21: two notifications are on display and request 2 waits in
the backlog when `closeAll()` is called; request 2 is still in the backlog
afterwards and the id counter is still 3. -/
theorem closeAll_keeps_backlog_witness :
    twoShownOneQueued.notificationQueue = [{ id := 2, request := exampleRequest 2 }] ∧
    twoShownOneQueued.activeNotifications = [0, 1] ∧
    (closeAll twoShownOneQueued).notificationQueue =
      [{ id := 2, request := exampleRequest 2 }] ∧
    (closeAll twoShownOneQueued).activeNotifications = [] ∧
    (closeAll twoShownOneQueued).latestID = 3 :=
  ⟨by decide, by decide,
    ((closeAll_keeps_backlog twoShownOneQueued).2.1).trans (by decide),
    by decide,
    ((closeAll_keeps_backlog twoShownOneQueued).2.2.1).trans (by decide)⟩

theorem toBinary64_toRat_of_lt (n : Int) (h : n.natAbs < 2 ^ 53) :
    (toBinary64 n 1).map Binary64.toRat = some (n : ℚ) := by
  obtain ⟨t, ht⟩ := toBinary64_exact n 1 (by norm_num) h
  have e : n * ((1 : Nat) : Int) = n := by simp
  rw [e] at ht
  rw [ht]
  simp only [Option.map_some', Binary64.toRat, Option.some.injEq, zpow_neg, zpow_natCast]
  push_cast
  have hT : (2 : ℚ) ^ t ≠ 0 := by positivity
  field_simp

theorem parseIntInteger_eq (n : Int) (hb : n.natAbs < 10 ^ 21)
    (hr : (toBinary64 n 1).map Binary64.toRat = some (n : ℚ)) :
    parseIntInteger n = some n := by
  unfold parseIntInteger
  cases hx : toBinary64 n 1 with
  | none => rw [hx] at hr; cases hr
  | some x =>
      rw [hx] at hr
      simp only [Option.map_some', Option.some.injEq] at hr
      by_cases h0 : n = 0
      · subst h0
        have hm : x.mantissa = 0 := by
          have hpow : (0 : ℚ) < (2 : ℚ) ^ x.exponent := by positivity
          unfold Binary64.toRat at hr
          simp only [Int.cast_zero, mul_eq_zero] at hr
          rcases hr with h | h
          · exact_mod_cast h
          · exact absurd h hpow.ne'
        simp [parseIntNumber, hm]
      · have habs : |x.toRat| = ((n.natAbs : Nat) : ℚ) := by
          rw [hr, Nat.cast_natAbs, Int.cast_abs]
        have hpos : 1 ≤ n.natAbs := Int.natAbs_pos.mpr h0
        have hposq : (1 : ℚ) ≤ ((n.natAbs : Nat) : ℚ) := by exact_mod_cast hpos
        rw [parseIntNumber_of_bounds x n.natAbs (by rw [habs]) (by rw [habs]; linarith)
          (by
            rw [habs]
            have : (1 : ℚ) / 10 ^ 6 ≤ 1 := by norm_num
            linarith)
          (by omega)]
        rw [hr]
        by_cases hneg : n < 0
        · have : (n : ℚ) < 0 := by exact_mod_cast hneg
          rw [if_pos this]
          congr 1
          omega
        · have : ¬ (n : ℚ) < 0 := by
            have : (0 : ℚ) ≤ (n : ℚ) := by exact_mod_cast (not_lt.mp hneg)
            linarith
          rw [if_neg this]
          congr 1
          omega

theorem animationLoop_frames (steps : Nat) (startY newY : Int) (hsteps : 1 ≤ steps)
    (fuel : Nat) (hf : steps ≤ fuel) :
    ∃ frames, animationLoop steps startY newY fuel 1 [] = some frames ∧
      frames.length = steps ∧
      ∀ k : Nat, 1 ≤ k → k < steps → frames[k - 1]? = some (frameY steps startY newY k) := by
  refine ⟨_, by rw [animationLoop_eq steps startY newY fuel 1 [] hsteps, if_pos (by omega)],
    ?_, ?_⟩
  · simp only [List.nil_append, List.length_append, List.length_map, List.length_range',
      List.length_singleton]
    omega
  · intro k hk1 hk
    have hlt : k - 1 < ((List.range' 1 (steps - 1)).map (frameY steps startY newY)).length := by
      simp only [List.length_map, List.length_range']
      omega
    simp only [List.nil_append]
    rw [List.getElem?_append_left hlt, List.getElem?_map,
      List.getElem?_range' 1 1 (show k - 1 < steps - 1 by omega)]
    simp only [Option.map_some', one_mul]
    congr 2
    omega

/-- C17 (as the code has it): for every `animationSteps ≥ 1`, every `startY`
and every `newY`, the animation calls `done` at tick `animationSteps` and not
before, and tick `k < animationSteps` sets `y = parseInt(startY + k * step)`
with `step = (newY - startY) / animationSteps` in JavaScript (binary64)
arithmetic. The last tick sets `parseInt(newY)`, which is exactly `newY` when
`newY` is a JavaScript number below `1e21` in size (every integer below
`2 ^ 53` in size is one). The value of tick `k` is
`startY + k * (newY - startY) / animationSteps`, truncated, when
`animationSteps` divides `newY - startY` (positions below `2 ^ 52` in size),
and, for positions of at most `2 ^ 31` in size and at most 1024 steps, also
when `animationSteps` does not divide `k * (newY - startY)`; that is the case
at every tick when `animationSteps` is a prime number, such as the 5 of the
configuration. In a state with that `animationSteps` in which `parseInt`
keeps `firstPos.x` and the slot of index `i`, `moveNotificationAnimation`
for index `i` returns and leaves the window at `(firstPos.x, slotY i)`,
whatever its position was. -/
theorem animation_done_at_last_tick (steps : Nat) (startY newY : Int) (hsteps : 1 ≤ steps) :
    (∀ fuel, fuel < steps → animationLoop steps startY newY fuel 1 [] = none) ∧
    (∀ fuel, steps ≤ fuel →
      ∃ frames, animationLoop steps startY newY fuel 1 [] = some frames ∧
        frames.length = steps ∧
        ∀ k : Nat, 1 ≤ k → k < steps →
          frames[k - 1]? = some (frameY steps startY newY k)) ∧
    (newY.natAbs < 2 ^ 53 → (toBinary64 newY 1).map Binary64.toRat = some (newY : ℚ)) ∧
    (newY.natAbs < 10 ^ 21 → (toBinary64 newY 1).map Binary64.toRat = some (newY : ℚ) →
      parseIntInteger newY = some newY ∧
      ∀ fuel, steps ≤ fuel →
        animationLoop steps startY newY fuel 1 [] =
          some ((List.range' 1 (steps - 1)).map (frameY steps startY newY) ++
            [parseIntInteger newY])) ∧
    ((steps : Int) ∣ newY - startY →
      -2 ^ 52 < startY → startY < 2 ^ 52 → -2 ^ 52 < newY → newY < 2 ^ 52 →
      ∀ k : Nat, 1 ≤ k → k < steps →
        frameY steps startY newY k =
          some (Int.tdiv (startY * steps + k * (newY - startY)) steps)) ∧
    (steps ≤ 1024 →
      -2 ^ 31 ≤ startY → startY ≤ 2 ^ 31 → -2 ^ 31 ≤ newY → newY ≤ 2 ^ 31 →
      ∀ k : Nat, 1 ≤ k → k < steps →
        (¬ (steps : Int) ∣ k * (newY - startY) ∨ steps.Prime) →
        frameY steps startY newY k =
          some (Int.tdiv (startY * steps + k * (newY - startY)) steps)) ∧
    (∀ (s : State) (i w : Nat), s.config.animationSteps = steps →
      s.activeNotifications[i]? = some w →
      parseIntInteger s.config.firstPos.x = some s.config.firstPos.x →
      parseIntInteger (slotY s.config i) = some (slotY s.config i) →
      ∃ t, moveNotificationAnimation s i = some t ∧
        ∀ v, windowPos t v =
          if v = w then
            (windowPos s v).map (fun _ => (some s.config.firstPos.x, some (slotY s.config i)))
          else windowPos s v) := by
  refine ⟨?_, ?_, ?_, ?_, ?_, ?_, ?_⟩
  · intro fuel hf
    rw [animationLoop_eq steps startY newY fuel 1 [] hsteps, if_neg (by omega)]
  · intro fuel hf
    exact animationLoop_frames steps startY newY hsteps fuel hf
  · intro hb
    exact toBinary64_toRat_of_lt newY hb
  · intro hb hr
    have hp := parseIntInteger_eq newY hb hr
    refine ⟨hp, ?_⟩
    intro fuel hf
    rw [animationLoop_eq steps startY newY fuel 1 [] hsteps, if_pos (by omega), hp]
    simp
  · intro hdvd hs1 hs2 hn1 hn2 k _ hk
    exact frameY_of_dvd steps startY newY k (by omega) hdvd hs1 hs2 hn1 hn2 (by omega)
  · intro h1024 hs1 hs2 hn1 hn2 k hk1 hk hcase
    by_cases hdvd : (steps : Int) ∣ newY - startY
    · exact frameY_of_dvd steps startY newY k (by omega) hdvd (by omega) (by omega) (by omega)
        (by omega) (by omega)
    · have hnd : ¬ (steps : Int) ∣ k * (newY - startY) := by
        rcases hcase with h | h
        · exact h
        · exact not_dvd_of_prime steps k _ h hk1 hk hdvd
      exact frameY_of_not_dvd steps startY newY k (by omega) h1024 hs1 hs2 hn1 hn2 hk1
        (by omega) hnd
  · intro s i w hcfg hw _ _
    obtain ⟨t, ht, _, hpos⟩ := moveNotificationAnimation_windowPos s i w hw (by omega)
    exact ⟨t, ht, hpos⟩

/-- Witness of C17 (as the code has it): five steps from 0 to 84, the move of
a window by one slot of the default size. -/
theorem animation_done_at_last_tick_witness :
    animationLoop 5 0 84 4 1 [] = none ∧
    parseIntInteger 84 = some 84 ∧
    animationLoop 5 0 84 5 1 [] = some [some 16, some 33, some 50, some 67, some 84] ∧
    frameY 5 0 84 3 = some (Int.tdiv (0 * 5 + 3 * (84 - 0)) 5) :=
  ⟨(animation_done_at_last_tick 5 0 84 (by decide)).1 4 (by decide),
    ((animation_done_at_last_tick 5 0 84 (by decide)).2.2.2.1 (by decide)
      ((animation_done_at_last_tick 5 0 84 (by decide)).2.2.1 (by decide))).1,
    (((animation_done_at_last_tick 5 0 84 (by decide)).2.2.2.1 (by decide)
      ((animation_done_at_last_tick 5 0 84 (by decide)).2.2.1 (by decide))).2 5
        (by decide)).trans (by decide),
    (animation_done_at_last_tick 5 0 84 (by decide)).2.2.2.2.2.1 (by decide) (by decide)
      (by decide) (by decide) (by decide) 3 (by decide) (by decide) (Or.inr Nat.prime_five)⟩

/-- Counterexample to C17: with 22 steps from 0 to 30, tick 11 sets
`y = 14`, where `0 + 11 * (30 - 0) / 22` is 15 (the JavaScript product
`11 * (30 / 22)` is `14.999999999999998`); with 22 steps from -15 to 15,
tick 11 sets `y = -1`, where `-15 + 11 * 30 / 22` is 0 (the JavaScript sum is
`-1.7763568394002505e-15`, and `parseInt` reads the first digit of that
string). The target `3e21` is a JavaScript number (it is
`mantissa * 2 ^ exponent` exactly), and the `parseInt` of the last tick
gives 3 for it, not the target. -/
theorem tick_is_not_truncated_quotient :
    (animationLoop 22 0 30 22 1 []).map (fun frames => frames[10]?) = some (some (some 14)) ∧
    Int.tdiv (0 * 22 + 11 * (30 - 0)) 22 = 15 ∧
    (animationLoop 22 (-15) 15 22 1 []).map (fun frames => frames[10]?) =
      some (some (some (-1))) ∧
    Int.tdiv (-15 * 22 + 11 * (15 - -15)) 22 = 0 ∧
    (toBinary64 (3 * 10 ^ 21) 1).map (fun x => x.mantissa * 2 ^ x.exponent.toNat) =
      some (3 * 10 ^ 21) ∧
    parseIntInteger (3 * 10 ^ 21) = some 3 := by
  decide

end ElectronNotify
